import Mathlib

/-!
# viren2d: image buffer and geometric primitives

A shallow embedding of `src/src/imagebuffer.cpp` and of parts of
`src/src/primitives.cpp`, `src/src/styles.cpp`, `src/src/colorgradients.cpp`,
`src/src/helpers/drawing_helpers_text.cpp` and `src/src/vivi/bindings.cpp`,
with the properties of the specification proved about it.

Conventions of the embedding:

* a C++ `int` is an `Int`; signed overflow is undefined behaviour in C++ and
  the arithmetic here is the exact one;
* a C++ `double` is a rational number `ℚ`: comparisons and the division by
  `2.0` are exact; NaN and the infinities are represented only in `Double`,
  which the clamping of the color components uses;
* pixel memory is a map from byte offsets (relative to the `data` pointer)
  to byte values; a null `data` pointer is `none`;
* a thrown exception is an `Except.error` carrying the exception class;
* functions of external libraries (`std::sqrt`, `eps_equal`, the string
  helpers, the image encoders, the text measurement of the rasterizer) are
  parameters of the definitions that call them.
-/

namespace viren2d

/-! ## Definitions -/

/-- The exception classes thrown by the library, and `null_dereference` for a
write through a null `data` pointer (undefined behaviour in C++). -/
inductive Error where
  | invalid_argument
  | runtime_error
  | logic_error
  | null_dereference
  | out_of_range
  deriving DecidableEq, Repr

/-- Rectangle of `primitives.h`/`primitives.cpp`: center, size, clockwise
rotation in degrees and corner radius. -/
structure Rect where
  cx : ℚ
  cy : ℚ
  width : ℚ
  height : ℚ
  rotation : ℚ
  radius : ℚ
  deriving DecidableEq

/-- Embeds `Rect::half_width`: `width / 2.0`. -/
def Rect.half_width (r : Rect) : ℚ := r.width / 2

/-- Embeds `Rect::half_height`: `height / 2.0`. -/
def Rect.half_height (r : Rect) : ℚ := r.height / 2

/-- Embeds `Rect::IsValid` (primitives.cpp): the early `return false` for a radius
strictly between 0.5 and 1.0, then the conjunction of the four comparisons. -/
def Rect.IsValid (r : Rect) : Bool :=
  if decide (r.radius > 1 / 2) && decide (r.radius < 1) then
    false
  else
    decide (r.width > 0) && decide (r.height > 0)
      && decide (r.radius ≤ min r.half_height r.half_width)
      && decide (r.radius ≥ 0)

/-! ### Image buffer -/

/-- Pixel memory as seen from a `data` pointer: the byte stored at each byte
offset from the pointer. -/
abbrev Mem := Int → Nat

/-- Memory holding the bytes of a list from offset 0 on (0 elsewhere). -/
def memOfList (l : List Nat) : Mem := fun a => if a < 0 then 0 else l.getD a.toNat 0

/-- Element types of an image buffer (`enum class ImageBufferType`). -/
inductive ImageBufferType where
  | UInt8
  | Int32
  | Float
  | Double
  deriving DecidableEq, Repr

/-- Embeds `ItemSizeFromImageBufferType`: `sizeof` of the element type. -/
def ItemSizeFromImageBufferType : ImageBufferType → Int
  | .UInt8 => 1
  | .Int32 => 4
  | .Float => 4
  | .Double => 8

/-- Object representation of the value `255` converted to the element type
(the right-hand side of `dst.At<_Tp>(..) = 255`): little-endian two's
complement for the integer types, little-endian IEEE-754 for `float`
(`0x437F0000`) and `double` (`0x406FE00000000000`). -/
def value255 : ImageBufferType → List Nat
  | .UInt8 => [255]
  | .Int32 => [255, 0, 0, 0]
  | .Float => [0, 0, 127, 67]
  | .Double => [0, 0, 0, 0, 0, 224, 111, 64]

/-- Reads the `size` bytes of one element stored at byte offset `off`. -/
def readElem (m : Mem) (off size : Int) : List Nat :=
  (List.range size.toNat).map (fun (b : Nat) => m (off + (b : Int)))

/-- Stores the bytes `v` of one element at byte offset `off`. -/
def writeElem (m : Mem) (off : Int) (v : List Nat) : Mem :=
  fun a => if off ≤ a ∧ a < off + (v.length : Int) then v.getD (a - off).toNat 0 else m a

/-- Embeds `std::memcpy(dst, src, n)`: the first `n` bytes of `dst` become those of
`src`. A negative `n` (an `int` converted to a `size_t` beyond any block that
`malloc` returns) copies nothing here. -/
def memcpy (dst src : Mem) (n : Int) : Mem :=
  fun a => if 0 ≤ a ∧ a < n then src a else dst a

/-- The loop `for (int i = start; i < stop; i += step) body`, run for at most
`fuel` iterations. -/
def forStepFuel {σ : Type} : Nat → Int → Int → Int → (Int → σ → σ) → σ → σ
  | 0, _, _, _, _, s => s
  | fuel + 1, i, stop, step, body, s =>
    if i < stop then forStepFuel fuel (i + step) stop step body (body i s) else s

/-- The loop `for (int i = start; i < stop; i += step) body`. Every loop of
the source has `step ≥ 1`, for which `stop - start` iterations of fuel are
never used up (`forStep_eq_foldl`). -/
def forStep {σ : Type} (start stop step : Int) (body : Int → σ → σ) (s : σ) : σ :=
  forStepFuel (stop - start).toNat start stop step body s

/-- The members of `class ImageBuffer` as `imagebuffer.cpp` uses them; `data`
is `none` for a null pointer and otherwise the memory it points to. -/
structure ImageBuffer where
  data : Option Mem
  width : Int
  height : Int
  channels : Int
  item_size : Int
  row_stride : Int
  buffer_type : ImageBufferType
  owns_data : Bool

/-- The state `ImageBuffer::Cleanup` leaves, which is also the one of the
default constructor: null data, all sizes 0, type `UInt8`, not owning. -/
def ImageBuffer.Cleanup : ImageBuffer :=
  { data := none, width := 0, height := 0, channels := 0, item_size := 0,
    row_stride := 0, buffer_type := .UInt8, owns_data := false }

/-- Embeds `ImageBuffer::ImageBuffer(int w, int h, int ch, ImageBufferType buf_type)`.
`fresh` is the outcome of `std::malloc(num_bytes)`: `none` for a null pointer,
`some g` for a block whose indeterminate initial content is `g`. -/
def ImageBuffer.alloc (fresh : Option Mem) (w h ch : Int) (buf_type : ImageBufferType) :
    ImageBuffer :=
  let item_size := ItemSizeFromImageBufferType buf_type
  match fresh with
  | some g =>
    { data := some g, width := w, height := h, channels := ch, item_size := item_size,
      row_stride := w * ch * item_size, buffer_type := buf_type, owns_data := true }
  | none => ImageBuffer.Cleanup

/-- Modelled from the spec: `ImageBuffer::IsContiguous` of the header
`viren2d/imagebuffer.h`, which is not among the sources; the spec gives the
test as `stride == width*channels*item_size`. -/
def ImageBuffer.IsContiguous (b : ImageBuffer) : Bool :=
  decide (b.row_stride = b.width * b.channels * b.item_size)

/-- Modelled from the spec: the byte offset that the accessors `At<_Tp>`,
`MutablePtr<_Tp>` and `ImmutablePtr<_Tp>` of the header `viren2d/imagebuffer.h`
(not among the sources) add to `data`: strided element access, `row` rows of
`row_stride` bytes plus `col * channels + channel` items of `item_size`
bytes. No bounds are checked. -/
def ImageBuffer.ByteOffset (b : ImageBuffer) (row col channel : Int) : Int :=
  row * b.row_stride + (col * b.channels + channel) * b.item_size

/-- The value of `At<_Tp>(row, col, channel)`: the `sizeof(_Tp)` bytes at
`ByteOffset`; `none` when `data` is null. -/
def ImageBuffer.At (b : ImageBuffer) (Tp : ImageBufferType) (row col channel : Int) :
    Option (List Nat) :=
  b.data.map (fun m => readElem m (b.ByteOffset row col channel) (ItemSizeFromImageBufferType Tp))

/-- Embeds `ImageBuffer::IsValid`: the data pointer is not null. -/
def ImageBuffer.IsValid (b : ImageBuffer) : Bool := b.data.isSome

/-- Embeds `void ImageBuffer::CreateCopy(buffer, width, height, channels, row_stride,
buffer_type)`. `fresh` is the outcome of `std::malloc(num_bytes)`; the result
is the new state of `*this` (whose previous state `Cleanup` discards), or the
`std::runtime_error` of a failed allocation. Copying from a null `buffer` is
undefined behaviour, reported as `null_dereference`. -/
def ImageBuffer.CreateCopy (fresh : Option Mem) (buffer : Option Mem)
    (width height channels row_stride : Int) (buffer_type : ImageBufferType) :
    Except Error ImageBuffer :=
  let num_bytes := height * row_stride
  match fresh with
  | none => .error .runtime_error
  | some g =>
    match buffer with
    | none => .error .null_dereference
    | some src =>
      .ok { data := some (memcpy g src num_bytes), width := width, height := height,
            channels := channels, item_size := ItemSizeFromImageBufferType buffer_type,
            row_stride := row_stride, buffer_type := buffer_type, owns_data := true }

/-- Embeds `ImageBuffer ImageBuffer::CreateCopy() const`. -/
def ImageBuffer.CreateCopySelf (fresh : Option Mem) (b : ImageBuffer) :
    Except Error ImageBuffer :=
  ImageBuffer.CreateCopy fresh b.data b.width b.height b.channels b.row_stride b.buffer_type

/-- One pass of the body of the loops of `helpers::SwapChannels<_Tp>`: swaps
the elements `ptr_row[col + ch1]` and `ptr_row[col + ch2]`, where `ptr_row`
is at byte offset `rowOff` and an element has `sz` bytes. -/
def swapAt (sz rowOff col ch1 ch2 : Int) (m : Mem) : Mem :=
  let tmp := readElem m (rowOff + (col + ch1) * sz) sz
  let m1 := writeElem m (rowOff + (col + ch1) * sz) (readElem m (rowOff + (col + ch2) * sz) sz)
  writeElem m1 (rowOff + (col + ch2) * sz) tmp

/-- Embeds `helpers::SwapChannels<_Tp>(buffer, ch1, ch2)` on the memory `m` of
`buffer` (not null at the only call). -/
def helpers.SwapChannels (Tp : ImageBufferType) (buffer : ImageBuffer) (m : Mem)
    (ch1 ch2 : Int) : Mem :=
  let sz := ItemSizeFromImageBufferType Tp
  let rows := if buffer.IsContiguous then 1 else buffer.height
  let values_per_row :=
    if buffer.IsContiguous then buffer.width * buffer.channels * buffer.height
    else buffer.width * buffer.channels
  forStep 0 rows 1 (fun row m =>
    forStep 0 values_per_row buffer.channels (fun col m =>
      swapAt sz (buffer.ByteOffset row 0 0) col ch1 ch2 m) m) m

/-- Embeds `void ImageBuffer::SwapChannels(int ch1, int ch2)`: the new state of
`*this`, or the exception thrown. -/
def ImageBuffer.SwapChannels (b : ImageBuffer) (ch1 ch2 : Int) : Except Error ImageBuffer :=
  if ch1 < 0 ∨ ch1 ≥ b.channels ∨ ch2 < 0 ∨ ch2 ≥ b.channels then
    .error .invalid_argument
  else
    match b.data with
    | none => .ok b
    | some m =>
      if ch1 = ch2 then .ok b
      else .ok { b with data := some (helpers.SwapChannels b.buffer_type b m ch1 ch2) }

/-- Body of the loops of `helpers::ConversionHelperGray<_Tp>` for one
`(row, col)`, on the memory of `dst`. -/
def grayPixel (Tp : ImageBufferType) (src dst : ImageBuffer) (sdata : Mem)
    (channels_out row col : Int) (m : Mem) : Mem :=
  let sz := ItemSizeFromImageBufferType Tp
  let m := writeElem m (dst.ByteOffset row col 0) (readElem sdata (src.ByteOffset row col 0) sz)
  let m := writeElem m (dst.ByteOffset row col 1) (readElem sdata (src.ByteOffset row col 0) sz)
  let m := writeElem m (dst.ByteOffset row col 2) (readElem sdata (src.ByteOffset row col 0) sz)
  if channels_out = 4 then writeElem m (dst.ByteOffset row col 3) (value255 Tp) else m

/-- Embeds `helpers::ConversionHelperGray<_Tp>(src, channels_out)`. A failed
allocation leaves `dst` with null data; writing to it is undefined behaviour,
reported as `null_dereference` when the loop body runs at all. -/
def helpers.ConversionHelperGray (Tp : ImageBufferType) (fresh : Option Mem)
    (src : ImageBuffer) (channels_out : Int) : Except Error ImageBuffer :=
  if src.channels ≠ 1 then .error .invalid_argument
  else
    match src.data with
    | none => .error .invalid_argument
    | some sdata =>
      if channels_out ≠ 3 ∧ channels_out ≠ 4 then .error .invalid_argument
      else
        let dst := ImageBuffer.alloc fresh src.width src.height channels_out src.buffer_type
        let rows := if src.IsContiguous then 1 else src.height
        let cols := if src.IsContiguous then src.width * src.height else src.width
        match dst.data with
        | none => if 0 < rows ∧ 0 < cols then .error .null_dereference else .ok dst
        | some d =>
          .ok { dst with data := some (forStep 0 rows 1 (fun row m =>
                  forStep 0 cols 1 (fun col m =>
                    grayPixel Tp src dst sdata channels_out row col m) m) d) }

/-- Embeds `helpers::Gray2RGBx`: the `switch` over the buffer type selects the
template instance. -/
def helpers.Gray2RGBx (fresh : Option Mem) (img : ImageBuffer) (num_channels_out : Int) :
    Except Error ImageBuffer :=
  helpers.ConversionHelperGray img.buffer_type fresh img num_channels_out

/-- Body of the loops of `helpers::ConversionHelperRGB<_Tp>` for one
`(row, col)`, on the memory of `dst`; the alpha value is stored at
`dst.At<_Tp>(0, col, 3)`, as in the source. -/
def rgbPixel (Tp : ImageBufferType) (src dst : ImageBuffer) (sdata : Mem)
    (channels_out row col : Int) (m : Mem) : Mem :=
  let sz := ItemSizeFromImageBufferType Tp
  let m := writeElem m (dst.ByteOffset row col 0) (readElem sdata (src.ByteOffset row col 0) sz)
  let m := writeElem m (dst.ByteOffset row col 1) (readElem sdata (src.ByteOffset row col 1) sz)
  let m := writeElem m (dst.ByteOffset row col 2) (readElem sdata (src.ByteOffset row col 2) sz)
  if channels_out = 4 then writeElem m (dst.ByteOffset 0 col 3) (value255 Tp) else m

/-- Embeds `helpers::ConversionHelperRGB<_Tp>(src, channels_out)`; null data as in
`ConversionHelperGray`. -/
def helpers.ConversionHelperRGB (Tp : ImageBufferType) (fresh : Option Mem)
    (src : ImageBuffer) (channels_out : Int) : Except Error ImageBuffer :=
  if src.channels ≠ 3 ∧ src.channels ≠ 4 then .error .invalid_argument
  else
    match src.data with
    | none => .error .invalid_argument
    | some sdata =>
      if channels_out ≠ 3 ∧ channels_out ≠ 4 then .error .invalid_argument
      else
        let dst := ImageBuffer.alloc fresh src.width src.height channels_out src.buffer_type
        let rows := if src.IsContiguous then 1 else src.height
        let cols := if src.IsContiguous then src.width * src.height else src.width
        match dst.data with
        | none => if 0 < rows ∧ 0 < cols then .error .null_dereference else .ok dst
        | some d =>
          .ok { dst with data := some (forStep 0 rows 1 (fun row m =>
                  forStep 0 cols 1 (fun col m =>
                    rgbPixel Tp src dst sdata channels_out row col m) m) d) }

/-- Embeds `helpers::RGBx2RGBx`: the `switch` over the buffer type selects the
template instance. -/
def helpers.RGBx2RGBx (fresh : Option Mem) (img : ImageBuffer) (num_channels_out : Int) :
    Except Error ImageBuffer :=
  helpers.ConversionHelperRGB img.buffer_type fresh img num_channels_out

/-- Embeds `ImageBuffer ImageBuffer::ToChannels(int output_channels) const`. `fresh`
is the outcome of the one `std::malloc` of the call. -/
def ImageBuffer.ToChannels (fresh : Option Mem) (b : ImageBuffer) (output_channels : Int) :
    Except Error ImageBuffer :=
  if b.channels ≠ 1 ∧ b.channels ≠ 3 ∧ b.channels ≠ 4 then .error .invalid_argument
  else if b.channels = 1 then
    if output_channels = 1 then ImageBuffer.CreateCopySelf fresh b
    else if output_channels = 3 ∨ output_channels = 4 then
      helpers.Gray2RGBx fresh b output_channels
    else .error .invalid_argument
  else if b.channels = 3 then
    if output_channels = 3 then ImageBuffer.CreateCopySelf fresh b
    else if output_channels = 4 then helpers.RGBx2RGBx fresh b 4
    else .error .invalid_argument
  else
    if output_channels = 3 then helpers.RGBx2RGBx fresh b 3
    else if output_channels = 4 then ImageBuffer.CreateCopySelf fresh b
    else .error .invalid_argument

/-- A buffer as the claims about pixel values take it: data present, sizes not
negative, at least one channel, `item_size` the size of the element type, and
rows that do not overlap (`row_stride` at least the bytes of one row, more for
padded rows). -/
def ImageBuffer.WellFormed (b : ImageBuffer) : Prop :=
  b.data.isSome = true ∧ 0 ≤ b.width ∧ 0 ≤ b.height ∧ 1 ≤ b.channels
    ∧ b.item_size = ItemSizeFromImageBufferType b.buffer_type
    ∧ b.width * b.channels * b.item_size ≤ b.row_stride

instance (b : ImageBuffer) : Decidable b.WellFormed := by
  unfold ImageBuffer.WellFormed; infer_instance

/-- The `uint8` RGB buffer of width 1 and height 2 with pixels `(1, 2, 3)` and
`(4, 5, 6)` and one padding byte (99) at the end of each row; it shares its
memory. -/
def rgb1x2padded : ImageBuffer :=
  { data := some (memOfList [1, 2, 3, 99, 4, 5, 6, 99]), width := 1, height := 2,
    channels := 3, item_size := 1, row_stride := 4, buffer_type := .UInt8,
    owns_data := false }

/-- Embeds `void ImageBuffer::SwapChannels(int ch1, int ch2)` in state-passing
form: the outcome of the call (the exception, if one is thrown) together with
the state of `*this` when the call ends. The range check and its `throw` come
before any statement that assigns to a member or writes to the pixels. -/
def ImageBuffer.SwapChannelsState (b : ImageBuffer) (ch1 ch2 : Int) :
    Except Error Unit × ImageBuffer :=
  if ch1 < 0 ∨ ch1 ≥ b.channels ∨ ch2 < 0 ∨ ch2 ≥ b.channels then
    (.error .invalid_argument, b)
  else
    match b.data with
    | none => (.ok (), b)
    | some m =>
      if ch1 = ch2 then (.ok (), b)
      else (.ok (), { b with data := some (helpers.SwapChannels b.buffer_type b m ch1 ch2) })

/-- The heap: the content of the memory block at each address, and which
addresses are blocks in use (handed out by `malloc` or owned by a caller). -/
structure Heap where
  content : Nat → Mem
  live : Nat → Bool

/-- Writes one byte at offset `off` of the block at address `p`. -/
def Heap.store (h : Heap) (p : Nat) (off : Int) (byte : Nat) : Heap :=
  { h with content := fun q => if q = p then (fun a => if a = off then byte else h.content p a)
                               else h.content q }

/-- The members of `class ImageBuffer` with `data` as an address of the heap
(`none` for a null pointer) instead of the memory it points to. -/
structure ImageBufferRef where
  data : Option Nat
  width : Int
  height : Int
  channels : Int
  item_size : Int
  row_stride : Int
  buffer_type : ImageBufferType
  owns_data : Bool

/-- The buffer that an `ImageBufferRef` denotes in a heap. -/
def ImageBufferRef.view (h : Heap) (r : ImageBufferRef) : ImageBuffer :=
  { data := r.data.map h.content, width := r.width, height := r.height,
    channels := r.channels, item_size := r.item_size, row_stride := r.row_stride,
    buffer_type := r.buffer_type, owns_data := r.owns_data }

/-- Modelled from the spec: `ImageBuffer::NumBytes` of the header
`viren2d/imagebuffer.h`, which is not among the sources; the spec gives the
size of the pixel memory as `h*stride` bytes (the earlier copy constructor in
`primitives.cpp` computes `other.height * other.stride` in its place). -/
def ImageBufferRef.NumBytes (r : ImageBufferRef) : Int := r.height * r.row_stride

/-- The state `ImageBuffer::Cleanup` leaves, with `data` as an address. -/
def ImageBufferRef.Cleanup : ImageBufferRef :=
  { data := none, width := 0, height := 0, channels := 0, item_size := 0,
    row_stride := 0, buffer_type := .UInt8, owns_data := false }

/-- Embeds the copy constructor `ImageBuffer::ImageBuffer(const ImageBuffer &other)`
of `imagebuffer.cpp`: the heap and the new object after the call. `fresh` is
the outcome of `std::malloc(num_bytes)`, `none` for a null pointer and
`some p` for the address of the new block. All members are copied; an owning
source then has its bytes copied into the new block (a failed allocation
resets the new object), a shared source only hands on its pointer. Copying
from a null pointer is undefined behaviour, reported as `null_dereference`. -/
def ImageBufferRef.copyConstruct (h : Heap) (fresh : Option Nat) (other : ImageBufferRef) :
    Except Error (Heap × ImageBufferRef) :=
  if other.owns_data then
    let num_bytes := other.NumBytes
    match fresh with
    | some p =>
      match other.data with
      | some q =>
        .ok ({ content := fun a => if a = p then memcpy (h.content p) (h.content q) num_bytes
                                   else h.content a,
               live := fun a => if a = p then true else h.live a },
             { other with data := some p })
      | none => .error .null_dereference
    | none => .ok (h, ImageBufferRef.Cleanup)
  else
    .ok (h, { other with data := other.data })

/-! ### Colors -/

/-- Embeds `saturation_cast<_Tp>(val, low, high)` of `vivi/colors.hpp`:
`std::min(std::max(val, low), high)`, on finite values. A NaN argument,
which the source returns as it is, and the infinities are covered by
`ieee.saturation_cast`, which agrees with this definition on every finite
value (`ieee_saturation_cast_finite`). -/
def saturation_cast (val low high : ℚ) : ℚ := min (max val low) high

/-- The members of `struct Color`: red, green, blue and alpha. -/
structure Color where
  red : ℚ
  green : ℚ
  blue : ℚ
  alpha : ℚ
  deriving DecidableEq

/-- Embeds the constructor `Color::Color(double r, double g, double b, double a)`. -/
def Color.init (r g b a : ℚ) : Color :=
  { red := saturation_cast r 0 1, green := saturation_cast g 0 1,
    blue := saturation_cast b 0 1, alpha := saturation_cast a 0 1 }

/-- Embeds `operator==(const Color&, const Color&)`: the four components
compared exactly. -/
def Color.eq (lhs rhs : Color) : Bool :=
  decide (lhs.red = rhs.red) && decide (lhs.green = rhs.green)
    && decide (lhs.blue = rhs.blue) && decide (lhs.alpha = rhs.alpha)

/-- Embeds `operator!=(const Color&, const Color&)`. -/
def Color.ne (lhs rhs : Color) : Bool := !(Color.eq lhs rhs)

/-! ### Styles -/

/-- The enumerators of `LineCap` that `styles.cpp` switches over. -/
inductive LineCap where
  | Butt
  | Round
  | Square
  deriving DecidableEq, Repr

/-- The enumerators of `LineJoin` that `styles.cpp` switches over. -/
inductive LineJoin where
  | Miter
  | Round
  | Bevel
  deriving DecidableEq, Repr

/-- The members of `LineStyle` that its constructor initialises. -/
structure LineStyle where
  width : ℚ
  color : Color
  dash_pattern : List ℚ
  cap : LineCap
  join : LineJoin
  deriving DecidableEq

/-- Embeds `LineStyle::IsValid`. The validity test of a colour,
`Color::IsValid` of the absent header `viren2d/colors.h`, is the parameter
`colorIsValid`. -/
def LineStyle.IsValid (colorIsValid : Color → Bool) (s : LineStyle) : Bool :=
  decide (s.width > 0) && colorIsValid s.color

/-- Embeds the constant `LineStyle::Invalid = LineStyle(-1, Color::Invalid)`.
The sentinel `Color::Invalid` and the default arguments of the constructor
(dash pattern, cap, join) are declared in absent headers and are parameters. -/
def LineStyle.Invalid (invalidColor : Color) (dash : List ℚ) (cap : LineCap)
    (join : LineJoin) : LineStyle :=
  { width := -1, color := invalidColor, dash_pattern := dash, cap := cap, join := join }

/-- Modelled from the spec: `eps_equal` of the library werkzeugkiste, which is
not among the sources; the spec calls it epsilon-tolerant equality. It is
taken as the comparison up to 2 units in the last place of a `double`:
`|x - y| <= epsilon * |x + y| * 2` with the machine epsilon `2^-52`, or
`|x - y|` below the smallest normal `double`, `2^-1022`. -/
def wgu.eps_equal (x y : ℚ) : Bool :=
  decide (|x - y| ≤ 1 / 2 ^ 52 * |x + y| * 2) || decide (|x - y| < 1 / 2 ^ 1022)

/-- Embeds `LineStyle::Equals`, with the comparison `wgu::eps_equal` of the
external library as the parameter `epsEq`: the checks in the order of the
source, each returning `false` when it fails; the loop over the dash entries
runs over the indices of `other.dash_pattern`. -/
def LineStyle.Equals (epsEq : ℚ → ℚ → Bool) (s other : LineStyle) : Bool :=
  if !(epsEq s.width other.width) then false
  else if Color.ne s.color other.color then false
  else if s.dash_pattern.length ≠ other.dash_pattern.length then false
  else if !((List.range other.dash_pattern.length).all
      (fun i => epsEq (s.dash_pattern.getD i 0) (other.dash_pattern.getD i 0))) then false
  else if s.cap ≠ other.cap then false
  else if s.join ≠ other.join then false
  else true

/-- Embeds `LineStyle::CapOffset`. The `throw` after the `switch` is reached
by no enumerator. -/
def LineStyle.CapOffset (s : LineStyle) : ℚ :=
  match s.cap with
  | .Butt => 0
  | .Round => s.width / 2
  | .Square => s.width / 2

/-- Embeds `LineStyle::JoinOffset(interior_angle, miter_limit)`. The value
`std::sin(wgu::deg2rad(interior_angle / 2.0))`, computed by external
libraries, is the argument `sin_half`. -/
def LineStyle.JoinOffset (s : LineStyle) (sin_half miter_limit : ℚ) : ℚ :=
  let miter_length := s.width / max (1 / 1000000) sin_half
  if miter_length / s.width > miter_limit ∨ s.join = .Round ∨ s.join = .Bevel then
    s.width / 2
  else
    miter_length / 2

/-- The join offset as the specification words it: the miter length is
`width / sin(interior_angle / 2)`, the offset is `width / 2` when
`miter_length / width` exceeds the miter limit or the join is Round or Bevel,
and `miter_length / 2` otherwise. -/
def LineStyle.JoinOffsetSpec (s : LineStyle) (sin_half miter_limit : ℚ) : ℚ :=
  let m := s.width / sin_half
  if m / s.width > miter_limit ∨ s.join = .Round ∨ s.join = .Bevel then s.width / 2
  else m / 2

/-- The members of `Vec2d` (`Vec<double, 2>`). -/
structure Vec2d where
  x : ℚ
  y : ℚ
  deriving DecidableEq

/-- Embeds `operator-` of two vectors, for dimension 2. -/
def Vec2d.sub (a b : Vec2d) : Vec2d := { x := a.x - b.x, y := a.y - b.y }

/-- Embeds `Vec::Dot` for dimension 2: the sum, from 0, of the products of
the components. -/
def Vec2d.Dot (a b : Vec2d) : ℚ := 0 + a.x * b.x + a.y * b.y

/-- Embeds `Vec::LengthSquared`. -/
def Vec2d.LengthSquared (a : Vec2d) : ℚ := a.Dot a

/-- Embeds `Vec::Length`; `std::sqrt` is the parameter `sqrt`. -/
def Vec2d.Length (sqrt : ℚ → ℚ) (a : Vec2d) : ℚ := sqrt a.LengthSquared

/-- Embeds `Vec::Distance`; `std::sqrt` is the parameter `sqrt`. -/
def Vec2d.Distance (sqrt : ℚ → ℚ) (a other : Vec2d) : ℚ := (a.sub other).Length sqrt

/-- The members of `ArrowStyle`, which extends `LineStyle`. -/
structure ArrowStyle extends LineStyle where
  tip_length : ℚ
  tip_angle : ℚ
  tip_closed : Bool
  double_headed : Bool
  deriving DecidableEq

/-- Embeds `ArrowStyle::TipLengthForShaft(double shaft_length)`. -/
def ArrowStyle.TipLengthForShaft (a : ArrowStyle) (shaft_length : ℚ) : ℚ :=
  if a.tip_length > 1 then a.tip_length else a.tip_length * shaft_length

/-- Embeds `ArrowStyle::TipLengthForShaft(const Vec2d &from, const Vec2d &to)`;
`std::sqrt` is the parameter `sqrt`. -/
def ArrowStyle.TipLengthForShaftBetween (sqrt : ℚ → ℚ) (a : ArrowStyle)
    (pt_from pt_to : Vec2d) : ℚ :=
  if a.tip_length > 1 then a.tip_length
  else a.TipLengthForShaft (pt_from.Distance sqrt pt_to)

/-! ### Color gradients -/

/-- The member `color_stops` of `ColorGradient`: pairs of offset and colour. -/
structure ColorGradient where
  color_stops : List (ℚ × Color)
  deriving DecidableEq

/-- A gradient without stops, as a newly constructed one. -/
def ColorGradient.empty : ColorGradient := { color_stops := [] }

/-- Embeds `bool ColorGradient::AddColorStop(double offset, const Color &color)`:
the returned flag and the gradient after the call. -/
def ColorGradient.AddColorStop (g : ColorGradient) (offset : ℚ) (color : Color) :
    Bool × ColorGradient :=
  if offset < 0 ∨ offset > 1 then (false, g)
  else (true, { color_stops := g.color_stops ++ [(offset, color)] })

/-- A heap in which only the block at address 1 is in use; it holds the bytes
1 to 6. -/
def heapExample : Heap :=
  { content := fun a => if a = 1 then memOfList [1, 2, 3, 4, 5, 6] else fun _ => 0,
    live := fun a => decide (a = 1) }

/-- A 1x2 RGB `uint8` buffer at address 1 that owns its memory. -/
def ownedRef : ImageBufferRef :=
  { data := some 1, width := 1, height := 2, channels := 3, item_size := 1,
    row_stride := 3, buffer_type := .UInt8, owns_data := true }

/-- The same buffer as a shared one. -/
def sharedRef : ImageBufferRef := { ownedRef with owns_data := false }

/-- The members of `Vec<_Tp, dim>` of `primitives.cpp`: the array `val[dim]`,
with the components as exact rationals. -/
structure Vec (dim : Nat) where
  val : Fin dim → ℚ

/-- Embeds `Vec<_Tp, dim>::Vec(std::initializer_list<_Tp> values)`: a list that
is neither empty nor of `dim` entries throws `std::invalid_argument`, the empty
list sets every component to 0, and otherwise `val[i] = values.begin()[i]`. -/
def Vec.ofList (dim : Nat) (values : List ℚ) : Except Error (Vec dim) :=
  if values.length ≠ 0 ∧ values.length ≠ dim then .error .invalid_argument
  else if values.length = 0 then .ok { val := fun _ => 0 }
  else .ok { val := fun i => values.getD i.val 0 }

/-- Embeds `Vec<_Tp, dim>::operator[](int i) const`: a negative index is
shifted by `dim`, an index that is then outside `[0, dim)` throws
`std::out_of_range`, otherwise `val[i]` is returned. -/
def Vec.index {dim : Nat} (v : Vec dim) (i : Int) : Except Error ℚ :=
  if h : (if i < 0 then i + dim else i) < 0 ∨ (if i < 0 then i + dim else i) ≥ dim then
    .error .out_of_range
  else
    .ok (v.val ⟨(if i < 0 then i + dim else i).toNat, by omega⟩)

/-- Embeds `Vec::x()`, which is `(*this)[0]`. -/
def Vec.x {dim : Nat} (v : Vec dim) : Except Error ℚ := v.index 0

/-- Embeds `Vec::y()`, which is `(*this)[1]`. -/
def Vec.y {dim : Nat} (v : Vec dim) : Except Error ℚ := v.index 1

/-- Embeds `Vec::z()`, which is `(*this)[2]`. -/
def Vec.z {dim : Nat} (v : Vec dim) : Except Error ℚ := v.index 2

/-- Embeds `Vec::w()`, which is `(*this)[3]`. -/
def Vec.w {dim : Nat} (v : Vec dim) : Except Error ℚ := v.index 3

/-- Embeds `Vec::Dot`: the loop `s += val[i] * other.val[i]` over
`i = 0 .. dim-1`, from `s = 0`. -/
def Vec.Dot {dim : Nat} (a b : Vec dim) : ℚ :=
  (List.finRange dim).foldl (fun s i => s + a.val i * b.val i) 0

/-- Embeds `Vec::LengthSquared`, which is `Dot(*this)`. -/
def Vec.LengthSquared {dim : Nat} (a : Vec dim) : ℚ := a.Dot a

/-- Embeds `Vec::Length`, which is `std::sqrt(LengthSquared())`; `std::sqrt` is
the parameter `sqrt`. -/
def Vec.Length {dim : Nat} (sqrt : ℚ → ℚ) (a : Vec dim) : ℚ := sqrt a.LengthSquared

/-- Embeds `operator/(Vec lhs, double scale)`, which runs `val[i] /= scale`
over all components. -/
def Vec.div {dim : Nat} (a : Vec dim) (scale : ℚ) : Vec dim :=
  { val := fun i => a.val i / scale }

/-- Embeds `Vec::UnitVector`: the vector divided by its length when the length
is positive, the vector itself otherwise. -/
def Vec.UnitVector {dim : Nat} (sqrt : ℚ → ℚ) (v : Vec dim) : Vec dim :=
  if v.Length sqrt > 0 then v.div (v.Length sqrt) else v

/-- Embeds `operator/(Vec lhs, double scale)` for dimension 2. -/
def Vec2d.div (a : Vec2d) (scale : ℚ) : Vec2d := { x := a.x / scale, y := a.y / scale }

/-- Embeds `Vec::UnitVector` for dimension 2. -/
def Vec2d.UnitVector (sqrt : ℚ → ℚ) (v : Vec2d) : Vec2d :=
  if v.Length sqrt > 0 then v.div (v.Length sqrt) else v

/-- The `Vec<double, 2>` with the components of a `Vec2d`. -/
def Vec2d.toVec (a : Vec2d) : Vec 2 := { val := fun i => if i.val = 0 then a.x else a.y }

/-- The members of `Ellipse`. -/
structure Ellipse where
  cx : ℚ
  cy : ℚ
  major_axis : ℚ
  minor_axis : ℚ
  rotation : ℚ
  angle_from : ℚ
  angle_to : ℚ
  include_center : Bool
  deriving DecidableEq

/-- Embeds `Ellipse::IsValid`; the comparison `eps_equal` of the absent header
`viren2d/math.h` is the parameter `epsEq`. -/
def Ellipse.IsValid (epsEq : ℚ → ℚ → Bool) (e : Ellipse) : Bool :=
  decide (e.major_axis > 0) && decide (e.minor_axis > 0)
    && decide (e.major_axis ≥ e.minor_axis) && !epsEq e.angle_from e.angle_to

/-! ### Rectangle from a list, saving an image, the earlier image buffer -/

/-- Embeds `Rect(double center_x, double center_y, double w, double h)` of
`primitives.h`. -/
def Rect.init4 (center_x center_y w h : ℚ) : Rect :=
  { cx := center_x, cy := center_y, width := w, height := h, rotation := 0, radius := 0 }

/-- Embeds `Rect(double center_x, double center_y, double w, double h, double rot)`
of `primitives.h`. -/
def Rect.init5 (center_x center_y w h rot : ℚ) : Rect :=
  { cx := center_x, cy := center_y, width := w, height := h, rotation := rot, radius := 0 }

/-- Embeds `Rect(double center_x, double center_y, double w, double h, double rot,
double corner_radius)` of `primitives.h`. -/
def Rect.init6 (center_x center_y w h rot corner_radius : ℚ) : Rect :=
  { cx := center_x, cy := center_y, width := w, height := h, rotation := rot,
    radius := corner_radius }

/-- Embeds `Rect::Rect(std::initializer_list<double> values)` of
`primitives.cpp`. The constructor has no member initializers and the members
of `primitives.h` have no default values, so `rotation` and `radius` keep the
indeterminate content of the object's storage unless the list has a 5th and a
6th entry; that content is `indet_rotation` and `indet_radius`. -/
def Rect.ofList (indet_rotation indet_radius : ℚ) (values : List ℚ) : Except Error Rect :=
  if values.length < 4 ∨ values.length > 6 then .error .invalid_argument
  else .ok
    { cx := values.getD 0 0, cy := values.getD 1 0,
      width := values.getD 2 0, height := values.getD 3 0,
      rotation := if values.length > 4 then values.getD 4 0 else indet_rotation,
      radius := if values.length > 5 then values.getD 5 0 else indet_radius }

/-- A model of `werkzeugkiste::strings::Lower` of the external library: every
character is replaced by its lower-case form. -/
def strings.Lower (s : String) : String := String.mk (s.toList.map Char.toLower)

/-- A model of `werkzeugkiste::strings::EndsWith` of the external library:
whether `suffix`, which is not empty, is the end of `s`. -/
def strings.EndsWith (s suffix : String) : Bool :=
  decide (suffix.toList ≠ []) && suffix.toList.isSuffixOf s.toList

/-- Embeds `SaveImage(image_filename, image)` of `imagebuffer.cpp`. The string
helpers `Lower` and `EndsWith` of the external library and the return codes
`stbi_write_jpg` and `stbi_write_png` of the two encoder calls are parameters. -/
def SaveImage (Lower : String → String) (EndsWith : String → String → Bool)
    (stbi_write_jpg stbi_write_png : Int) (image_filename : String) (image : ImageBuffer) :
    Except Error Unit :=
  if image.buffer_type ≠ .UInt8 then .error .logic_error
  else
    let fn_lower := Lower image_filename
    if EndsWith fn_lower ".jpg" || EndsWith fn_lower ".jpeg" then
      if !image.IsContiguous then .error .logic_error
      else if stbi_write_jpg = 0 then .error .runtime_error
      else .ok ()
    else if EndsWith fn_lower ".png" then
      if stbi_write_png = 0 then .error .runtime_error
      else .ok ()
    else .error .invalid_argument

/-- Embeds the constructor `ImageBuffer::ImageBuffer(int w, int h, int ch)` of
`primitives.cpp`, whose class stores bytes (`unsigned char`) only: `fresh` is
the pointer that `std::malloc` returns, which is not checked. -/
def primitives.alloc (fresh : Option Nat) (w h ch : Int) : ImageBufferRef :=
  { data := fresh, width := w, height := h, channels := ch, item_size := 1,
    row_stride := w * ch, buffer_type := .UInt8, owns_data := true }

/-- Embeds the copy constructor `ImageBuffer::ImageBuffer(const ImageBuffer &other)`
of `primitives.cpp`: an owning source has `height * stride` bytes copied into
a new block (`std::runtime_error` when `std::malloc` fails), a shared source
only hands on its pointer. Copying from a null pointer is undefined behaviour,
reported as `null_dereference`. -/
def primitives.copyConstruct (h : Heap) (fresh : Option Nat) (other : ImageBufferRef) :
    Except Error (Heap × ImageBufferRef) :=
  if other.owns_data then
    let num_bytes := other.height * other.row_stride
    match fresh with
    | none => .error .runtime_error
    | some p =>
      match other.data with
      | none => .error .null_dereference
      | some q =>
        .ok ({ content := fun a => if a = p then memcpy (h.content p) (h.content q) num_bytes
                                   else h.content a,
               live := fun a => if a = p then true else h.live a },
             { other with data := some p })
  else
    .ok (h, { other with data := other.data })

/-- Embeds `ConversionHelperGray(src, channels_out)` of `primitives.cpp`. The
state of the inner loop is the memory of `dst` and the counter `dst_col`.
Writing through the unchecked null pointer of a failed allocation is reported
as `null_dereference`. -/
def primitives.ConversionHelperGray (h : Heap) (fresh : Option Nat) (src : ImageBufferRef)
    (channels_out : Int) : Except Error (Heap × ImageBufferRef) :=
  if src.channels ≠ 1 then .error .invalid_argument
  else
    match src.data with
    | none => .error .invalid_argument
    | some q =>
      if channels_out ≠ 3 ∧ channels_out ≠ 4 then .error .invalid_argument
      else
        let dst := primitives.alloc fresh src.width src.height channels_out
        let rows := if src.row_stride = src.width then 1 else src.height
        let cols := if src.row_stride = src.width then src.width * src.height else src.width
        match fresh with
        | none => if 0 < rows ∧ 0 < cols then .error .null_dereference else .ok (h, dst)
        | some p =>
          let s := h.content q
          let m := forStep 0 rows 1 (fun row m =>
            (forStep 0 cols src.channels (fun src_col (st : Mem × Int) =>
              let m1 := writeElem st.1 (row * dst.row_stride + st.2)
                [s (row * src.row_stride + src_col)]
              let m2 := writeElem m1 (row * dst.row_stride + (st.2 + 1))
                [s (row * src.row_stride + src_col)]
              let m3 := writeElem m2 (row * dst.row_stride + (st.2 + 2))
                [s (row * src.row_stride + src_col)]
              let m4 := if channels_out = 4 then
                writeElem m3 (row * dst.row_stride + (st.2 + 3)) [255] else m3
              (m4, st.2 + dst.channels)) (m, 0)).1) (h.content p)
          .ok ({ content := fun a => if a = p then m else h.content a,
                 live := fun a => if a = p then true else h.live a }, dst)

/-- Embeds `ConversionHelperRGB(src, channels_out)` of `primitives.cpp`, in the
same way as `primitives.ConversionHelperGray`. -/
def primitives.ConversionHelperRGB (h : Heap) (fresh : Option Nat) (src : ImageBufferRef)
    (channels_out : Int) : Except Error (Heap × ImageBufferRef) :=
  if src.channels ≠ 3 ∧ src.channels ≠ 4 then .error .invalid_argument
  else
    match src.data with
    | none => .error .invalid_argument
    | some q =>
      if channels_out ≠ 3 ∧ channels_out ≠ 4 then .error .invalid_argument
      else
        let dst := primitives.alloc fresh src.width src.height channels_out
        let rows := if src.row_stride = src.width * src.channels then 1 else src.height
        let cols := if src.row_stride = src.width * src.channels
          then src.width * src.channels * src.height else src.width * src.channels
        match fresh with
        | none => if 0 < rows ∧ 0 < cols then .error .null_dereference else .ok (h, dst)
        | some p =>
          let s := h.content q
          let m := forStep 0 rows 1 (fun row m =>
            (forStep 0 cols src.channels (fun src_col (st : Mem × Int) =>
              let m1 := writeElem st.1 (row * dst.row_stride + st.2)
                [s (row * src.row_stride + src_col)]
              let m2 := writeElem m1 (row * dst.row_stride + (st.2 + 1))
                [s (row * src.row_stride + (src_col + 1))]
              let m3 := writeElem m2 (row * dst.row_stride + (st.2 + 2))
                [s (row * src.row_stride + (src_col + 2))]
              let m4 := if channels_out = 4 then
                writeElem m3 (row * dst.row_stride + (st.2 + 3)) [255] else m3
              (m4, st.2 + dst.channels)) (m, 0)).1) (h.content p)
          .ok ({ content := fun a => if a = p then m else h.content a,
                 live := fun a => if a = p then true else h.live a }, dst)

/-- Embeds `ImageBuffer::ToRGB` of `primitives.cpp`; `Gray2RGB(img)` is
`ConversionHelperGray(img, 3)`, `RGBA2RGB(img)` is `ConversionHelperRGB(img, 3)`
and `ImageBuffer(*this)` is the copy constructor. -/
def primitives.ToRGB (h : Heap) (fresh : Option Nat) (b : ImageBufferRef) :
    Except Error (Heap × ImageBufferRef) :=
  if b.channels ≠ 1 ∧ b.channels ≠ 3 ∧ b.channels ≠ 4 then .error .logic_error
  else if b.channels = 1 then primitives.ConversionHelperGray h fresh b 3
  else if b.channels = 3 then primitives.copyConstruct h fresh b
  else primitives.ConversionHelperRGB h fresh b 3

/-- Embeds `ImageBuffer::ToRGBA` of `primitives.cpp`; `Gray2RGBA(img)` is
`ConversionHelperGray(img, 4)` and `RGB2RGBA(img)` is
`ConversionHelperRGB(img, 4)`. -/
def primitives.ToRGBA (h : Heap) (fresh : Option Nat) (b : ImageBufferRef) :
    Except Error (Heap × ImageBufferRef) :=
  if b.channels ≠ 1 ∧ b.channels ≠ 3 ∧ b.channels ≠ 4 then .error .logic_error
  else if b.channels = 1 then primitives.ConversionHelperGray h fresh b 4
  else if b.channels = 3 then primitives.ConversionHelperRGB h fresh b 4
  else primitives.copyConstruct h fresh b

/-- A 1x1 RGBA `uint8` buffer at address 1 that does not own its memory. -/
def sharedRgbaRef : ImageBufferRef :=
  { data := some 1, width := 1, height := 1, channels := 4, item_size := 1,
    row_stride := 4, buffer_type := .UInt8, owns_data := false }

/-! ### Text layout -/

/-- Modelled from the spec: `enum class HorizontalAlignment` of an absent
header; the spec names the alignments left, center and right. -/
inductive HorizontalAlignment where
  | Left
  | Center
  | Right
  deriving DecidableEq, Repr

/-- Modelled from the spec: `enum class VerticalAlignment` of an absent header,
with the values top, center and bottom. -/
inductive VerticalAlignment where
  | Top
  | Center
  | Bottom
  deriving DecidableEq, Repr

/-- Modelled from the spec: `enum class TextAnchor` of an absent header, which
the spec describes as the combination of a horizontal and a vertical
alignment (9 anchors: corners, edge midpoints, center). -/
structure TextAnchor where
  horizontal : HorizontalAlignment
  vertical : VerticalAlignment
  deriving DecidableEq, Repr

/-- Modelled from the spec: `operator|(VerticalAlignment, HorizontalAlignment)`
of the absent header, the anchor that combines the two flags. -/
def TextAnchor.combine (v : VerticalAlignment) (h : HorizontalAlignment) : TextAnchor :=
  { horizontal := h, vertical := v }

/-- Modelled from the spec: `IsFlagSet(anchor, flag)` for a horizontal flag,
whether the anchor has this horizontal alignment. -/
def IsFlagSetH (anchor : TextAnchor) (flag : HorizontalAlignment) : Bool :=
  decide (anchor.horizontal = flag)

/-- Modelled from the spec: `IsFlagSet(anchor, flag)` for a vertical flag,
whether the anchor has this vertical alignment. -/
def IsFlagSetV (anchor : TextAnchor) (flag : VerticalAlignment) : Bool :=
  decide (anchor.vertical = flag)

/-- The members of `TextStyle` that `styles.cpp` initialises. -/
structure TextStyle where
  size : Nat
  family : String
  color : Color
  bold : Bool
  italic : Bool
  line_spacing : ℚ
  alignment : HorizontalAlignment

/-- The members of `helpers::TextLine`: the reference point and the measured
extent of one line of text. -/
structure TextLine where
  text : String
  reference_point : Vec2d
  width : ℚ
  height : ℚ
  bearing_x : ℚ
  bearing_y : ℚ

/-- Embeds `TextLine::Align(desired_position, anchor, padding)`: the line with
its new reference point. -/
def TextLine.Align (l : TextLine) (desired_position : Vec2d) (anchor : TextAnchor)
    (padding : Vec2d) : TextLine :=
  let x :=
    if IsFlagSetH anchor .Center then desired_position.x - (l.width / 2 + l.bearing_x)
    else if IsFlagSetH anchor .Right then
      desired_position.x - (l.width + padding.x + l.bearing_x)
    else desired_position.x + (padding.x - l.bearing_x)
  let y :=
    if IsFlagSetV anchor .Center then desired_position.y - (l.height / 2 + l.bearing_y)
    else if IsFlagSetV anchor .Top then desired_position.y + (padding.y - l.bearing_y)
    else desired_position.y - (l.height + l.bearing_y + padding.y)
  { l with reference_point := { x := x, y := y } }

/-- The members of `helpers::MultilineText`. -/
structure MultilineText where
  top_left : Vec2d
  width : ℚ
  height : ℚ
  style : TextStyle
  lines : List TextLine

/-- Embeds the constructor `MultilineText::MultilineText(text, text_style, context)`.
The lines measured by the rasterizer, the objects `TextLine(text[idx], context, ..)`
in the order of `text`, are the argument `measured`; the loop appends each
line, takes the maximum of the widths from 0 and adds the height, scaled by
`line_spacing` for every line but the first. -/
def MultilineText.init (measured : List TextLine) (text_style : TextStyle) : MultilineText :=
  measured.enum.foldl
    (fun (m : MultilineText) (p : Nat × TextLine) =>
      { m with
        lines := m.lines ++ [p.2],
        width := max m.width p.2.width,
        height := m.height + p.2.height * (if p.1 > 0 then text_style.line_spacing else 1) })
    { top_left := { x := 0, y := 0 }, width := 0, height := 0, style := text_style, lines := [] }

/-- Embeds `MultilineText::Align(desired_position, anchor, padding)`: the block
with its new top-left corner and its aligned lines. The state of the loop is
`y`, the flag `first_line` and the lines aligned so far. -/
def MultilineText.Align (m : MultilineText) (desired_position : Vec2d) (anchor : TextAnchor)
    (padding : Vec2d) : MultilineText :=
  let tlx :=
    if IsFlagSetH anchor .Center then desired_position.x - m.width / 2
    else if IsFlagSetH anchor .Right then desired_position.x - padding.x - m.width
    else desired_position.x + padding.x
  let tly :=
    if IsFlagSetV anchor .Center then desired_position.y - m.height / 2
    else if IsFlagSetV anchor .Top then desired_position.y + padding.y
    else desired_position.y - padding.y - m.height
  let x :=
    match m.style.alignment with
    | .Left => tlx
    | .Center => tlx + m.width / 2
    | .Right => tlx + m.width
  let st := m.lines.foldl
    (fun (st : ℚ × Bool × List TextLine) (line : TextLine) =>
      let y := st.1 + line.height * (if st.2.1 then 1 else m.style.line_spacing)
      (y, false,
        st.2.2 ++ [line.Align { x := x, y := y }
          (TextAnchor.combine .Bottom m.style.alignment) { x := 0, y := 0 }]))
    (tly, true, [])
  { m with top_left := { x := tlx, y := tly }, lines := st.2.2 }

/-- Embeds `MultilineText::BoundingBox(padding, corner_radius)`. -/
def MultilineText.BoundingBox (m : MultilineText) (padding : Vec2d) (corner_radius : ℚ) : Rect :=
  Rect.init6 (m.top_left.x + m.width / 2) (m.top_left.y + m.height / 2)
    (m.width + 2 * padding.x) (m.height + 2 * padding.y) 0 corner_radius

/-! ### Color from a tuple, assignment of buffers, arrow styles, markers -/

/-- Embeds `CreateColor(py::tuple tpl)` of `vivi/bindings.cpp`, for a tuple of
numbers: the first three entries go through the clamping constructor with
alpha 1, a 4th entry is then assigned to `alpha`. -/
def vivi.CreateColor (tpl : List ℚ) : Except Error Color :=
  if tpl.length < 3 ∨ tpl.length > 4 then .error .invalid_argument
  else
    let col := Color.init (tpl.getD 0 0) (tpl.getD 1 0) (tpl.getD 2 0) 1
    if tpl.length = 4 then .ok { col with alpha := tpl.getD 3 0 }
    else .ok col

/-- Embeds the move assignment `ImageBuffer::operator=(ImageBuffer &&other)` of
`imagebuffer.cpp`: the pair of `*this` and `other` after the seven
`std::swap` calls. -/
def ImageBufferRef.moveAssign (self other : ImageBufferRef) : ImageBufferRef × ImageBufferRef :=
  ({ self with data := other.data, owns_data := other.owns_data, width := other.width,
               height := other.height, channels := other.channels,
               item_size := other.item_size, row_stride := other.row_stride },
   { other with data := self.data, owns_data := self.owns_data, width := self.width,
                height := self.height, channels := self.channels,
                item_size := self.item_size, row_stride := self.row_stride })

/-- The heap after the destructor `~ImageBuffer`, which calls `Cleanup`: the
block of an owning buffer is freed. -/
def ImageBufferRef.destroy (h : Heap) (r : ImageBufferRef) : Heap :=
  match r.data with
  | some p => if r.owns_data then { h with live := fun a => if a = p then false else h.live a }
              else h
  | none => h

/-- Embeds the copy assignment `ImageBuffer::operator=(const ImageBuffer &other)`
of `imagebuffer.cpp`, `return *this = ImageBuffer(other)`: the temporary is
made by the copy constructor, move-assigned to `*this` and then destroyed. -/
def ImageBufferRef.copyAssign (h : Heap) (fresh : Option Nat) (self other : ImageBufferRef) :
    Except Error (Heap × ImageBufferRef) :=
  match ImageBufferRef.copyConstruct h fresh other with
  | .error e => .error e
  | .ok (h1, tmp) =>
    .ok (ImageBufferRef.destroy h1 (ImageBufferRef.moveAssign self tmp).2,
         (ImageBufferRef.moveAssign self tmp).1)

/-- Embeds the move constructor `ImageBuffer::ImageBuffer(ImageBuffer &&other)`
of `imagebuffer.cpp`: the new object and `other` after the call. The
initializer list does not name `buffer_type`; the value the member then has
is `initial_type`. -/
def ImageBufferRef.moveConstruct (initial_type : ImageBufferType) (other : ImageBufferRef) :
    ImageBufferRef × ImageBufferRef :=
  ({ data := other.data, width := other.width, height := other.height,
     channels := other.channels, item_size := other.item_size,
     row_stride := other.row_stride, buffer_type := initial_type,
     owns_data := other.owns_data },
   ImageBufferRef.Cleanup)

/-- The default-constructed buffer. -/
def defaultRef : ImageBufferRef := ImageBufferRef.Cleanup

/-- A 1x1 one-channel `double` buffer at address 1 that owns its memory. -/
def doubleRef : ImageBufferRef :=
  { data := some 1, width := 1, height := 1, channels := 1, item_size := 8,
    row_stride := 8, buffer_type := .Double, owns_data := true }

/-- Embeds `ArrowStyle::Equals`, with `wgu::eps_equal` as the parameter
`epsEq`. -/
def ArrowStyle.Equals (epsEq : ℚ → ℚ → Bool) (a other : ArrowStyle) : Bool :=
  if !epsEq a.tip_length other.tip_length then false
  else if !epsEq a.tip_angle other.tip_angle then false
  else if a.tip_closed != other.tip_closed then false
  else a.toLineStyle.Equals epsEq other.toLineStyle

/-- Embeds `ArrowStyle::IsValid`. -/
def ArrowStyle.IsValid (colorIsValid : Color → Bool) (a : ArrowStyle) : Bool :=
  decide (a.tip_length > 0) && decide (a.tip_angle > 0) && decide (a.tip_angle < 180)
    && a.toLineStyle.IsValid colorIsValid

/-- The enumerators of `enum class Marker` that `styles.cpp` names. -/
inductive Marker where
  | Point | Circle | Diamond | Plus | Cross | Square | RotatedSquare
  | TriangleUp | TriangleDown | TriangleLeft | TriangleRight
  | Star | Pentagram | Pentagon | Hexagram | Hexagon
  | Heptagram | Heptagon | Octagram | Octagon | Enneagram | Enneagon
  deriving DecidableEq, Repr

/-- Embeds `MarkerFromChar(char m)`. -/
def MarkerFromChar (m : Char) : Except Error Marker :=
  if m = '.' then .ok .Point
  else if m = 'o' then .ok .Circle
  else if m = 'd' then .ok .Diamond
  else if m = '+' then .ok .Plus
  else if m = 'x' then .ok .Cross
  else if m = 's' then .ok .Square
  else if m = 'r' then .ok .RotatedSquare
  else if m = '^' then .ok .TriangleUp
  else if m = 'v' then .ok .TriangleDown
  else if m = '<' then .ok .TriangleLeft
  else if m = '>' then .ok .TriangleRight
  else if m = '*' then .ok .Star
  else if m = '5' then .ok .Pentagram
  else if m = 'p' then .ok .Pentagon
  else if m = '6' then .ok .Hexagram
  else if m = 'h' then .ok .Hexagon
  else if m = '7' then .ok .Heptagram
  else if m = 'H' then .ok .Heptagon
  else if m = '8' then .ok .Octagram
  else if m = '0' then .ok .Octagon
  else if m = '9' then .ok .Enneagram
  else if m = 'n' then .ok .Enneagon
  else .error .invalid_argument

/-- Embeds `MarkerToChar(Marker marker)`. Every enumerator has a `case`, so
the `throw` after the `switch` is reached by no value of the enumeration. -/
def MarkerToChar : Marker → Except Error Char
  | .Circle => .ok 'o'
  | .Cross => .ok 'x'
  | .Diamond => .ok 'd'
  | .Enneagon => .ok 'n'
  | .Enneagram => .ok '9'
  | .Heptagon => .ok 'H'
  | .Heptagram => .ok '7'
  | .Hexagon => .ok 'h'
  | .Hexagram => .ok '6'
  | .Octagon => .ok '0'
  | .Octagram => .ok '8'
  | .Pentagon => .ok 'p'
  | .Pentagram => .ok '5'
  | .Plus => .ok '+'
  | .Point => .ok '.'
  | .RotatedSquare => .ok 'r'
  | .Star => .ok '*'
  | .Square => .ok 's'
  | .TriangleUp => .ok '^'
  | .TriangleDown => .ok 'v'
  | .TriangleLeft => .ok '<'
  | .TriangleRight => .ok '>'

/-- Two measured lines, of the widths 30 and 50 and the heights 10 and 12. -/
def twoLines : List TextLine :=
  [{ text := "a", reference_point := { x := 0, y := 0 }, width := 30, height := 10,
     bearing_x := 1, bearing_y := -9 },
   { text := "b", reference_point := { x := 0, y := 0 }, width := 50, height := 12,
     bearing_x := 0, bearing_y := -10 }]

/-- A text style with the line spacing 3/2 and centered lines. -/
def centeredStyle : TextStyle :=
  { size := 16, family := "monospace", color := Color.init 0 0 0 1, bold := false,
    italic := false, line_spacing := 3 / 2, alignment := .Center }

/-- An arrow style with a single head: width 2, black, tip length 1/5, tip
angle 20, open tip, solid line. -/
def arrowExample : ArrowStyle :=
  { width := 2, color := Color.init 0 0 0 1, dash_pattern := [], cap := .Butt, join := .Miter,
    tip_length := 1 / 5, tip_angle := 20, tip_closed := false, double_headed := false }

/-- The `uint8` RGB buffer of width 1 and height 2 with the pixels `(1, 2, 3)`
and `(4, 5, 6)` of `rgb1x2padded`, stored without padding. -/
def rgb1x2contiguous : ImageBuffer :=
  { data := some (memOfList [1, 2, 3, 4, 5, 6]), width := 1, height := 2,
    channels := 3, item_size := 1, row_stride := 3, buffer_type := .UInt8,
    owns_data := true }

/-! ### Colors with NaN and infinite components -/

/-- The values of a C++ `double` as the comparisons see them: NaN, the two
infinities, and the finite values as exact rationals. -/
inductive Double where
  | nan
  | negInf
  | finite (q : ℚ)
  | posInf
  deriving DecidableEq

/-- The comparison `a < b` of two `double` values; it is false whenever one of
them is NaN. -/
def Double.lt : Double → Double → Bool
  | .nan, _ => false
  | _, .nan => false
  | .negInf, .negInf => false
  | .negInf, _ => true
  | _, .negInf => false
  | .posInf, _ => false
  | .finite _, .posInf => true
  | .finite a, .finite b => decide (a < b)

/-- The comparison `a <= b` of two `double` values; it is false whenever one
of them is NaN. -/
def Double.le : Double → Double → Bool
  | .nan, _ => false
  | _, .nan => false
  | .negInf, _ => true
  | _, .posInf => true
  | .posInf, _ => false
  | .finite _, .negInf => false
  | .finite a, .finite b => decide (a ≤ b)

/-- A model of `std::max(a, b)` of the C++ standard library, which returns
`(a < b) ? b : a`. -/
def std.max (a b : Double) : Double := if Double.lt a b then b else a

/-- A model of `std::min(a, b)` of the C++ standard library, which returns
`(b < a) ? b : a`. -/
def std.min (a b : Double) : Double := if Double.lt b a then b else a

/-- Embeds `saturation_cast<double>(val, low, high)` of `vivi/colors.hpp`,
`std::min(std::max(val, low), high)`, for every `double`, NaN and the
infinities included. -/
def ieee.saturation_cast (val low high : Double) : Double := std.min (std.max val low) high

/-- The members of `struct Color` as `double` values that may be NaN or
infinite. -/
structure ieee.Color where
  red : Double
  green : Double
  blue : Double
  alpha : Double
  deriving DecidableEq

/-- Embeds the constructor `Color::Color(double r, double g, double b, double a)`
for every `double`, NaN and the infinities included. -/
def ieee.Color.init (r g b a : Double) : ieee.Color :=
  { red := ieee.saturation_cast r (.finite 0) (.finite 1),
    green := ieee.saturation_cast g (.finite 0) (.finite 1),
    blue := ieee.saturation_cast b (.finite 0) (.finite 1),
    alpha := ieee.saturation_cast a (.finite 0) (.finite 1) }

/-! ## Theorems -/

/-! ### Loops -/

theorem forStepFuel_eq_foldl {σ : Type} (stop step : Int) (body : Int → σ → σ) :
    ∀ (cnt fuel : Nat) (start : Int) (s : σ), cnt ≤ fuel →
      (∀ j : Nat, j < cnt → start + (j : Int) * step < stop) →
      stop ≤ start + (cnt : Int) * step →
      forStepFuel fuel start stop step body s =
        (List.range cnt).foldl (fun s (j : Nat) => body (start + (j : Int) * step) s) s := by
  intro cnt
  induction cnt with
  | zero =>
    intro fuel start s _ _ hstop
    have hs : ¬ start < stop := by simpa using hstop
    cases fuel with
    | zero => simp [forStepFuel]
    | succ f => simp [forStepFuel, hs]
  | succ n ih =>
    intro fuel start s hfuel hlt hstop
    cases fuel with
    | zero => omega
    | succ f =>
      have h0 : start < stop := by simpa using hlt 0 (Nat.succ_pos n)
      have hrec := ih f (start + step) (body start s) (by omega)
        (fun j hj => by
          have := hlt (j + 1) (by omega)
          push_cast at this
          linarith)
        (by push_cast at hstop; linarith)
      rw [forStepFuel, if_pos h0, hrec, List.range_succ_eq_map, List.foldl_cons,
        List.foldl_map]
      have hfun : (fun s (j : Nat) => body (start + step + (j : Int) * step) s)
          = (fun s (j : Nat) => body (start + ((j.succ : Nat) : Int) * step) s) := by
        funext s j
        congr 1
        push_cast
        ring
      rw [hfun]
      simp

/-- A `for` loop with a positive step that runs `cnt` times is the left fold
of its body over the `cnt` indices; the fuel of `forStep` is not used up. -/
theorem forStep_eq_foldl {σ : Type} (start stop step : Int) (body : Int → σ → σ) (s : σ)
    (cnt : Nat) (hstep : 1 ≤ step)
    (hlt : ∀ j : Nat, j < cnt → start + (j : Int) * step < stop)
    (hstop : stop ≤ start + (cnt : Int) * step) :
    forStep start stop step body s =
      (List.range cnt).foldl (fun s (j : Nat) => body (start + (j : Int) * step) s) s := by
  unfold forStep
  apply forStepFuel_eq_foldl stop step body cnt _ start s _ hlt hstop
  cases cnt with
  | zero => omega
  | succ n =>
    have h := hlt n (by omega)
    have hmul : (n : Int) ≤ (n : Int) * step := by
      have hn : (0 : Int) ≤ (n : Int) := Int.natCast_nonneg n
      nlinarith
    omega

/-- The loop `for (i = 0; i < n; ++i)` with `n ≥ 0`. -/
theorem forStep_one_eq_foldl {σ : Type} (n : Int) (hn : 0 ≤ n) (body : Int → σ → σ) (s : σ) :
    forStep 0 n 1 body s = (List.range n.toNat).foldl (fun s (j : Nat) => body (j : Int) s) s := by
  rw [forStep_eq_foldl 0 n 1 body s n.toNat (le_refl 1)]
  · congr 1
    funext s j
    congr 1
    ring
  · intro j hj
    omega
  · omega

/-- Loop bodies that each change memory only inside their own region and
depend only on it, with pairwise disjoint regions, act independently: after
the loop every region holds what its body makes of the initial memory, and
all other bytes are unchanged. -/
theorem foldl_disjoint {ι : Type} (body : ι → Mem → Mem) (R : ι → Int → Prop) :
    ∀ (l : List ι) (m0 : Mem),
      (∀ i ∈ l, ∀ m a, ¬ R i a → body i m a = m a) →
      (∀ i ∈ l, ∀ m1 m2, (∀ a, R i a → m1 a = m2 a) →
        ∀ a, R i a → body i m1 a = body i m2 a) →
      l.Pairwise (fun i j => ∀ a, R i a → ¬ R j a) →
      (∀ a, (∀ i ∈ l, ¬ R i a) → l.foldl (fun m i => body i m) m0 a = m0 a) ∧
      (∀ i ∈ l, ∀ a, R i a → l.foldl (fun m i => body i m) m0 a = body i m0 a) := by
  intro l
  induction l with
  | nil =>
    intro m0 _ _ _
    exact ⟨fun a _ => rfl, fun i hi => absurd hi (List.not_mem_nil i)⟩
  | cons i l ih =>
    intro m0 frame loc hp
    rw [List.pairwise_cons] at hp
    obtain ⟨hframe, hval⟩ := ih (body i m0)
      (fun j hj => frame j (List.mem_cons_of_mem i hj))
      (fun j hj => loc j (List.mem_cons_of_mem i hj)) hp.2
    refine ⟨fun a ha => ?_, fun j hj a hR => ?_⟩
    · rw [List.foldl_cons, hframe a (fun j hj => ha j (List.mem_cons_of_mem i hj)),
        frame i (List.mem_cons_self i l) m0 a (ha i (List.mem_cons_self i l))]
    · rw [List.foldl_cons]
      rcases List.mem_cons.mp hj with rfl | hjl
      · rw [hframe a (fun k hk => hp.1 k hk a hR)]
      · rw [hval j hjl a hR]
        apply loc j hj _ _ _ a hR
        intro a' hR'
        exact frame i (List.mem_cons_self i l) m0 a' (fun hi => hp.1 j hjl a' hi hR')

/-- The nested row/column loops over pixels whose regions are pairwise
disjoint: every pixel's region ends up as its body makes it from the initial
memory, every byte outside all regions is unchanged. -/
theorem double_loop (pix : Nat → Nat → Mem → Mem) (R : Nat → Nat → Int → Prop) (H W : Nat)
    (frame : ∀ r c m a, ¬ R r c a → pix r c m a = m a)
    (loc : ∀ r c m1 m2, (∀ a, R r c a → m1 a = m2 a) →
      ∀ a, R r c a → pix r c m1 a = pix r c m2 a)
    (disj : ∀ r c r2 c2, r < H → c < W → r2 < H → c2 < W → (r ≠ r2 ∨ c ≠ c2) →
      ∀ a, R r c a → ¬ R r2 c2 a)
    (m0 : Mem) :
    (∀ a, (∀ r c, r < H → c < W → ¬ R r c a) →
      (List.range H).foldl (fun m r => (List.range W).foldl (fun m c => pix r c m) m) m0 a
        = m0 a) ∧
    (∀ r c, r < H → c < W → ∀ a, R r c a →
      (List.range H).foldl (fun m r => (List.range W).foldl (fun m c => pix r c m) m) m0 a
        = pix r c m0 a) := by
  have inner : ∀ r, r < H → ∀ m : Mem,
      (∀ a, (∀ c, c < W → ¬ R r c a) →
        (List.range W).foldl (fun m c => pix r c m) m a = m a) ∧
      (∀ c, c < W → ∀ a, R r c a →
        (List.range W).foldl (fun m c => pix r c m) m a = pix r c m a) := by
    intro r hr m
    have hp : (List.range W).Pairwise (fun i j => ∀ a, R r i a → ¬ R r j a) := by
      apply List.Pairwise.imp_of_mem _ (List.pairwise_lt_range W)
      intro i j hi hj hij
      exact disj r i r j hr (List.mem_range.mp hi) hr (List.mem_range.mp hj)
        (Or.inr (Nat.ne_of_lt hij))
    obtain ⟨h1, h2⟩ := foldl_disjoint (fun c => pix r c) (fun c => R r c) (List.range W) m
      (fun c _ => frame r c) (fun c _ => loc r c) hp
    exact ⟨fun a ha => h1 a (fun c hc => ha c (List.mem_range.mp hc)),
      fun c hc a hR => h2 c (List.mem_range.mpr hc) a hR⟩
  have hp : (List.range H).Pairwise
      (fun i j => ∀ a, (∃ c, c < W ∧ R i c a) → ¬ (∃ c, c < W ∧ R j c a)) := by
    apply List.Pairwise.imp_of_mem _ (List.pairwise_lt_range H)
    intro i j hi hj hij a hex1 hex2
    obtain ⟨c, hc, hRc⟩ := hex1
    obtain ⟨c2, hc2, hRc2⟩ := hex2
    exact disj i c j c2 (List.mem_range.mp hi) hc (List.mem_range.mp hj) hc2
      (Or.inl (Nat.ne_of_lt hij)) a hRc hRc2
  obtain ⟨h1, h2⟩ := foldl_disjoint
    (fun r m => (List.range W).foldl (fun m c => pix r c m) m)
    (fun r a => ∃ c, c < W ∧ R r c a) (List.range H) m0
    (fun r hr m a ha => (inner r (List.mem_range.mp hr) m).1 a
      (fun c hc hR => ha ⟨c, hc, hR⟩))
    (fun r hr m1 m2 hm a ha => by
      obtain ⟨c, hc, hR⟩ := ha
      have hr2 := List.mem_range.mp hr
      show (List.range W).foldl (fun m c => pix r c m) m1 a
        = (List.range W).foldl (fun m c => pix r c m) m2 a
      rw [(inner r hr2 m1).2 c hc a hR, (inner r hr2 m2).2 c hc a hR]
      exact loc r c m1 m2 (fun a2 hR2 => hm a2 ⟨c, hc, hR2⟩) a hR)
    hp
  refine ⟨fun a ha => h1 a (fun r hr hex => ?_), fun r c hr hc a hR => ?_⟩
  · obtain ⟨c, hc, hR⟩ := hex
    exact ha r c (List.mem_range.mp hr) hc hR
  · have := h2 r (List.mem_range.mpr hr) a ⟨c, hc, hR⟩
    rw [this]
    exact (inner r hr m0).2 c hc a hR

/-- Pixel regions `[r * S + c * T, r * S + (c + 1) * T)` of a grid of `W`
columns do not overlap when a row of `W` pixels fits into the row stride `S`
(or there is one row only). -/
theorem tiles_disjoint (S T : Int) (H W : Nat) (hT : 0 ≤ T)
    (hS : H ≤ 1 ∨ (W : Int) * T ≤ S) (r c r2 c2 : Nat)
    (hr : r < H) (hc : c < W) (hr2 : r2 < H) (hc2 : c2 < W) (hne : r ≠ r2 ∨ c ≠ c2) (a : Int)
    (h1 : (r : Int) * S + (c : Int) * T ≤ a ∧ a < (r : Int) * S + ((c : Int) + 1) * T) :
    ¬ ((r2 : Int) * S + (c2 : Int) * T ≤ a ∧ a < (r2 : Int) * S + ((c2 : Int) + 1) * T) := by
  rintro ⟨h3, h4⟩
  obtain ⟨h1, h2⟩ := h1
  have key : ∀ (x y : Nat), x < y → ((x : Int) + 1) * T ≤ (y : Int) * T := by
    intro x y hxy
    exact mul_le_mul_of_nonneg_right (by omega) hT
  by_cases hrr : r = r2
  · subst hrr
    have hcc : c ≠ c2 := by
      rcases hne with h | h
      · exact absurd rfl h
      · exact h
    rcases Nat.lt_or_gt_of_ne hcc with h | h
    · have := key c c2 h
      omega
    · have := key c2 c h
      omega
  · rcases hS with hH | hS
    · omega
    · have hS0 : 0 ≤ S := le_trans (by positivity) hS
      have hrow : ∀ (x y : Nat), x < y → ((x : Int) + 1) * S ≤ (y : Int) * S := by
        intro x y hxy
        exact mul_le_mul_of_nonneg_right (by omega) hS0
      have hcW : ((c : Int) + 1) * T ≤ (W : Int) * T := key c W hc
      have hc2W : ((c2 : Int) + 1) * T ≤ (W : Int) * T := key c2 W hc2
      have hc0 : 0 ≤ (c : Int) * T := by positivity
      have hc20 : 0 ≤ (c2 : Int) * T := by positivity
      rcases Nat.lt_or_gt_of_ne hrr with h | h
      · have := hrow r r2 h
        nlinarith
      · have := hrow r2 r h
        nlinarith

/-- The nested loops `for (row = 0; row < rows; ++row) for (col = 0; col < cols;
++col)` over pixels of `T` bytes in rows `S` bytes apart: the region of every
pixel ends up as its body makes it from the initial memory, every byte outside
all pixels is unchanged. -/
theorem pixel_loops (pix : Int → Int → Mem → Mem) (S T rows cols : Int)
    (hrows : 0 ≤ rows) (hcols : 0 ≤ cols) (hT : 0 ≤ T) (hS : rows ≤ 1 ∨ cols * T ≤ S)
    (frame : ∀ row col m a, ¬ (row * S + col * T ≤ a ∧ a < row * S + (col + 1) * T) →
      pix row col m a = m a)
    (loc : ∀ row col m1 m2,
      (∀ a, row * S + col * T ≤ a ∧ a < row * S + (col + 1) * T → m1 a = m2 a) →
      ∀ a, row * S + col * T ≤ a ∧ a < row * S + (col + 1) * T →
        pix row col m1 a = pix row col m2 a)
    (m0 : Mem) :
    (∀ a, (∀ row col, 0 ≤ row → row < rows → 0 ≤ col → col < cols →
        ¬ (row * S + col * T ≤ a ∧ a < row * S + (col + 1) * T)) →
      forStep 0 rows 1 (fun row m => forStep 0 cols 1 (fun col m => pix row col m) m) m0 a
        = m0 a) ∧
    (∀ row col, 0 ≤ row → row < rows → 0 ≤ col → col < cols →
      ∀ a, row * S + col * T ≤ a ∧ a < row * S + (col + 1) * T →
      forStep 0 rows 1 (fun row m => forStep 0 cols 1 (fun col m => pix row col m) m) m0 a
        = pix row col m0 a) := by
  have hinner : (fun (row : Int) (m : Mem) => forStep 0 cols 1 (fun col m => pix row col m) m)
      = (fun (row : Int) (m : Mem) =>
          (List.range cols.toNat).foldl (fun m (c : Nat) => pix row (c : Int) m) m) := by
    funext row m
    exact forStep_one_eq_foldl cols hcols (fun col m => pix row col m) m
  rw [hinner, forStep_one_eq_foldl rows hrows]
  obtain ⟨h1, h2⟩ := double_loop (fun r c => pix (r : Int) (c : Int))
    (fun r c a => (r : Int) * S + (c : Int) * T ≤ a ∧ a < (r : Int) * S + ((c : Int) + 1) * T)
    rows.toNat cols.toNat
    (fun r c m a h => frame r c m a h)
    (fun r c m1 m2 h a ha => loc r c m1 m2 h a ha)
    (fun r c r2 c2 hr hc hr2 hc2 hne a ha =>
      tiles_disjoint S T rows.toNat cols.toNat hT
        (by
          rcases hS with h | h
          · left; omega
          · right; rw [Int.toNat_of_nonneg hcols]; exact h)
        r c r2 c2 hr hc hr2 hc2 hne a ha)
    m0
  refine ⟨fun a ha => h1 a (fun r c hr hc => ha r c ?_ ?_ ?_ ?_), fun row col hr0 hr1 hc0 hc1 a ha => ?_⟩
  · omega
  · omega
  · omega
  · omega
  · have := h2 row.toNat col.toNat (by omega) (by omega) a
      (by rw [Int.toNat_of_nonneg hr0, Int.toNat_of_nonneg hc0]; exact ha)
    rw [Int.toNat_of_nonneg hr0, Int.toNat_of_nonneg hc0] at this
    exact this

/-- The single pass a contiguous buffer is scanned in: one row of
`width * height` pixels, whose pixel `r * width + c` is the pixel `(r, c)`. -/
theorem ByteOffset_contiguous (b : ImageBuffer)
    (h : b.row_stride = b.width * b.channels * b.item_size) (r c k : Int) :
    b.ByteOffset 0 (r * b.width + c) k = b.ByteOffset r c k := by
  unfold ImageBuffer.ByteOffset
  rw [h]
  ring

/-- The bytes of the element of channel `k` lie in the region of its pixel. -/
theorem elem_in_pixel (b : ImageBuffer) (row col k x : Int) (hk0 : 0 ≤ k)
    (hk1 : k < b.channels) (hx0 : 0 ≤ x) (hx1 : x < b.item_size) :
    row * b.row_stride + col * (b.channels * b.item_size) ≤ b.ByteOffset row col k + x
    ∧ b.ByteOffset row col k + x
        < row * b.row_stride + (col + 1) * (b.channels * b.item_size) := by
  unfold ImageBuffer.ByteOffset
  have h1 : (k + 1) * b.item_size ≤ b.channels * b.item_size :=
    mul_le_mul_of_nonneg_right (by omega) (by omega)
  have h2 : 0 ≤ k * b.item_size := mul_nonneg hk0 (by omega)
  constructor
  · nlinarith
  · nlinarith

/-- The loops of the channel conversions, which scan a contiguous source in
one pass of `width * height` pixels and a padded one row by row: in both
cases every pixel `(r, c)` is handled by one pass `(row, col)` of the loops
that addresses the elements of `(r, c)` in source and destination, and the
destination's bytes of that pixel are as this pass makes them. -/
theorem convert_final (pix : Int → Int → Mem → Mem) (src dst : ImageBuffer) (g : Mem)
    (hsrc : src.WellFormed) (hdw : dst.width = src.width)
    (hd1 : src.IsContiguous = true →
      dst.row_stride = dst.width * dst.channels * dst.item_size)
    (hd2 : dst.width * (dst.channels * dst.item_size) ≤ dst.row_stride)
    (hdT : 0 ≤ dst.channels * dst.item_size)
    (frame : ∀ row col m a,
      ¬ (row * dst.row_stride + col * (dst.channels * dst.item_size) ≤ a
        ∧ a < row * dst.row_stride + (col + 1) * (dst.channels * dst.item_size)) →
      pix row col m a = m a)
    (loc : ∀ row col m1 m2,
      (∀ a, row * dst.row_stride + col * (dst.channels * dst.item_size) ≤ a
        ∧ a < row * dst.row_stride + (col + 1) * (dst.channels * dst.item_size) →
        m1 a = m2 a) →
      ∀ a, row * dst.row_stride + col * (dst.channels * dst.item_size) ≤ a
        ∧ a < row * dst.row_stride + (col + 1) * (dst.channels * dst.item_size) →
        pix row col m1 a = pix row col m2 a)
    (r c : Int) (hr0 : 0 ≤ r) (hr1 : r < src.height) (hc0 : 0 ≤ c) (hc1 : c < src.width) :
    ∃ row col, (∀ k, dst.ByteOffset row col k = dst.ByteOffset r c k)
      ∧ (∀ k, src.ByteOffset row col k = src.ByteOffset r c k)
      ∧ ∀ a, row * dst.row_stride + col * (dst.channels * dst.item_size) ≤ a
          ∧ a < row * dst.row_stride + (col + 1) * (dst.channels * dst.item_size) →
        forStep 0 (if src.IsContiguous then 1 else src.height) 1 (fun row m =>
          forStep 0 (if src.IsContiguous then src.width * src.height else src.width) 1
            (fun col m => pix row col m) m) g a = pix row col g a := by
  obtain ⟨_, hw, hh, _, _, _⟩ := hsrc
  by_cases hcont : src.IsContiguous = true
  · simp only [hcont, if_true]
    have hcont2 : src.row_stride = src.width * src.channels * src.item_size :=
      of_decide_eq_true hcont
    have hlt : r * src.width + c < src.width * src.height := by
      have : (r + 1) * src.width ≤ src.height * src.width :=
        mul_le_mul_of_nonneg_right (by omega) hw
      nlinarith
    have hge : 0 ≤ r * src.width + c := by positivity
    refine ⟨0, r * src.width + c, fun k => ?_, fun k => ByteOffset_contiguous src hcont2 r c k,
      ?_⟩
    · rw [← hdw]
      exact ByteOffset_contiguous dst (hd1 hcont) r c k
    · exact (pixel_loops pix dst.row_stride (dst.channels * dst.item_size) 1
        (src.width * src.height) (by decide) (by positivity) hdT (Or.inl (le_refl 1))
        frame loc g).2 0 (r * src.width + c) (le_refl 0) (by decide) hge hlt
  · simp only [hcont]
    refine ⟨r, c, fun k => rfl, fun k => rfl, ?_⟩
    exact (pixel_loops pix dst.row_stride (dst.channels * dst.item_size) src.height
      src.width hh hw hdT (Or.inr (by rw [← hdw]; exact hd2))
      frame loc g).2 r c hr0 hr1 hc0 hc1

theorem exists_row_col (w h col : Int) (h0 : 0 ≤ col) (h1 : col < w * h) (hw : 0 ≤ w) :
    ∃ r c : Int, 0 ≤ r ∧ r < h ∧ 0 ≤ c ∧ c < w ∧ col = r * w + c := by
  have hwpos : 0 < w := by
    rcases eq_or_lt_of_le hw with h | h
    · rw [← h] at h1
      simp at h1
      omega
    · exact h
  refine ⟨col / w, col % w, Int.ediv_nonneg h0 hw, ?_, Int.emod_nonneg col (by omega),
    Int.emod_lt_of_pos col hwpos, ?_⟩
  · apply Int.ediv_lt_of_lt_mul hwpos
    rw [mul_comm]
    exact h1
  · have := Int.ediv_add_emod col w
    rw [mul_comm] at this
    exact this.symm

/-- The loops of an in-place scan leave every byte that belongs to no pixel as
it was. -/
theorem scan_outside (pix : Int → Int → Mem → Mem) (b : ImageBuffer) (m0 : Mem)
    (hb : b.WellFormed)
    (frame : ∀ row col m a,
      ¬ (row * b.row_stride + col * (b.channels * b.item_size) ≤ a
        ∧ a < row * b.row_stride + (col + 1) * (b.channels * b.item_size)) →
      pix row col m a = m a)
    (loc : ∀ row col m1 m2,
      (∀ a, row * b.row_stride + col * (b.channels * b.item_size) ≤ a
        ∧ a < row * b.row_stride + (col + 1) * (b.channels * b.item_size) →
        m1 a = m2 a) →
      ∀ a, row * b.row_stride + col * (b.channels * b.item_size) ≤ a
        ∧ a < row * b.row_stride + (col + 1) * (b.channels * b.item_size) →
        pix row col m1 a = pix row col m2 a)
    (a : Int)
    (ha : ∀ r c, 0 ≤ r → r < b.height → 0 ≤ c → c < b.width →
      ¬ (r * b.row_stride + c * (b.channels * b.item_size) ≤ a
        ∧ a < r * b.row_stride + (c + 1) * (b.channels * b.item_size))) :
    forStep 0 (if b.IsContiguous then 1 else b.height) 1 (fun row m =>
      forStep 0 (if b.IsContiguous then b.width * b.height else b.width) 1
        (fun col m => pix row col m) m) m0 a = m0 a := by
  obtain ⟨_, hw, hh, hch, hsz, hstride⟩ := hb
  have hi : 1 ≤ b.item_size := by
    rw [hsz]
    cases b.buffer_type <;> decide
  have hT : 0 ≤ b.channels * b.item_size := by positivity
  by_cases hcont : b.IsContiguous = true
  · simp only [hcont, if_true]
    have hcont2 : b.row_stride = b.width * b.channels * b.item_size :=
      of_decide_eq_true hcont
    apply (pixel_loops pix b.row_stride (b.channels * b.item_size) 1
      (b.width * b.height) (by decide) (by positivity) hT (Or.inl (le_refl 1))
      frame loc m0).1 a
    intro row col hr0 hr1 hc0 hc1 hreg
    obtain ⟨r, c, h1, h2, h3, h4, hcol⟩ := exists_row_col b.width b.height col hc0 hc1 hw
    have hrow : row = 0 := by omega
    subst hrow
    subst hcol
    apply ha r c h1 h2 h3 h4
    have e : r * b.row_stride + c * (b.channels * b.item_size)
        = 0 * b.row_stride + (r * b.width + c) * (b.channels * b.item_size) := by
      rw [hcont2]
      ring
    have e2 : r * b.row_stride + (c + 1) * (b.channels * b.item_size)
        = 0 * b.row_stride + (r * b.width + c + 1) * (b.channels * b.item_size) := by
      rw [hcont2]
      ring
    rw [e, e2]
    exact hreg
  · simp only [hcont]
    exact (pixel_loops pix b.row_stride (b.channels * b.item_size) b.height
      b.width hh hw hT (Or.inr (by rw [← mul_assoc]; exact hstride)) frame loc m0).1 a ha

/-- A loop over `0, C, 2C, ...` below `W * C` is the loop over `0, 1, ...`
below `W` with the index scaled by `C`. -/
theorem forStep_scale {σ : Type} (W C : Int) (hW : 0 ≤ W) (hC : 1 ≤ C) (body : Int → σ → σ)
    (s : σ) :
    forStep 0 (W * C) C body s = forStep 0 W 1 (fun j s => body (j * C) s) s := by
  rw [forStep_one_eq_foldl W hW, forStep_eq_foldl 0 (W * C) C body s W.toNat hC]
  · congr 1
    funext s j
    congr 1
    ring
  · intro j hj
    have : ((j : Int) + 1) * C ≤ W * C := mul_le_mul_of_nonneg_right (by omega) (by omega)
    nlinarith
  · rw [Int.toNat_of_nonneg hW]
    omega

/-! ### Elements in memory -/

theorem readElem_length (m : Mem) (off sz : Int) : (readElem m off sz).length = sz.toNat := by
  simp [readElem]

theorem writeElem_apply (m : Mem) (off : Int) (v : List Nat) (a : Int) :
    writeElem m off v a
      = if off ≤ a ∧ a < off + (v.length : Int) then v.getD (a - off).toNat 0 else m a :=
  rfl

theorem ItemSize_pos (Tp : ImageBufferType) : 1 ≤ ItemSizeFromImageBufferType Tp := by
  cases Tp <;> decide

/-- C1: a `Rect` is valid exactly when width and height are positive, the
radius lies in `[0, min(width, height)/2]` and is not strictly between 0.5 and
1.0; `Rect(100, 100, 50, 50, radius = 0.7)` is not valid. -/
theorem Rect_IsValid_iff :
    (∀ r : Rect, r.IsValid = true ↔
      (r.width > 0 ∧ r.height > 0 ∧ 0 ≤ r.radius
        ∧ r.radius ≤ min r.width r.height / 2
        ∧ ¬ (1 / 2 < r.radius ∧ r.radius < 1)))
    ∧ Rect.IsValid ⟨100, 100, 50, 50, 0, 7 / 10⟩ = false := by
  refine ⟨fun r => ?_, ?_⟩
  swap
  · unfold Rect.IsValid
    rw [if_pos]
    simp only [Bool.and_eq_true, decide_eq_true_eq]
    constructor <;> norm_num
  have hmin : min r.half_height r.half_width = min r.width r.height / 2 := by
    unfold Rect.half_height Rect.half_width
    rcases le_total r.width r.height with h | h
    · rw [min_eq_right (by linarith), min_eq_left h]
    · rw [min_eq_left (by linarith), min_eq_right h]
  unfold Rect.IsValid
  rw [hmin]
  by_cases hband : r.radius > 1 / 2 ∧ r.radius < 1
  · have h1 := hband.1
    have h2 := hband.2
    have hb : (decide (r.radius > 1 / 2) && decide (r.radius < 1)) = true := by
      rw [Bool.and_eq_true, decide_eq_true_eq, decide_eq_true_eq]
      exact hband
    rw [hb]
    simp only [if_true, Bool.false_eq_true, false_iff]
    rintro ⟨_, _, _, _, hn⟩
    exact hn hband
  · have hb : (decide (r.radius > 1 / 2) && decide (r.radius < 1)) = false := by
      simpa using hband
    rw [hb]
    simp only [Bool.false_eq_true, if_false, Bool.and_eq_true, decide_eq_true_eq]
    constructor
    · rintro ⟨⟨⟨hw, hh⟩, hr⟩, h0⟩
      exact ⟨hw, hh, h0, hr, hband⟩
    · rintro ⟨hw, hh, h0, hr, _⟩
      exact ⟨⟨⟨hw, hh⟩, hr⟩, h0⟩

/-! ### Image buffer: copies -/

/-- C4 (defect of the code): for the RGB buffer of width 1 and height 2 with
padded rows, `ToChannels(4)` into zero-filled fresh memory stores the alpha
value 255 of both passes in row 0, so that the pixel `(1, 0)` of the result
has its colour channels but alpha 0, not 255. -/
theorem ToChannels_rgb_to_rgba_padded_alpha :
    rgb1x2padded.WellFormed ∧ rgb1x2padded.channels = 3 ∧
    ∃ d, ImageBuffer.ToChannels (some (fun _ => 0)) rgb1x2padded 4 = .ok d
      ∧ d.width = 1 ∧ d.height = 2 ∧ d.channels = 4
      ∧ [d.At .UInt8 0 0 0, d.At .UInt8 0 0 1, d.At .UInt8 0 0 2, d.At .UInt8 0 0 3]
          = [some [1], some [2], some [3], some [255]]
      ∧ [d.At .UInt8 1 0 0, d.At .UInt8 1 0 1, d.At .UInt8 1 0 2, d.At .UInt8 1 0 3]
          = [some [4], some [5], some [6], some [0]] :=
  ⟨by decide, by decide, _, rfl, rfl, rfl, rfl, rfl, rfl⟩

/-! ### Image buffer: which conversions exist -/

/-- C7: `ToChannels(n)` throws `std::invalid_argument` whenever the buffer's
channel count is not 1, 3 or 4, or `n` is not 1, 3 or 4 (whatever the data
pointer and whether or not memory could be allocated). -/
theorem ToChannels_invalid_argument (fresh : Option Mem) (b : ImageBuffer) (n : Int)
    (h : (b.channels ≠ 1 ∧ b.channels ≠ 3 ∧ b.channels ≠ 4) ∨ (n ≠ 1 ∧ n ≠ 3 ∧ n ≠ 4)) :
    ImageBuffer.ToChannels fresh b n = .error .invalid_argument := by
  unfold ImageBuffer.ToChannels
  rcases h with h | ⟨h1, h3, h4⟩
  · rw [if_pos h]
  · have h34 : ¬ (n = 3 ∨ n = 4) := by omega
    split_ifs <;> rfl

theorem ToChannels_invalid_argument_witness :
    ((rgb1x2padded.channels ≠ 1 ∧ rgb1x2padded.channels ≠ 3 ∧ rgb1x2padded.channels ≠ 4)
      ∨ ((2 : Int) ≠ 1 ∧ (2 : Int) ≠ 3 ∧ (2 : Int) ≠ 4))
    ∧ ImageBuffer.ToChannels (some (fun _ => 0)) rgb1x2padded 2 = .error .invalid_argument :=
  ⟨by decide, ToChannels_invalid_argument (some (fun _ => 0)) rgb1x2padded 2 (by decide)⟩

/-- C8, counterexample: the well-formed 3-channel buffer `rgb1x2padded` cannot
be converted to 1 channel, `ToChannels(1)` throws `std::invalid_argument`. -/
theorem ToChannels_rgb_to_gray_fails :
    rgb1x2padded.WellFormed ∧ rgb1x2padded.channels = 3
    ∧ ImageBuffer.ToChannels (some (fun _ => 0)) rgb1x2padded 1 = .error .invalid_argument :=
  ⟨by decide, by decide, rfl⟩

/-- C8, amended: for a buffer with data, `ToChannels(n)` succeeds (its
allocation having succeeded) and returns a buffer with `n` channels and the
same width and height when the buffer has 1 channel and `n` is 1, 3 or 4, or
has 3 or 4 channels and `n` is 3 or 4; with 3 or 4 channels and `n = 1` it
throws `std::invalid_argument`. -/
theorem ToChannels_supported (g : Mem) (b : ImageBuffer) (n : Int)
    (hv : b.IsValid = true) :
    ((b.channels = 1 ∧ (n = 1 ∨ n = 3 ∨ n = 4))
        ∨ ((b.channels = 3 ∨ b.channels = 4) ∧ (n = 3 ∨ n = 4)) →
      ∃ d, ImageBuffer.ToChannels (some g) b n = .ok d
        ∧ d.channels = n ∧ d.width = b.width ∧ d.height = b.height)
    ∧ ((b.channels = 3 ∨ b.channels = 4) ∧ n = 1 →
      ImageBuffer.ToChannels (some g) b n = .error .invalid_argument) := by
  obtain ⟨sdata, hm⟩ := Option.isSome_iff_exists.mp hv
  constructor
  · intro h
    unfold ImageBuffer.ToChannels ImageBuffer.CreateCopySelf ImageBuffer.CreateCopy
      helpers.Gray2RGBx helpers.RGBx2RGBx helpers.ConversionHelperGray
      helpers.ConversionHelperRGB
    rcases h with ⟨hc, hn⟩ | ⟨hc, hn⟩
    · rcases hn with hn | hn | hn <;> subst hn <;> simp [hc, hm, ImageBuffer.alloc]
    · rcases hc with hc | hc <;> rcases hn with hn | hn <;> subst hn <;>
        simp [hc, hm, ImageBuffer.alloc]
  · rintro ⟨hc, hn⟩
    subst hn
    unfold ImageBuffer.ToChannels
    rcases hc with hc | hc <;> simp [hc]

theorem ToChannels_supported_witness :
    rgb1x2padded.IsValid = true
    ∧ (∃ d, ImageBuffer.ToChannels (some (fun _ => 0)) rgb1x2padded 4 = .ok d
        ∧ d.channels = 4 ∧ d.width = rgb1x2padded.width ∧ d.height = rgb1x2padded.height)
    ∧ ImageBuffer.ToChannels (some (fun _ => 0)) rgb1x2padded 1 = .error .invalid_argument :=
  ⟨by decide,
    (ToChannels_supported (fun _ => 0) rgb1x2padded 4 (by decide)).1 (by decide),
    (ToChannels_supported (fun _ => 0) rgb1x2padded 1 (by decide)).2 (by decide)⟩

/-! ### Image buffer: swapping channels -/

theorem readElem_getD (m : Mem) (off sz x : Int) (hx0 : 0 ≤ x) (hx1 : x < sz) :
    (readElem m off sz).getD x.toNat 0 = m (off + x) := by
  have hlt : x.toNat < (readElem m off sz).length := by
    rw [readElem_length]
    omega
  rw [List.getD_eq_getElem _ 0 hlt]
  unfold readElem
  rw [List.getElem_map, List.getElem_range, Int.toNat_of_nonneg hx0]

/-- What one swap of the loop stores at the byte offset `a`. -/
theorem swapAt_apply (sz rowOff col ch1 ch2 : Int) (m : Mem) (a : Int) (hsz : 0 ≤ sz) :
    swapAt sz rowOff col ch1 ch2 m a
      = if rowOff + (col + ch2) * sz ≤ a ∧ a < rowOff + (col + ch2) * sz + sz then
          m (rowOff + (col + ch1) * sz + (a - (rowOff + (col + ch2) * sz)))
        else if rowOff + (col + ch1) * sz ≤ a ∧ a < rowOff + (col + ch1) * sz + sz then
          m (rowOff + (col + ch2) * sz + (a - (rowOff + (col + ch1) * sz)))
        else m a := by
  unfold swapAt
  simp only [writeElem_apply, readElem_length, Int.toNat_of_nonneg hsz]
  split_ifs with h1 h2
  · exact readElem_getD m _ sz _ (by omega) (by omega)
  · exact readElem_getD m _ sz _ (by omega) (by omega)
  · rfl

theorem swapAt_offset (b : ImageBuffer) (row j k : Int) :
    b.ByteOffset row 0 0 + (j * b.channels + k) * b.item_size = b.ByteOffset row j k := by
  unfold ImageBuffer.ByteOffset
  ring

/-- Elements of different channels of a pixel do not overlap. -/
theorem ByteOffset_disjoint (b : ImageBuffer) (row col k1 k2 : Int) (hi : 0 ≤ b.item_size)
    (hne : k1 ≠ k2) :
    b.ByteOffset row col k1 + b.item_size ≤ b.ByteOffset row col k2
      ∨ b.ByteOffset row col k2 + b.item_size ≤ b.ByteOffset row col k1 := by
  unfold ImageBuffer.ByteOffset
  rcases lt_or_gt_of_ne hne with h | h
  · left
    have : (k1 + 1) * b.item_size ≤ k2 * b.item_size :=
      mul_le_mul_of_nonneg_right (by omega) hi
    nlinarith
  · right
    have : (k2 + 1) * b.item_size ≤ k1 * b.item_size :=
      mul_le_mul_of_nonneg_right (by omega) hi
    nlinarith

/-- One swap of the loop, at pixel `(row, j)` of a buffer: where it stores
what. -/
theorem swapPix_apply (b : ImageBuffer) (row j ch1 ch2 : Int) (m : Mem) (a : Int)
    (hi : 0 ≤ b.item_size) :
    swapAt b.item_size (b.ByteOffset row 0 0) (j * b.channels) ch1 ch2 m a
      = if b.ByteOffset row j ch2 ≤ a ∧ a < b.ByteOffset row j ch2 + b.item_size then
          m (b.ByteOffset row j ch1 + (a - b.ByteOffset row j ch2))
        else if b.ByteOffset row j ch1 ≤ a ∧ a < b.ByteOffset row j ch1 + b.item_size then
          m (b.ByteOffset row j ch2 + (a - b.ByteOffset row j ch1))
        else m a := by
  rw [swapAt_apply _ _ _ _ _ _ _ hi, swapAt_offset, swapAt_offset]

theorem swapPix_frame (b : ImageBuffer) (row j ch1 ch2 : Int) (m : Mem) (a : Int)
    (hi : 1 ≤ b.item_size) (h1 : 0 ≤ ch1 ∧ ch1 < b.channels) (h2 : 0 ≤ ch2 ∧ ch2 < b.channels)
    (ha : ¬ (row * b.row_stride + j * (b.channels * b.item_size) ≤ a
      ∧ a < row * b.row_stride + (j + 1) * (b.channels * b.item_size))) :
    swapAt b.item_size (b.ByteOffset row 0 0) (j * b.channels) ch1 ch2 m a = m a := by
  rw [swapPix_apply b row j ch1 ch2 m a (by omega)]
  have e1 := elem_in_pixel b row j ch1 0 h1.1 h1.2 (le_refl 0) (by omega)
  have e1b := elem_in_pixel b row j ch1 (b.item_size - 1) h1.1 h1.2 (by omega) (by omega)
  have e2 := elem_in_pixel b row j ch2 0 h2.1 h2.2 (le_refl 0) (by omega)
  have e2b := elem_in_pixel b row j ch2 (b.item_size - 1) h2.1 h2.2 (by omega) (by omega)
  rw [if_neg (by omega), if_neg (by omega)]

theorem swapPix_loc (b : ImageBuffer) (row j ch1 ch2 : Int) (m1 m2 : Mem)
    (hi : 1 ≤ b.item_size) (h1 : 0 ≤ ch1 ∧ ch1 < b.channels) (h2 : 0 ≤ ch2 ∧ ch2 < b.channels)
    (hm : ∀ a, row * b.row_stride + j * (b.channels * b.item_size) ≤ a
      ∧ a < row * b.row_stride + (j + 1) * (b.channels * b.item_size) → m1 a = m2 a)
    (a : Int)
    (ha : row * b.row_stride + j * (b.channels * b.item_size) ≤ a
      ∧ a < row * b.row_stride + (j + 1) * (b.channels * b.item_size)) :
    swapAt b.item_size (b.ByteOffset row 0 0) (j * b.channels) ch1 ch2 m1 a
      = swapAt b.item_size (b.ByteOffset row 0 0) (j * b.channels) ch1 ch2 m2 a := by
  rw [swapPix_apply b row j ch1 ch2 m1 a (by omega),
    swapPix_apply b row j ch1 ch2 m2 a (by omega)]
  have e1 := elem_in_pixel b row j ch1 0 h1.1 h1.2 (le_refl 0) (by omega)
  have e1b := elem_in_pixel b row j ch1 (b.item_size - 1) h1.1 h1.2 (by omega) (by omega)
  have e2 := elem_in_pixel b row j ch2 0 h2.1 h2.2 (le_refl 0) (by omega)
  have e2b := elem_in_pixel b row j ch2 (b.item_size - 1) h2.1 h2.2 (by omega) (by omega)
  split_ifs with c1 c2
  · exact hm _ (by omega)
  · exact hm _ (by omega)
  · exact hm _ ha

/-- The loops of `helpers::SwapChannels`, with the column counter counting
pixels instead of values. -/
theorem helpers_SwapChannels_eq (b : ImageBuffer) (m : Mem) (ch1 ch2 : Int)
    (hb : b.WellFormed) :
    helpers.SwapChannels b.buffer_type b m ch1 ch2
      = forStep 0 (if b.IsContiguous then 1 else b.height) 1 (fun row m =>
          forStep 0 (if b.IsContiguous then b.width * b.height else b.width) 1
            (fun j m => swapAt b.item_size (b.ByteOffset row 0 0) (j * b.channels) ch1 ch2 m)
            m) m := by
  obtain ⟨_, hw, hh, hch, hsz, _⟩ := hb
  unfold helpers.SwapChannels
  simp only [← hsz]
  congr 1
  funext row m
  by_cases hcont : b.IsContiguous = true
  · simp only [hcont, if_true]
    have e : b.width * b.channels * b.height = b.width * b.height * b.channels := by ring
    rw [e]
    exact forStep_scale (b.width * b.height) b.channels (by positivity) hch _ m
  · simp only [hcont]
    exact forStep_scale b.width b.channels hw hch _ m

/-- C11: `SwapChannels(ch1, ch2)` throws `std::invalid_argument` exactly when
`ch1 < 0`, `ch1 ≥ channels`, `ch2 < 0` or `ch2 ≥ channels` (equal indices
included), for every buffer; it throws nothing else, and whenever it throws
the buffer, pixels and geometry, is as it was before the call. -/
theorem SwapChannels_fails_iff (b : ImageBuffer) (ch1 ch2 : Int) :
    ((b.SwapChannelsState ch1 ch2).1 = .error .invalid_argument
      ↔ (ch1 < 0 ∨ ch1 ≥ b.channels ∨ ch2 < 0 ∨ ch2 ≥ b.channels))
    ∧ (∀ e, (b.SwapChannelsState ch1 ch2).1 = .error e →
        e = .invalid_argument ∧ (b.SwapChannelsState ch1 ch2).2 = b)
    ∧ (b.SwapChannels ch1 ch2 = .error .invalid_argument
      ↔ (ch1 < 0 ∨ ch1 ≥ b.channels ∨ ch2 < 0 ∨ ch2 ≥ b.channels))
    ∧ (∀ d, b.SwapChannels ch1 ch2 = .ok d ↔ b.SwapChannelsState ch1 ch2 = (.ok (), d)) := by
  have hbad : (ch1 < 0 ∨ ch1 ≥ b.channels ∨ ch2 < 0 ∨ ch2 ≥ b.channels) →
      b.SwapChannelsState ch1 ch2 = (.error .invalid_argument, b)
      ∧ b.SwapChannels ch1 ch2 = .error .invalid_argument := by
    intro h
    unfold ImageBuffer.SwapChannelsState ImageBuffer.SwapChannels
    rw [if_pos h, if_pos h]
    exact ⟨rfl, rfl⟩
  have hgood : ¬ (ch1 < 0 ∨ ch1 ≥ b.channels ∨ ch2 < 0 ∨ ch2 ≥ b.channels) →
      ∃ d, b.SwapChannelsState ch1 ch2 = (.ok (), d) ∧ b.SwapChannels ch1 ch2 = .ok d := by
    intro h
    unfold ImageBuffer.SwapChannelsState ImageBuffer.SwapChannels
    rw [if_neg h, if_neg h]
    cases b.data with
    | none => exact ⟨b, rfl, rfl⟩
    | some m =>
      by_cases hij : ch1 = ch2
      · simp only [if_pos hij]
        exact ⟨b, rfl, rfl⟩
      · simp only [if_neg hij]
        exact ⟨_, rfl, rfl⟩
  by_cases h : ch1 < 0 ∨ ch1 ≥ b.channels ∨ ch2 < 0 ∨ ch2 ≥ b.channels
  · obtain ⟨h1, h2⟩ := hbad h
    rw [h1, h2]
    refine ⟨⟨fun _ => h, fun _ => rfl⟩, ?_, ⟨fun _ => h, fun _ => rfl⟩, ?_⟩
    · intro e he
      injection he with he
      exact ⟨he.symm, rfl⟩
    · intro d
      constructor
      · intro hd
        injection hd
      · intro hd
        injection hd with h3 h4
        injection h3
  · obtain ⟨d, h1, h2⟩ := hgood h
    rw [h1, h2]
    refine ⟨⟨fun he => ?_, fun hr => absurd hr h⟩, ?_, ⟨fun he => ?_, fun hr => absurd hr h⟩, ?_⟩
    · injection he
    · intro e he
      injection he
    · injection he
    · intro d2
      constructor
      · intro hd
        injection hd with hd
        rw [hd]
      · intro hd
        injection hd with h3 h4
        rw [h4]

theorem SwapChannels_fails_iff_witness :
    (rgb1x2padded.SwapChannelsState 3 3).1 = .error .invalid_argument
    ∧ (rgb1x2padded.SwapChannelsState 3 3).2 = rgb1x2padded
    ∧ rgb1x2padded.SwapChannels 3 3 = .error .invalid_argument :=
  ⟨(SwapChannels_fails_iff rgb1x2padded 3 3).1.mpr (by decide),
    ((SwapChannels_fails_iff rgb1x2padded 3 3).2.1 .invalid_argument
      ((SwapChannels_fails_iff rgb1x2padded 3 3).1.mpr (by decide))).2,
    (SwapChannels_fails_iff rgb1x2padded 3 3).2.2.1.mpr (by decide)⟩

/-! ### Image buffer: copy construction -/

/-- C12: copy construction from an owning buffer whose block is in use, into
a block that `malloc` newly hands out, yields an owning buffer at the new
address, different from the source's, whose first `height * row_stride` bytes
are the source's; the source's block is unchanged, and a later write to either
block leaves the other as it is. Copy construction from a shared buffer yields
a shared buffer with the source's data pointer and allocates nothing. In both
cases width, height, channels and row stride are the source's. -/
theorem copyConstruct_spec (h : Heap) (other : ImageBufferRef) (p q : Nat) :
    (other.owns_data = true → other.data = some q → h.live q = true → h.live p = false →
      ∃ h2 n, ImageBufferRef.copyConstruct h (some p) other = .ok (h2, n)
        ∧ n.owns_data = true ∧ n.data = some p ∧ p ≠ q
        ∧ (∀ k : Int, 0 ≤ k → k < other.height * other.row_stride →
            h2.content p k = h.content q k)
        ∧ h2.content q = h.content q
        ∧ n.width = other.width ∧ n.height = other.height ∧ n.channels = other.channels
        ∧ n.row_stride = other.row_stride
        ∧ (∀ (off : Int) (v : Nat), (h2.store p off v).content q = h2.content q
            ∧ (h2.store q off v).content p = h2.content p))
    ∧ (other.owns_data = false → ∀ fresh,
      ∃ n, ImageBufferRef.copyConstruct h fresh other = .ok (h, n)
        ∧ n.owns_data = false ∧ n.data = other.data
        ∧ n.width = other.width ∧ n.height = other.height ∧ n.channels = other.channels
        ∧ n.row_stride = other.row_stride) := by
  constructor
  · intro hown hdata hq hp
    have hpq : p ≠ q := by
      intro heq
      rw [heq, hq] at hp
      exact Bool.noConfusion hp
    have hqp : q ≠ p := fun heq => hpq heq.symm
    refine ⟨{ content := fun a => if a = p then
                  memcpy (h.content p) (h.content q) other.NumBytes else h.content a,
              live := fun a => if a = p then true else h.live a },
            { other with data := some p }, ?_, hown, rfl, hpq, ?_, ?_, rfl, rfl, rfl, rfl, ?_⟩
    · simp only [ImageBufferRef.copyConstruct, hown, hdata, if_true]
    · intro k hk0 hk1
      simp only [if_true, memcpy, ImageBufferRef.NumBytes]
      rw [if_pos ⟨hk0, hk1⟩]
    · simp only [if_neg hqp]
    · intro off v
      simp only [Heap.store, if_neg hqp, if_neg hpq, and_self]
  · intro hown fresh
    refine ⟨{ other with data := other.data }, ?_, hown, rfl, rfl, rfl, rfl, rfl⟩
    simp [ImageBufferRef.copyConstruct, hown]

theorem copyConstruct_spec_witness :
    (∃ h2 n, ImageBufferRef.copyConstruct heapExample (some 2) ownedRef = .ok (h2, n)
        ∧ n.owns_data = true ∧ n.data = some 2 ∧ (2 : Nat) ≠ 1
        ∧ (∀ k : Int, 0 ≤ k → k < ownedRef.height * ownedRef.row_stride →
            h2.content 2 k = heapExample.content 1 k)
        ∧ h2.content 1 = heapExample.content 1
        ∧ n.width = ownedRef.width ∧ n.height = ownedRef.height
        ∧ n.channels = ownedRef.channels ∧ n.row_stride = ownedRef.row_stride
        ∧ (∀ (off : Int) (v : Nat), (h2.store 2 off v).content 1 = h2.content 1
            ∧ (h2.store 1 off v).content 2 = h2.content 2))
    ∧ (∃ n, ImageBufferRef.copyConstruct heapExample none sharedRef = .ok (heapExample, n)
        ∧ n.owns_data = false ∧ n.data = sharedRef.data
        ∧ n.width = sharedRef.width ∧ n.height = sharedRef.height
        ∧ n.channels = sharedRef.channels ∧ n.row_stride = sharedRef.row_stride) :=
  ⟨(copyConstruct_spec heapExample ownedRef 2 1).1 rfl rfl rfl rfl,
    (copyConstruct_spec heapExample sharedRef 2 1).2 rfl none⟩

/-! ### Colors -/

/-- On finite values every component of `Color(r, g, b, a)` is the input
clamped to `[0, 1]`, `min(max(x, 0), 1)`, and so lies in `[0, 1]`;
`Color(-1, 2, 0.5, 5)` has the components `(0, 1, 0.5, 1)`. -/
theorem Color_init_clamped (r g b a : ℚ) :
    (Color.init r g b a).red = min (max r 0) 1
    ∧ (Color.init r g b a).green = min (max g 0) 1
    ∧ (Color.init r g b a).blue = min (max b 0) 1
    ∧ (Color.init r g b a).alpha = min (max a 0) 1
    ∧ (0 ≤ (Color.init r g b a).red ∧ (Color.init r g b a).red ≤ 1)
    ∧ (0 ≤ (Color.init r g b a).green ∧ (Color.init r g b a).green ≤ 1)
    ∧ (0 ≤ (Color.init r g b a).blue ∧ (Color.init r g b a).blue ≤ 1)
    ∧ (0 ≤ (Color.init r g b a).alpha ∧ (Color.init r g b a).alpha ≤ 1)
    ∧ Color.init (-1) 2 (1 / 2) 5 = { red := 0, green := 1, blue := 1 / 2, alpha := 1 } := by
  have hclamp : ∀ x : ℚ, 0 ≤ min (max x 0) 1 ∧ min (max x 0) 1 ≤ 1 := by
    intro x
    exact ⟨le_min (le_max_right x 0) (by norm_num), min_le_right _ _⟩
  refine ⟨rfl, rfl, rfl, rfl, hclamp r, hclamp g, hclamp b, hclamp a, ?_⟩
  simp only [Color.init, saturation_cast]
  norm_num

/-! ### Line styles -/

/-- C14: a `LineStyle` is valid exactly when its width is positive and its
colour is valid, whatever the validity test of colours is; the sentinel
`LineStyle::Invalid`, of width -1, is not valid. -/
theorem LineStyle_IsValid_iff (colorIsValid : Color → Bool) (s : LineStyle) :
    (s.IsValid colorIsValid = true ↔ (s.width > 0 ∧ colorIsValid s.color = true))
    ∧ ∀ (invalidColor : Color) (dash : List ℚ) (cap : LineCap) (join : LineJoin),
        (LineStyle.Invalid invalidColor dash cap join).IsValid colorIsValid = false := by
  constructor
  · unfold LineStyle.IsValid
    rw [Bool.and_eq_true, decide_eq_true_eq]
  · intro invalidColor dash cap join
    unfold LineStyle.IsValid LineStyle.Invalid
    have h : ¬ ((-1 : ℚ) > 0) := by norm_num
    simp only [decide_eq_false h, Bool.false_and]

/-- C16: `CapOffset()` is 0 for the cap Butt and half the width for the caps
Round and Square. -/
theorem CapOffset_spec (s : LineStyle) :
    (s.cap = .Butt → s.CapOffset = 0)
    ∧ (s.cap = .Round ∨ s.cap = .Square → s.CapOffset = s.width / 2) := by
  unfold LineStyle.CapOffset
  constructor
  · intro h
    rw [h]
  · rintro (h | h) <;> rw [h]

theorem CapOffset_spec_witness :
    (LineStyle.mk 3 (Color.init 0 0 0 1) [] .Butt .Miter).CapOffset = 0
    ∧ (LineStyle.mk 3 (Color.init 0 0 0 1) [] .Round .Miter).CapOffset = 3 / 2
    ∧ (LineStyle.mk 3 (Color.init 0 0 0 1) [] .Square .Miter).CapOffset = 3 / 2 :=
  ⟨(CapOffset_spec (LineStyle.mk 3 (Color.init 0 0 0 1) [] .Butt .Miter)).1 rfl,
    (CapOffset_spec (LineStyle.mk 3 (Color.init 0 0 0 1) [] .Round .Miter)).2 (Or.inl rfl),
    (CapOffset_spec (LineStyle.mk 3 (Color.init 0 0 0 1) [] .Square .Miter)).2 (Or.inr rfl)⟩

/-! ### Line style equality -/

theorem Color_eq_iff (a b : Color) : Color.eq a b = true ↔ a = b := by
  unfold Color.eq
  simp only [Bool.and_eq_true, decide_eq_true_eq]
  constructor
  · rintro ⟨⟨⟨h1, h2⟩, h3⟩, h4⟩
    cases a
    cases b
    simp only [Color.mk.injEq]
    exact ⟨h1, h2, h3, h4⟩
  · intro h
    subst h
    exact ⟨⟨⟨rfl, rfl⟩, rfl⟩, rfl⟩

theorem wgu_eps_equal_refl (x : ℚ) : wgu.eps_equal x x = true := by
  unfold wgu.eps_equal
  rw [Bool.or_eq_true]
  left
  rw [decide_eq_true_eq, sub_self, abs_zero]
  positivity

/-- C17, counterexample: for a Miter line of width 2, the join offset differs
from the formula with `m = w / sin(t/2)` both for a half-angle sine of
`10^-7` with miter limit `5 * 10^6` (the code gives `10^6`, the formula 1) and
for a half-angle sine of -1 with miter limit 10 (the code gives 1, the
formula -1). -/
theorem JoinOffset_differs_from_spec :
    (LineStyle.mk 2 (Color.init 0 0 0 1) [] .Butt .Miter).JoinOffset (1 / 10000000) 5000000
      = 1000000
    ∧ (LineStyle.mk 2 (Color.init 0 0 0 1) [] .Butt .Miter).JoinOffsetSpec (1 / 10000000)
        5000000 = 1
    ∧ (LineStyle.mk 2 (Color.init 0 0 0 1) [] .Butt .Miter).JoinOffset (-1) 10 = 1
    ∧ (LineStyle.mk 2 (Color.init 0 0 0 1) [] .Butt .Miter).JoinOffsetSpec (-1) 10 = -1 := by
  have hm1 : max ((1 : ℚ) / 1000000) (1 / 10000000) = 1 / 1000000 :=
    max_eq_left (by norm_num)
  have hm2 : max ((1 : ℚ) / 1000000) (-1) = 1 / 1000000 := max_eq_left (by norm_num)
  have hj1 : ¬ (LineJoin.Miter = LineJoin.Round) := by decide
  have hj2 : ¬ (LineJoin.Miter = LineJoin.Bevel) := by decide
  refine ⟨?_, ?_, ?_, ?_⟩
  · simp only [LineStyle.JoinOffset, hm1]
    rw [if_neg]
    · norm_num
    · rintro (h | h | h)
      · norm_num at h
      · exact hj1 h
      · exact hj2 h
  · simp only [LineStyle.JoinOffsetSpec]
    rw [if_pos]
    · norm_num
    · left
      norm_num
  · simp only [LineStyle.JoinOffset, hm2]
    rw [if_pos]
    · norm_num
    · left
      norm_num
  · simp only [LineStyle.JoinOffsetSpec]
    rw [if_neg]
    · norm_num
    · rintro (h | h | h)
      · norm_num at h
      · exact hj1 h
      · exact hj2 h

/-- C17, amended: with `m = w / max(10^-6, sin(t/2))`, `JoinOffset` is `w / 2`
when `m / w` exceeds the miter limit or the join is Round or Bevel, and
`m / 2` otherwise; when `sin(t/2)` is at least `10^-6` this is the value of
the formula with `m = w / sin(t/2)`. -/
theorem JoinOffset_spec (s : LineStyle) (sin_half miter_limit : ℚ) :
    (s.width / max (1 / 1000000) sin_half / s.width > miter_limit
        ∨ s.join = .Round ∨ s.join = .Bevel →
      s.JoinOffset sin_half miter_limit = s.width / 2)
    ∧ (¬ (s.width / max (1 / 1000000) sin_half / s.width > miter_limit
        ∨ s.join = .Round ∨ s.join = .Bevel) →
      s.JoinOffset sin_half miter_limit = s.width / max (1 / 1000000) sin_half / 2)
    ∧ (1 / 1000000 ≤ sin_half →
      s.JoinOffset sin_half miter_limit = s.JoinOffsetSpec sin_half miter_limit) := by
  refine ⟨fun h => ?_, fun h => ?_, fun h => ?_⟩
  · simp only [LineStyle.JoinOffset]
    rw [if_pos h]
  · simp only [LineStyle.JoinOffset]
    rw [if_neg h]
  · simp only [LineStyle.JoinOffset, LineStyle.JoinOffsetSpec, max_eq_right h]

theorem JoinOffset_spec_witness :
    (LineStyle.mk 2 (Color.init 0 0 0 1) [] .Butt .Miter).JoinOffset 1 10 = 1
    ∧ (LineStyle.mk 2 (Color.init 0 0 0 1) [] .Butt .Round).JoinOffset (1 / 2) 10 = 1
    ∧ (LineStyle.mk 2 (Color.init 0 0 0 1) [] .Butt .Miter).JoinOffset (1 / 2) 10
        = (LineStyle.mk 2 (Color.init 0 0 0 1) [] .Butt .Miter).JoinOffsetSpec (1 / 2) 10 := by
  have hm : max ((1 : ℚ) / 1000000) 1 = 1 := max_eq_right (by norm_num)
  refine ⟨?_, ?_, ?_⟩
  · have h := (JoinOffset_spec (LineStyle.mk 2 (Color.init 0 0 0 1) [] .Butt .Miter) 1 10).2.1
      (by
        rw [hm]
        rintro (h | h | h)
        · norm_num at h
        · exact absurd h (by decide)
        · exact absurd h (by decide))
    rw [h, hm]
    norm_num
  · have h := (JoinOffset_spec (LineStyle.mk 2 (Color.init 0 0 0 1) [] .Butt .Round)
      (1 / 2) 10).1 (Or.inr (Or.inl rfl))
    rw [h]
    norm_num
  · exact (JoinOffset_spec (LineStyle.mk 2 (Color.init 0 0 0 1) [] .Butt .Miter)
      (1 / 2) 10).2.2 (by norm_num)

/-! ### Arrow tips -/

/-- C18: `TipLengthForShaft(d)` is `tip_length` when `tip_length > 1` and
`tip_length * d` when `tip_length ≤ 1`; the overload for two points equals
`TipLengthForShaft` of their distance; a tip length of 0.5 on a shaft of 100
gives 50, a tip length of 30 gives 30 on every shaft. -/
theorem TipLengthForShaft_spec (sqrt : ℚ → ℚ) (a : ArrowStyle) (d : ℚ)
    (pt_from pt_to : Vec2d) :
    (a.tip_length > 1 → a.TipLengthForShaft d = a.tip_length)
    ∧ (a.tip_length ≤ 1 → a.TipLengthForShaft d = a.tip_length * d)
    ∧ a.TipLengthForShaftBetween sqrt pt_from pt_to
        = a.TipLengthForShaft (pt_from.Distance sqrt pt_to)
    ∧ (a.tip_length = 1 / 2 → a.TipLengthForShaft 100 = 50)
    ∧ (a.tip_length = 30 → a.TipLengthForShaft d = 30) := by
  unfold ArrowStyle.TipLengthForShaftBetween ArrowStyle.TipLengthForShaft
  refine ⟨fun h => ?_, fun h => ?_, ?_, fun h => ?_, fun h => ?_⟩
  · rw [if_pos h]
  · rw [if_neg (not_lt.mpr h)]
  · by_cases h : a.tip_length > 1
    · rw [if_pos h, if_pos h]
    · rw [if_neg h]
  · rw [h, if_neg (by norm_num)]
    norm_num
  · rw [h, if_pos (by norm_num)]

theorem TipLengthForShaft_spec_witness :
    (ArrowStyle.mk (LineStyle.mk 2 (Color.init 0 0 0 1) [] .Butt .Miter) (1 / 2) 20 false
        false).TipLengthForShaft 100 = 50
    ∧ (ArrowStyle.mk (LineStyle.mk 2 (Color.init 0 0 0 1) [] .Butt .Miter) 30 20 false
        false).TipLengthForShaft 7 = 30
    ∧ (ArrowStyle.mk (LineStyle.mk 2 (Color.init 0 0 0 1) [] .Butt .Miter) (1 / 2) 20 false
        false).TipLengthForShaft 100
      = (1 / 2 : ℚ) * 100 :=
  ⟨(TipLengthForShaft_spec (fun x => x)
      (ArrowStyle.mk (LineStyle.mk 2 (Color.init 0 0 0 1) [] .Butt .Miter) (1 / 2) 20 false
        false) 100 ⟨0, 0⟩ ⟨3, 4⟩).2.2.2.1 rfl,
    (TipLengthForShaft_spec (fun x => x)
      (ArrowStyle.mk (LineStyle.mk 2 (Color.init 0 0 0 1) [] .Butt .Miter) 30 20 false
        false) 7 ⟨0, 0⟩ ⟨3, 4⟩).2.2.2.2 rfl,
    (TipLengthForShaft_spec (fun x => x)
      (ArrowStyle.mk (LineStyle.mk 2 (Color.init 0 0 0 1) [] .Butt .Miter) (1 / 2) 20 false
        false) 100 ⟨0, 0⟩ ⟨3, 4⟩).2.1 (by norm_num)⟩

/-! ### Color gradients -/

/-- C19: `AddColorStop(o, c)` with `o < 0` or `o > 1` returns `false` and
leaves the gradient as it is; otherwise it returns `true` and the stop list is
the old one followed by the one stop `(o, c)`. -/
theorem AddColorStop_spec (g : ColorGradient) (o : ℚ) (c : Color) :
    (o < 0 ∨ o > 1 → g.AddColorStop o c = (false, g))
    ∧ (¬ (o < 0 ∨ o > 1) →
      (g.AddColorStop o c).1 = true
      ∧ (g.AddColorStop o c).2.color_stops = g.color_stops ++ [(o, c)]
      ∧ (g.AddColorStop o c).2.color_stops.length = g.color_stops.length + 1
      ∧ ∀ i, i < g.color_stops.length →
          (g.AddColorStop o c).2.color_stops.get? i = g.color_stops.get? i) := by
  unfold ColorGradient.AddColorStop
  constructor
  · intro h
    rw [if_pos h]
  · intro h
    rw [if_neg h]
    refine ⟨rfl, rfl, by simp, ?_⟩
    intro i hi
    simp only [List.get?_eq_getElem?]
    exact List.getElem?_append_left hi

theorem AddColorStop_spec_witness :
    ColorGradient.empty.AddColorStop 2 (Color.init 1 0 0 1) = (false, ColorGradient.empty)
    ∧ (ColorGradient.empty.AddColorStop (1 / 2) (Color.init 1 0 0 1)).1 = true
    ∧ (ColorGradient.empty.AddColorStop (1 / 2) (Color.init 1 0 0 1)).2.color_stops
        = ColorGradient.empty.color_stops ++ [(1 / 2, Color.init 1 0 0 1)] :=
  ⟨(AddColorStop_spec ColorGradient.empty 2 (Color.init 1 0 0 1)).1 (Or.inr (by norm_num)),
    ((AddColorStop_spec ColorGradient.empty (1 / 2) (Color.init 1 0 0 1)).2
      (by norm_num)).1,
    ((AddColorStop_spec ColorGradient.empty (1 / 2) (Color.init 1 0 0 1)).2
      (by norm_num)).2.1⟩

/-- C21, counterexample: the empty list, whose length 0 differs from the
dimension 2, does not fail: it gives the zero vector. -/
theorem Vec_ofList_empty_succeeds :
    ([] : List ℚ).length ≠ 2
    ∧ ∃ v, Vec.ofList 2 [] = .ok v ∧ ∀ i, v.val i = 0 :=
  ⟨by decide, ⟨_, rfl, fun _ => rfl⟩⟩

/-- C21, amended: for every dimension, constructing a vector from a list that
is neither empty nor of `dim` entries throws `std::invalid_argument`; the
empty list gives the zero vector; a non-empty list of `dim` entries gives the
vector whose `i`-th component is the `i`-th entry of the list. -/
theorem Vec_ofList_spec (dim : Nat) (values : List ℚ) :
    (values.length ≠ 0 ∧ values.length ≠ dim →
      Vec.ofList dim values = .error .invalid_argument)
    ∧ (values.length = 0 → ∃ v, Vec.ofList dim values = .ok v ∧ ∀ i, v.val i = 0)
    ∧ (values.length = dim →
        ∃ v, Vec.ofList dim values = .ok v ∧ ∀ i : Fin dim, values[i.val]? = some (v.val i)) := by
  refine ⟨?_, ?_, ?_⟩
  · intro h
    unfold Vec.ofList
    rw [if_pos h]
  · intro h
    refine ⟨{ val := fun _ => 0 }, ?_, fun _ => rfl⟩
    unfold Vec.ofList
    rw [if_neg (by omega), if_pos h]
  · intro h
    by_cases h0 : values.length = 0
    · refine ⟨{ val := fun _ => 0 }, ?_, ?_⟩
      · unfold Vec.ofList
        rw [if_neg (by omega), if_pos h0]
      · intro i
        exact absurd i.isLt (by omega)
    · refine ⟨{ val := fun i => values.getD i.val 0 }, ?_, ?_⟩
      · unfold Vec.ofList
        rw [if_neg (by omega), if_neg h0]
      · intro i
        have hi : i.val < values.length := by omega
        simp only [List.getD_eq_getElem?_getD, List.getElem?_eq_getElem hi, Option.getD_some]

theorem Vec_ofList_spec_witness :
    ([1, 2, 3] : List ℚ).length = 3
    ∧ ∃ v, Vec.ofList 3 [1, 2, 3] = .ok v
      ∧ ∀ i : Fin 3, ([1, 2, 3] : List ℚ)[i.val]? = some (v.val i) :=
  ⟨rfl, (Vec_ofList_spec 3 [1, 2, 3]).2.2 rfl⟩

/-- C22: `v[i]` is component `i` for `0 <= i < dim`, component `i + dim` for
`-dim <= i < 0`, and throws `std::out_of_range` for `i < -dim` or `i >= dim`;
so `z()` fails on 2-D vectors and `w()` fails on 2-D and 3-D vectors, while
`z()` of a 3-D vector is its component 2. -/
theorem Vec_index_spec (dim : Nat) (v : Vec dim) (i : Int) :
    (∀ (h0 : 0 ≤ i) (h1 : i < dim), v.index i = .ok (v.val ⟨i.toNat, by omega⟩))
    ∧ (∀ (h0 : -(dim : Int) ≤ i) (h1 : i < 0),
        v.index i = .ok (v.val ⟨(i + dim).toNat, by omega⟩))
    ∧ (i < -(dim : Int) ∨ i ≥ dim → v.index i = .error .out_of_range)
    ∧ (∀ u : Vec 2, u.z = .error .out_of_range ∧ u.w = .error .out_of_range)
    ∧ (∀ u : Vec 3, u.w = .error .out_of_range ∧ u.z = .ok (u.val 2)) := by
  refine ⟨?_, ?_, ?_, ?_, ?_⟩
  · intro h0 h1
    unfold Vec.index
    have hi : ¬ i < 0 := by omega
    have hc : ¬ (i < 0 ∨ i ≥ (dim : Int)) := by omega
    simp only [if_neg hi]
    rw [dif_neg hc]
  · intro h0 h1
    unfold Vec.index
    have hc : ¬ (i + (dim : Int) < 0 ∨ i + (dim : Int) ≥ (dim : Int)) := by omega
    simp only [if_pos h1]
    rw [dif_neg hc]
  · intro h
    unfold Vec.index
    by_cases hi : i < 0
    · have hc : i + (dim : Int) < 0 ∨ i + (dim : Int) ≥ (dim : Int) := by omega
      simp only [if_pos hi]
      rw [dif_pos hc]
    · have hc : i < 0 ∨ i ≥ (dim : Int) := by omega
      simp only [if_neg hi]
      rw [dif_pos hc]
  · intro u
    exact ⟨rfl, rfl⟩
  · intro u
    exact ⟨rfl, rfl⟩

theorem Vec_index_spec_witness :
    (Vec.mk (fun i : Fin 3 => (i.val : ℚ) + 10)).index (-1) = .ok 12
    ∧ (Vec.mk (fun i : Fin 3 => (i.val : ℚ) + 10)).index 3 = .error .out_of_range :=
  ⟨((Vec_index_spec 3 (Vec.mk (fun i : Fin 3 => (i.val : ℚ) + 10)) (-1)).2.1
      (by decide) (by decide)).trans (by norm_num [Int.toNat]),
    (Vec_index_spec 3 (Vec.mk (fun i : Fin 3 => (i.val : ℚ) + 10)) 3).2.2.1 (by decide)⟩

/-- The loop of `Vec::Dot` computes the sum of the products of the components. -/
theorem Vec_Dot_eq_sum {dim : Nat} (a b : Vec dim) :
    a.Dot b = ∑ i, a.val i * b.val i := by
  have h : ∀ (l : List (Fin dim)) (s : ℚ),
      l.foldl (fun s i => s + a.val i * b.val i) s
        = s + (l.map (fun i => a.val i * b.val i)).sum := by
    intro l
    induction l with
    | nil => intro s; simp
    | cons x l ih =>
      intro s
      rw [List.foldl_cons, ih, List.map_cons, List.sum_cons]
      ring
  unfold Vec.Dot
  rw [h, zero_add, Fin.sum_univ_def]

/-- The 2-D unit vector agrees with `UnitVector` of the general vector. -/
theorem Vec2d_UnitVector_toVec (sqrt : ℚ → ℚ) (d : Vec2d) :
    (d.UnitVector sqrt).toVec = d.toVec.UnitVector sqrt := by
  have hL : d.toVec.LengthSquared = d.LengthSquared := by
    unfold Vec.LengthSquared Vec2d.LengthSquared Vec2d.Dot
    rw [Vec_Dot_eq_sum, Fin.sum_univ_two]
    simp [Vec2d.toVec]
  have hlen : d.toVec.Length sqrt = d.Length sqrt := by
    unfold Vec.Length Vec2d.Length
    rw [hL]
  unfold Vec2d.UnitVector Vec.UnitVector
  rw [hlen]
  by_cases h : d.Length sqrt > 0
  · rw [if_pos h, if_pos h]
    unfold Vec2d.toVec Vec.div Vec2d.div
    congr 1
    funext i
    by_cases hi : i.val = 0
    · simp only [hi, if_true]
    · simp only [hi, if_false]
  · rw [if_neg h, if_neg h]

/-- C26, counterexample: an ellipse with axes 2 and 1 whose angles 1 and
`1 + 2^-52` differ is not valid, the tolerant comparison takes the two angles
as equal. -/
theorem Ellipse_IsValid_tolerant :
    ((2 : ℚ) > 0 ∧ (1 : ℚ) > 0 ∧ (2 : ℚ) ≥ 1 ∧ (1 : ℚ) ≠ 1 + 1 / 2 ^ 52)
    ∧ Ellipse.IsValid wgu.eps_equal
        { cx := 0, cy := 0, major_axis := 2, minor_axis := 1, rotation := 0,
          angle_from := 1, angle_to := 1 + 1 / 2 ^ 52, include_center := true } = false := by
  constructor
  · norm_num
  · have h : wgu.eps_equal 1 (1 + 1 / 2 ^ 52) = true := by
      unfold wgu.eps_equal
      rw [Bool.or_eq_true]
      left
      rw [decide_eq_true_eq, abs_of_nonpos (by norm_num), abs_of_nonneg (by norm_num)]
      norm_num
    unfold Ellipse.IsValid
    simp only [h, Bool.not_true, Bool.and_false]

/-- C26, amended: an ellipse is valid exactly when `major_axis > 0`,
`minor_axis > 0`, `major_axis >= minor_axis` and the comparison `eps_equal`
does not take `angle_from` and `angle_to` as equal; center, rotation and
`include_center` do not matter. -/
theorem Ellipse_IsValid_iff (epsEq : ℚ → ℚ → Bool) (e : Ellipse) :
    (e.IsValid epsEq = true ↔
      (e.major_axis > 0 ∧ e.minor_axis > 0 ∧ e.major_axis ≥ e.minor_axis
        ∧ epsEq e.angle_from e.angle_to = false))
    ∧ (∀ (cx cy rotation : ℚ) (include_center : Bool),
        Ellipse.IsValid epsEq { e with cx := cx, cy := cy, rotation := rotation,
                                       include_center := include_center }
          = e.IsValid epsEq) := by
  constructor
  · unfold Ellipse.IsValid
    rw [Bool.and_eq_true, Bool.and_eq_true, Bool.and_eq_true, decide_eq_true_eq,
      decide_eq_true_eq, decide_eq_true_eq, Bool.not_eq_true']
    tauto
  · intro cx cy rotation include_center
    rfl

/-- C27 (defect of the code): a list of fewer than 4 or more than 6 values
throws `std::invalid_argument` and a list of 6 values gives the rectangle of
the positional constructor, but for 5 values the radius and for 4 values the
rotation and the radius are whatever the storage of the object held before,
not the 0 of the positional constructors: with 7 and 9 there,
`Rect{1, 2, 3, 4}` has rotation 7 and radius 9. -/
theorem Rect_ofList_indeterminate :
    (∀ (ir ic : ℚ) (values : List ℚ),
      (values.length < 4 ∨ values.length > 6 →
        Rect.ofList ir ic values = .error .invalid_argument)
      ∧ (∀ a b c d e f : ℚ,
          Rect.ofList ir ic [a, b, c, d, e, f] = .ok (Rect.init6 a b c d e f))
      ∧ (∀ a b c d e : ℚ,
          Rect.ofList ir ic [a, b, c, d, e] = .ok { Rect.init5 a b c d e with radius := ic })
      ∧ (∀ a b c d : ℚ,
          Rect.ofList ir ic [a, b, c, d]
            = .ok { Rect.init4 a b c d with rotation := ir, radius := ic }))
    ∧ Rect.ofList 7 9 [1, 2, 3, 4]
        = .ok { cx := 1, cy := 2, width := 3, height := 4, rotation := 7, radius := 9 }
    ∧ Rect.ofList 7 9 [1, 2, 3, 4] ≠ .ok (Rect.init4 1 2 3 4) := by
  refine ⟨?_, rfl, ?_⟩
  · intro ir ic values
    refine ⟨?_, fun _ _ _ _ _ _ => rfl, fun _ _ _ _ _ => rfl, fun _ _ _ _ => rfl⟩
    intro h
    unfold Rect.ofList
    rw [if_pos h]
  · intro h
    have h2 : ({ cx := 1, cy := 2, width := 3, height := 4, rotation := 7, radius := 9 } : Rect)
        = Rect.init4 1 2 3 4 := Except.ok.inj h
    have h3 := congrArg Rect.rotation h2
    simp only [Rect.init4] at h3
    norm_num at h3

/-- A string that ends in `.png` ends neither in `.jpg` nor in `.jpeg`. -/
theorem EndsWith_png (s : String) (h : strings.EndsWith s ".png" = true) :
    strings.EndsWith s ".jpg" = false ∧ strings.EndsWith s ".jpeg" = false := by
  unfold strings.EndsWith at h ⊢
  rw [Bool.and_eq_true] at h
  have hp : ['.', 'p', 'n', 'g'] <:+ s.toList := by
    have := h.2
    rwa [List.isSuffixOf_iff_suffix] at this
  constructor
  · rw [Bool.and_eq_false_iff]
    right
    rw [← Bool.not_eq_true, List.isSuffixOf_iff_suffix]
    intro hj
    have hj2 : ['.', 'j', 'p', 'g'] <:+ s.toList := hj
    rcases List.suffix_or_suffix_of_suffix hp hj2 with h1 | h1
    · exact absurd (h1.eq_of_length rfl) (by decide)
    · exact absurd (h1.eq_of_length rfl) (by decide)
  · rw [Bool.and_eq_false_iff]
    right
    rw [← Bool.not_eq_true, List.isSuffixOf_iff_suffix]
    intro hj
    have hj2 : ['.', 'j', 'p', 'e', 'g'] <:+ s.toList := hj
    rcases List.suffix_or_suffix_of_suffix hp hj2 with h1 | h1
    · have : ¬ (['.', 'p', 'n', 'g'] <:+ ['.', 'j', 'p', 'e', 'g']) := by decide
      exact this h1
    · have := h1.length_le
      simp at this

/-- C28: `SaveImage` checks its input before it encodes, for every filename,
every suffix test and every outcome of the encoders: a buffer that is not
`uint8` throws `std::logic_error`; a `uint8` buffer whose lower-cased filename
ends in `.jpg` or `.jpeg` throws `std::logic_error` when its rows are not
contiguous; a `uint8` buffer whose filename ends in none of `.jpg`, `.jpeg`,
`.png` throws `std::invalid_argument`; and a `uint8` buffer with a `.png`
filename reaches the encoder whatever its row stride is, the call then fails
only when the encoder reports 0. A name that ends in `.png` ends in neither
`.jpg` nor `.jpeg`. -/
theorem SaveImage_validation (Lower : String → String) (EndsWith : String → String → Bool)
    (jpg_result png_result : Int) (filename : String) (image : ImageBuffer) :
    (image.buffer_type ≠ .UInt8 →
      SaveImage Lower EndsWith jpg_result png_result filename image = .error .logic_error)
    ∧ (image.buffer_type = .UInt8 →
        (EndsWith (Lower filename) ".jpg" = true ∨ EndsWith (Lower filename) ".jpeg" = true) →
        image.IsContiguous = false →
        SaveImage Lower EndsWith jpg_result png_result filename image = .error .logic_error)
    ∧ (image.buffer_type = .UInt8 →
        EndsWith (Lower filename) ".jpg" = false → EndsWith (Lower filename) ".jpeg" = false →
        EndsWith (Lower filename) ".png" = false →
        SaveImage Lower EndsWith jpg_result png_result filename image
          = .error .invalid_argument)
    ∧ (image.buffer_type = .UInt8 →
        EndsWith (Lower filename) ".jpg" = false → EndsWith (Lower filename) ".jpeg" = false →
        EndsWith (Lower filename) ".png" = true →
        ∀ row_stride : Int,
          SaveImage Lower EndsWith jpg_result png_result filename
              { image with row_stride := row_stride }
            = if png_result = 0 then .error .runtime_error else .ok ())
    ∧ (∀ s : String, strings.EndsWith s ".png" = true →
        strings.EndsWith s ".jpg" = false ∧ strings.EndsWith s ".jpeg" = false) := by
  refine ⟨?_, ?_, ?_, ?_, EndsWith_png⟩
  · intro h
    unfold SaveImage
    rw [if_pos h]
  · intro ht hj hc
    unfold SaveImage
    have hor : (EndsWith (Lower filename) ".jpg" || EndsWith (Lower filename) ".jpeg") = true := by
      rw [Bool.or_eq_true]
      exact hj
    simp only [ht, ne_eq, not_true_eq_false, if_false, hor, if_true, hc, Bool.not_false]
  · intro ht h1 h2 h3
    unfold SaveImage
    simp only [ht, ne_eq, not_true_eq_false, if_false, h1, h2, h3, Bool.or_self,
      Bool.false_eq_true]
  · intro ht h1 h2 h3 row_stride
    unfold SaveImage
    simp only [ht, ne_eq, not_true_eq_false, if_false, h1, h2, h3, Bool.or_self,
      Bool.false_eq_true, if_true]

theorem SaveImage_validation_witness :
    SaveImage strings.Lower strings.EndsWith 1 1 "Out.PNG" { rgb1x2padded with row_stride := 4 }
      = .ok ()
    ∧ SaveImage strings.Lower strings.EndsWith 1 1 "out.JPG" rgb1x2padded
      = .error .logic_error
    ∧ SaveImage strings.Lower strings.EndsWith 1 1 "out.bmp" rgb1x2padded
      = .error .invalid_argument :=
  ⟨((SaveImage_validation strings.Lower strings.EndsWith 1 1 "Out.PNG" rgb1x2padded).2.2.2.1
      (by decide) (by decide) (by decide) (by decide) 4).trans (if_neg (by decide)),
    (SaveImage_validation strings.Lower strings.EndsWith 1 1 "out.JPG" rgb1x2padded).2.1
      (by decide) (by decide) (by decide),
    (SaveImage_validation strings.Lower strings.EndsWith 1 1 "out.bmp" rgb1x2padded).2.2.1
      (by decide) (by decide) (by decide) (by decide)⟩

/-! ### The earlier image buffer: conversion to RGB and RGBA -/

/-- C29 (defect of the code): `ToRGB` of the shared RGB buffer `sharedRef` and
`ToRGBA` of the shared RGBA buffer `sharedRgbaRef` do not return a copy: the
result does not own its memory and has the data pointer of the source, so a
later write of 99 to the first byte of the source shows in the result. For
the owning RGB buffer `ownedRef`, `ToRGB` returns an owning buffer at the new
address. -/
theorem ToRGB_shared_aliases :
    (∃ h r, primitives.ToRGB heapExample (some 2) sharedRef = .ok (h, r)
      ∧ r.owns_data = false ∧ r.data = sharedRef.data
      ∧ (r.view h).data.map (fun m => m 0) = some 1
      ∧ (r.view (h.store 1 0 99)).data.map (fun m => m 0) = some 99)
    ∧ (∃ h r, primitives.ToRGBA heapExample (some 2) sharedRgbaRef = .ok (h, r)
      ∧ r.owns_data = false ∧ r.data = sharedRgbaRef.data
      ∧ (r.view h).data.map (fun m => m 0) = some 1
      ∧ (r.view (h.store 1 0 99)).data.map (fun m => m 0) = some 99)
    ∧ (∃ h r, primitives.ToRGB heapExample (some 2) ownedRef = .ok (h, r)
      ∧ r.owns_data = true ∧ r.data = some 2
      ∧ (r.view h).data.map (fun m => m 0) = some 1
      ∧ (r.view (h.store 1 0 99)).data.map (fun m => m 0) = some 1) :=
  ⟨⟨_, _, rfl, rfl, rfl, rfl, rfl⟩, ⟨_, _, rfl, rfl, rfl, rfl, rfl⟩,
    ⟨_, _, rfl, rfl, rfl, rfl, rfl⟩⟩

/-! ### Text layout -/

/-- The loop of the constructor of `MultilineText` from a line with a positive
index on: the lines are appended, the width is the running maximum and every
height is scaled by the line spacing. -/
theorem MultilineText_init_loop (ls : ℚ) (l : List TextLine) (k : Nat) (hk : 0 < k)
    (m : MultilineText) :
    (l.enumFrom k).foldl
      (fun (m : MultilineText) (p : Nat × TextLine) =>
        { m with
          lines := m.lines ++ [p.2],
          width := max m.width p.2.width,
          height := m.height + p.2.height * (if p.1 > 0 then ls else 1) }) m
    = { m with
        lines := m.lines ++ l,
        width := l.foldl (fun w x => max w x.width) m.width,
        height := m.height + ls * (l.map TextLine.height).sum } := by
  induction l generalizing k m with
  | nil => simp
  | cons x l ih =>
    rw [List.enumFrom_cons, List.foldl_cons, ih (k + 1) (by omega)]
    have hk2 : k > 0 := hk
    simp only [hk2, if_true, List.append_assoc, List.singleton_append, List.foldl_cons,
      List.map_cons, List.sum_cons]
    congr 1
    ring

/-- The running maximum of the widths is an upper bound of its start value and
of every width, and it is the start value or one of the widths. -/
theorem foldl_max_width (l : List TextLine) (w0 : ℚ) :
    w0 ≤ l.foldl (fun w x => max w x.width) w0
    ∧ (∀ x ∈ l, x.width ≤ l.foldl (fun w x => max w x.width) w0)
    ∧ (l.foldl (fun w x => max w x.width) w0 = w0
        ∨ ∃ x ∈ l, x.width = l.foldl (fun w x => max w x.width) w0) := by
  induction l generalizing w0 with
  | nil => simp
  | cons a l ih =>
    rw [List.foldl_cons]
    obtain ⟨h1, h2, h3⟩ := ih (max w0 a.width)
    refine ⟨le_trans (le_max_left _ _) h1, ?_, ?_⟩
    · intro x hx
      rcases List.mem_cons.mp hx with rfl | hx
      · exact le_trans (le_max_right _ _) h1
      · exact h2 x hx
    · rcases h3 with h | ⟨x, hx, hxe⟩
      · rcases max_choice w0 a.width with hm | hm
        · left
          rw [h, hm]
        · right
          exact ⟨a, List.mem_cons_self _ _, by rw [h, hm]⟩
      · right
        exact ⟨x, List.mem_cons_of_mem _ hx, hxe⟩

/-- The block that the constructor of `MultilineText` builds. -/
theorem MultilineText_init_eq (measured : List TextLine) (style : TextStyle) :
    MultilineText.init measured style
      = { top_left := { x := 0, y := 0 },
          width := measured.foldl (fun w x => max w x.width) 0,
          height := match measured with
            | [] => 0
            | l0 :: rest => l0.height + style.line_spacing * (rest.map TextLine.height).sum,
          style := style,
          lines := measured } := by
  unfold MultilineText.init
  cases measured with
  | nil => rfl
  | cons l0 rest =>
    rw [List.enum, List.enumFrom_cons, List.foldl_cons,
      MultilineText_init_loop style.line_spacing rest (0 + 1) (by omega)]
    simp

/-- C30: the block built from the measured lines has as width the maximum of 0
and the widths of the lines (0 for no lines; for widths that are not negative,
as measured widths are, the largest width of a line) and as height
`h_0 + line_spacing * (h_1 + ... + h_{n-1})`: the first line unscaled, every
later line scaled by `line_spacing`. -/
theorem MultilineText_init_size (measured : List TextLine) (style : TextStyle) :
    (MultilineText.init measured style).width
        = measured.foldl (fun w x => max w x.width) 0
    ∧ (∀ l ∈ measured, l.width ≤ (MultilineText.init measured style).width)
    ∧ (measured = [] → (MultilineText.init measured style).width = 0)
    ∧ (measured ≠ [] → (∀ l ∈ measured, 0 ≤ l.width) →
        ∃ l ∈ measured, l.width = (MultilineText.init measured style).width)
    ∧ (MultilineText.init measured style).height
        = (match measured with
          | [] => 0
          | l0 :: rest => l0.height + style.line_spacing * (rest.map TextLine.height).sum)
    ∧ (MultilineText.init measured style).lines = measured := by
  rw [MultilineText_init_eq]
  obtain ⟨h1, h2, h3⟩ := foldl_max_width measured 0
  refine ⟨rfl, h2, ?_, ?_, rfl, rfl⟩
  · intro h
    subst h
    rfl
  · intro hne hnn
    rcases h3 with h | h
    · obtain ⟨a, ha⟩ := List.exists_mem_of_ne_nil measured hne
      refine ⟨a, ha, ?_⟩
      show a.width = measured.foldl (fun w x => max w x.width) 0
      have := h2 a ha
      have := hnn a ha
      rw [h] at *
      linarith
    · exact h

theorem MultilineText_init_size_witness :
    (MultilineText.init
      [{ text := "a", reference_point := ⟨0, 0⟩, width := 30, height := 10,
         bearing_x := 0, bearing_y := 0 },
       { text := "b", reference_point := ⟨0, 0⟩, width := 50, height := 12,
         bearing_x := 0, bearing_y := 0 }]
      { size := 16, family := "monospace", color := Color.init 0 0 0 1, bold := false,
        italic := false, line_spacing := 3 / 2, alignment := .Left }).height
      = 10 + 3 / 2 * (12 + 0) :=
  (MultilineText_init_size _ _).2.2.2.2.1.trans (by simp)

/-- The top-left corner, the size and the style of a block after
`MultilineText::Align`. -/
theorem MultilineText_Align_frame (m : MultilineText) (p : Vec2d) (anchor : TextAnchor)
    (padding : Vec2d) :
    (m.Align p anchor padding).top_left
      = { x := if anchor.horizontal = .Center then p.x - m.width / 2
               else if anchor.horizontal = .Right then p.x - padding.x - m.width
               else p.x + padding.x,
          y := if anchor.vertical = .Center then p.y - m.height / 2
               else if anchor.vertical = .Top then p.y + padding.y
               else p.y - padding.y - m.height }
    ∧ (m.Align p anchor padding).width = m.width
    ∧ (m.Align p anchor padding).height = m.height
    ∧ (m.Align p anchor padding).style = m.style := by
  refine ⟨?_, rfl, rfl, rfl⟩
  simp only [MultilineText.Align, IsFlagSetH, IsFlagSetV, decide_eq_true_eq]

/-- C31: after `MultilineText::Align` the top-left x of the block is
`p.x - W/2` for a horizontally centered anchor, `p.x - px - W` for a right
anchor and `p.x + px` for a left anchor; the top-left y is `p.y - H/2` for a
vertically centered anchor, `p.y + py` for a top anchor and `p.y - py - H` for
a bottom anchor; the size is unchanged and the placement is the same for
every line alignment of the style. -/
theorem MultilineText_Align_top_left (m : MultilineText) (p : Vec2d) (anchor : TextAnchor)
    (padding : Vec2d) :
    (anchor.horizontal = .Center → (m.Align p anchor padding).top_left.x = p.x - m.width / 2)
    ∧ (anchor.horizontal = .Right →
        (m.Align p anchor padding).top_left.x = p.x - padding.x - m.width)
    ∧ (anchor.horizontal = .Left → (m.Align p anchor padding).top_left.x = p.x + padding.x)
    ∧ (anchor.vertical = .Center → (m.Align p anchor padding).top_left.y = p.y - m.height / 2)
    ∧ (anchor.vertical = .Top → (m.Align p anchor padding).top_left.y = p.y + padding.y)
    ∧ (anchor.vertical = .Bottom →
        (m.Align p anchor padding).top_left.y = p.y - padding.y - m.height)
    ∧ (m.Align p anchor padding).width = m.width
    ∧ (m.Align p anchor padding).height = m.height
    ∧ (∀ alignment : HorizontalAlignment,
        (MultilineText.Align { m with style := { m.style with alignment := alignment } }
          p anchor padding).top_left = (m.Align p anchor padding).top_left) := by
  obtain ⟨htl, hw, hh, _⟩ := MultilineText_Align_frame m p anchor padding
  refine ⟨?_, ?_, ?_, ?_, ?_, ?_, hw, hh, ?_⟩
  · intro h
    rw [htl]
    simp only [h, if_true]
  · intro h
    rw [htl]
    simp only [h, if_true, reduceCtorEq, if_false]
  · intro h
    rw [htl]
    simp only [h, reduceCtorEq, if_false]
  · intro h
    rw [htl]
    simp only [h, if_true]
  · intro h
    rw [htl]
    simp only [h, if_true, reduceCtorEq, if_false]
  · intro h
    rw [htl]
    simp only [h, reduceCtorEq, if_false]
  · intro alignment
    rw [htl, (MultilineText_Align_frame _ p anchor padding).1]

theorem MultilineText_Align_top_left_witness :
    (MultilineText.Align
      { top_left := ⟨0, 0⟩, width := 40, height := 20,
        style := { size := 16, family := "monospace", color := Color.init 0 0 0 1,
                   bold := false, italic := false, line_spacing := 1, alignment := .Left },
        lines := [] }
      ⟨100, 50⟩ ⟨.Right, .Top⟩ ⟨3, 2⟩).top_left.x = 100 - 3 - 40 :=
  (MultilineText_Align_top_left _ ⟨100, 50⟩ ⟨.Right, .Top⟩ ⟨3, 2⟩).2.1 rfl

/-- C34: after `Align(p, anchor, padding)` the box `BoundingBox(padding, r)`
has the size `(W + 2 px, H + 2 py)`, no rotation and corner radius `r`, its
center is the center of the text block, and it touches the anchor position:
its left edge, right edge or center x is at `p.x` for a left, right or
horizontally centered anchor, and its top edge, bottom edge or center y is at
`p.y` for a top, bottom or vertically centered anchor. -/
theorem MultilineText_BoundingBox_anchor (m : MultilineText) (p : Vec2d) (anchor : TextAnchor)
    (padding : Vec2d) (r : ℚ) :
    ((m.Align p anchor padding).BoundingBox padding r).width = m.width + 2 * padding.x
    ∧ ((m.Align p anchor padding).BoundingBox padding r).height = m.height + 2 * padding.y
    ∧ ((m.Align p anchor padding).BoundingBox padding r).rotation = 0
    ∧ ((m.Align p anchor padding).BoundingBox padding r).radius = r
    ∧ ((m.Align p anchor padding).BoundingBox padding r).cx
        = (m.Align p anchor padding).top_left.x + m.width / 2
    ∧ ((m.Align p anchor padding).BoundingBox padding r).cy
        = (m.Align p anchor padding).top_left.y + m.height / 2
    ∧ (anchor.horizontal = .Left →
        ((m.Align p anchor padding).BoundingBox padding r).cx
          - ((m.Align p anchor padding).BoundingBox padding r).half_width = p.x)
    ∧ (anchor.horizontal = .Right →
        ((m.Align p anchor padding).BoundingBox padding r).cx
          + ((m.Align p anchor padding).BoundingBox padding r).half_width = p.x)
    ∧ (anchor.horizontal = .Center →
        ((m.Align p anchor padding).BoundingBox padding r).cx = p.x)
    ∧ (anchor.vertical = .Top →
        ((m.Align p anchor padding).BoundingBox padding r).cy
          - ((m.Align p anchor padding).BoundingBox padding r).half_height = p.y)
    ∧ (anchor.vertical = .Bottom →
        ((m.Align p anchor padding).BoundingBox padding r).cy
          + ((m.Align p anchor padding).BoundingBox padding r).half_height = p.y)
    ∧ (anchor.vertical = .Center →
        ((m.Align p anchor padding).BoundingBox padding r).cy = p.y) := by
  obtain ⟨htl, hw, hh, _⟩ := MultilineText_Align_frame m p anchor padding
  have hbox : (m.Align p anchor padding).BoundingBox padding r
      = { cx := (m.Align p anchor padding).top_left.x + m.width / 2,
          cy := (m.Align p anchor padding).top_left.y + m.height / 2,
          width := m.width + 2 * padding.x, height := m.height + 2 * padding.y,
          rotation := 0, radius := r } := by
    unfold MultilineText.BoundingBox Rect.init6
    rw [hw, hh]
  rw [hbox, htl]
  simp only [Rect.half_width, Rect.half_height]
  refine ⟨trivial, trivial, trivial, trivial, trivial, trivial, ?_, ?_, ?_, ?_, ?_, ?_⟩
  · intro h
    simp only [h, reduceCtorEq, if_false]
    ring
  · intro h
    simp only [h, if_true, reduceCtorEq, if_false]
    ring
  · intro h
    simp only [h, if_true]
    ring
  · intro h
    simp only [h, if_true, reduceCtorEq, if_false]
    ring
  · intro h
    simp only [h, reduceCtorEq, if_false]
    ring
  · intro h
    simp only [h, if_true]
    ring

theorem MultilineText_BoundingBox_anchor_witness :
    ((MultilineText.Align
      { top_left := ⟨0, 0⟩, width := 40, height := 20,
        style := { size := 16, family := "monospace", color := Color.init 0 0 0 1,
                   bold := false, italic := false, line_spacing := 1, alignment := .Left },
        lines := [] }
      ⟨100, 50⟩ ⟨.Left, .Bottom⟩ ⟨3, 2⟩).BoundingBox ⟨3, 2⟩ 0).cx
      - ((MultilineText.Align
      { top_left := ⟨0, 0⟩, width := 40, height := 20,
        style := { size := 16, family := "monospace", color := Color.init 0 0 0 1,
                   bold := false, italic := false, line_spacing := 1, alignment := .Left },
        lines := [] }
      ⟨100, 50⟩ ⟨.Left, .Bottom⟩ ⟨3, 2⟩).BoundingBox ⟨3, 2⟩ 0).half_width = 100 :=
  (MultilineText_BoundingBox_anchor _ ⟨100, 50⟩ ⟨.Left, .Bottom⟩ ⟨3, 2⟩ 0).2.2.2.2.2.2.1 rfl

/-- The extent of a line that `TextLine::Align` has put with its bottom at `y`
in a block with the left edge `tlx` and the width `W`, for each alignment of
the lines: it lies between `tlx` and `tlx + W` when the width of the line is
in `[0, W]`, its top is at `y - height` and its bottom at `y`. -/
theorem TextLine_Align_bottom (tlx W x y : ℚ) (al : HorizontalAlignment) (a : TextLine)
    (hx : (al = .Left → x = tlx) ∧ (al = .Center → x = tlx + W / 2)
      ∧ (al = .Right → x = tlx + W))
    (ha : 0 ≤ a.width ∧ a.width ≤ W) :
    (a.Align
        { x := x,
          y := y }
        (TextAnchor.combine .Bottom al) { x := 0, y := 0 }).width = a.width
    ∧ (a.Align
        { x := x,
          y := y }
        (TextAnchor.combine .Bottom al) { x := 0, y := 0 }).height = a.height
    ∧ (a.Align
        { x := x,
          y := y }
        (TextAnchor.combine .Bottom al) { x := 0, y := 0 }).bearing_x = a.bearing_x
    ∧ (a.Align
        { x := x,
          y := y }
        (TextAnchor.combine .Bottom al) { x := 0, y := 0 }).bearing_y = a.bearing_y
    ∧ tlx ≤ (a.Align
        { x := x,
          y := y }
        (TextAnchor.combine .Bottom al) { x := 0, y := 0 }).reference_point.x + a.bearing_x
    ∧ (a.Align
        { x := x,
          y := y }
        (TextAnchor.combine .Bottom al) { x := 0, y := 0 }).reference_point.x + a.bearing_x
          + a.width ≤ tlx + W
    ∧ (a.Align
        { x := x,
          y := y }
        (TextAnchor.combine .Bottom al) { x := 0, y := 0 }).reference_point.y + a.bearing_y
        = y - a.height := by
  refine ⟨rfl, rfl, rfl, rfl, ?_, ?_, ?_⟩
  · cases al
    · have e := hx.1 rfl
      simp only [TextLine.Align, IsFlagSetH, IsFlagSetV, TextAnchor.combine,
        decide_eq_true_eq, reduceCtorEq, if_false, if_true]
      linarith [ha.1, ha.2]
    · have e := hx.2.1 rfl
      simp only [TextLine.Align, IsFlagSetH, IsFlagSetV, TextAnchor.combine,
        decide_eq_true_eq, reduceCtorEq, if_false, if_true]
      linarith [ha.1, ha.2]
    · have e := hx.2.2 rfl
      simp only [TextLine.Align, IsFlagSetH, IsFlagSetV, TextAnchor.combine,
        decide_eq_true_eq, reduceCtorEq, if_false, if_true]
      linarith [ha.1, ha.2]
  · cases al
    · have e := hx.1 rfl
      simp only [TextLine.Align, IsFlagSetH, IsFlagSetV, TextAnchor.combine,
        decide_eq_true_eq, reduceCtorEq, if_false, if_true]
      linarith [ha.1, ha.2]
    · have e := hx.2.1 rfl
      simp only [TextLine.Align, IsFlagSetH, IsFlagSetV, TextAnchor.combine,
        decide_eq_true_eq, reduceCtorEq, if_false, if_true]
      linarith [ha.1, ha.2]
    · have e := hx.2.2 rfl
      simp only [TextLine.Align, IsFlagSetH, IsFlagSetV, TextAnchor.combine,
        decide_eq_true_eq, reduceCtorEq, if_false, if_true]
      linarith [ha.1, ha.2]
  · simp only [TextLine.Align, IsFlagSetH, IsFlagSetV, TextAnchor.combine,
      decide_eq_true_eq, reduceCtorEq, if_false]
    ring

/-- The loop of `MultilineText::Align` after the first line, over lines whose
widths lie in `[0, W]` and whose heights are not negative, for a line spacing
of at least 1: the aligned lines are appended to the lines so far, each lies
between `tlx` and `tlx + W` and between the start `y` and the final `y`, which
is the start plus `ls` times the heights, and the last line ends there. -/
theorem Align_loop_spec (tlx W x ls : ℚ) (al : HorizontalAlignment) (hls : 1 ≤ ls)
    (hx : (al = .Left → x = tlx) ∧ (al = .Center → x = tlx + W / 2)
      ∧ (al = .Right → x = tlx + W))
    (l : List TextLine) :
    ∀ (y : ℚ) (acc : List TextLine),
      (∀ t ∈ l, 0 ≤ t.width ∧ t.width ≤ W ∧ 0 ≤ t.height) →
      ∃ tail : List TextLine,
        (l.foldl
          (fun (st : ℚ × Bool × List TextLine) (line : TextLine) =>
            (st.1 + line.height * (if st.2.1 then 1 else ls), false,
              st.2.2 ++ [line.Align
                { x := x,
                  y := st.1 + line.height * (if st.2.1 then 1 else ls) }
                (TextAnchor.combine .Bottom al) { x := 0, y := 0 }]))
          (y, false, acc))
        = (y + ls * (l.map TextLine.height).sum, false, acc ++ tail)
        ∧ tail.length = l.length
        ∧ (∀ t ∈ tail,
            tlx ≤ t.reference_point.x + t.bearing_x
            ∧ t.reference_point.x + t.bearing_x + t.width ≤ tlx + W
            ∧ y ≤ t.reference_point.y + t.bearing_y
            ∧ t.reference_point.y + t.bearing_y + t.height
                ≤ y + ls * (l.map TextLine.height).sum)
        ∧ (∀ tn, tail.getLast? = some tn →
            tn.reference_point.y + tn.bearing_y + tn.height
              = y + ls * (l.map TextLine.height).sum) := by
  induction l with
  | nil =>
    intro y acc _
    refine ⟨[], ?_, rfl, ?_, ?_⟩
    · simp
    · intro t ht
      exact absurd ht (List.not_mem_nil t)
    · intro tn hn
      simp at hn
  | cons a rest ih =>
    intro y acc hall
    have ha := hall a (List.mem_cons_self _ _)
    have hrest : ∀ t ∈ rest, 0 ≤ t.width ∧ t.width ≤ W ∧ 0 ≤ t.height :=
      fun t ht => hall t (List.mem_cons_of_mem _ ht)
    have hsum : 0 ≤ (rest.map TextLine.height).sum := by
      apply List.sum_nonneg
      intro h hh
      obtain ⟨t, ht, rfl⟩ := List.mem_map.mp hh
      exact (hrest t ht).2.2
    obtain ⟨hw, hh, hbx, hby, hx1, hx2, hy⟩ :=
      TextLine_Align_bottom tlx W x (y + a.height * ls) al a hx ⟨ha.1, ha.2.1⟩
    obtain ⟨tail, hrun, hlen, hin, hlast⟩ :=
      ih (y + a.height * ls)
        (acc ++ [a.Align
          { x := x,
            y := y + a.height * ls }
          (TextAnchor.combine .Bottom al) { x := 0, y := 0 }]) hrest
    have hstep : a.height ≤ a.height * ls := by nlinarith [ha.2.2]
    have hgrow : 0 ≤ ls * (rest.map TextLine.height).sum := mul_nonneg (by linarith) hsum
    refine ⟨a.Align
          { x := x,
            y := y + a.height * ls }
          (TextAnchor.combine .Bottom al) { x := 0, y := 0 } :: tail, ?_, ?_, ?_, ?_⟩
    · rw [List.foldl_cons]
      simp only [Bool.false_eq_true, if_false] at hrun ⊢
      rw [hrun]
      simp only [List.append_assoc, List.singleton_append, List.map_cons, List.sum_cons]
      congr 1
      ring
    · simp only [List.length_cons, hlen]
    · intro t ht
      simp only [List.map_cons, List.sum_cons]
      rcases List.mem_cons.mp ht with rfl | ht
      · rw [hw, hh, hbx, hby]
        refine ⟨hx1, hx2, ?_, ?_⟩
        · rw [hy]
          linarith
        · rw [hy]
          nlinarith
      · obtain ⟨h1, h2, h3, h4⟩ := hin t ht
        refine ⟨h1, h2, ?_, ?_⟩
        · nlinarith [ha.2.2]
        · nlinarith
    · intro tn hn
      simp only [List.map_cons, List.sum_cons]
      cases tail with
      | nil =>
        simp only [List.getLast?_singleton, Option.some.injEq] at hn
        subst hn
        have hr : rest = [] := List.length_eq_zero.mp hlen.symm
        subst hr
        rw [hh, hby, hy]
        simp only [List.map_nil, List.sum_nil]
        ring
      | cons b tail2 =>
        rw [List.getLast?_cons_cons] at hn
        rw [hlast tn hn]
        ring

/-- The lines of a block after `MultilineText::Align`: the result of the loop
over the lines, started at the top of the block, with the horizontal position
that belongs to the line alignment of the style. -/
theorem MultilineText_Align_lines (m : MultilineText) (p : Vec2d) (anchor : TextAnchor)
    (padding : Vec2d) :
    ∃ x : ℚ,
      ((m.style.alignment = .Left → x = (m.Align p anchor padding).top_left.x)
        ∧ (m.style.alignment = .Center →
            x = (m.Align p anchor padding).top_left.x + m.width / 2)
        ∧ (m.style.alignment = .Right →
            x = (m.Align p anchor padding).top_left.x + m.width))
      ∧ (m.Align p anchor padding).lines
        = (m.lines.foldl
            (fun (st : ℚ × Bool × List TextLine) (line : TextLine) =>
              (st.1 + line.height * (if st.2.1 then 1 else m.style.line_spacing), false,
                st.2.2 ++ [line.Align
                  { x := x,
                    y := st.1 + line.height * (if st.2.1 then 1 else m.style.line_spacing) }
                  (TextAnchor.combine .Bottom m.style.alignment) { x := 0, y := 0 }]))
            ((m.Align p anchor padding).top_left.y, true, [])).2.2 := by
  refine ⟨_, ⟨?_, ?_, ?_⟩, rfl⟩
  · intro h
    simp only [h, MultilineText.Align]
  · intro h
    simp only [h, MultilineText.Align]
  · intro h
    simp only [h, MultilineText.Align]

/-- C35: for lines with widths and heights that are not negative and a line
spacing of at least 1, after the block built from these lines is aligned,
every line's extent `[ref.x + bearing_x, ref.x + bearing_x + width] x
[ref.y + bearing_y, ref.y + bearing_y + height]` lies inside the rectangle of
the block, `[top_left.x, top_left.x + W] x [top_left.y, top_left.y + H]`, for
every line alignment of the style; the first line's top is at `top_left.y`
and the last line's bottom is at `top_left.y + H`. -/
theorem MultilineText_Align_lines_inside (measured : List TextLine) (style : TextStyle)
    (p : Vec2d) (anchor : TextAnchor) (padding : Vec2d)
    (hnn : ∀ l ∈ measured, 0 ≤ l.width ∧ 0 ≤ l.height) (hls : 1 ≤ style.line_spacing) :
    ((MultilineText.init measured style).Align p anchor padding).lines.length = measured.length
    ∧ (∀ t ∈ ((MultilineText.init measured style).Align p anchor padding).lines,
        ((MultilineText.init measured style).Align p anchor padding).top_left.x
            ≤ t.reference_point.x + t.bearing_x
        ∧ t.reference_point.x + t.bearing_x + t.width
            ≤ ((MultilineText.init measured style).Align p anchor padding).top_left.x
              + ((MultilineText.init measured style).Align p anchor padding).width
        ∧ ((MultilineText.init measured style).Align p anchor padding).top_left.y
            ≤ t.reference_point.y + t.bearing_y
        ∧ t.reference_point.y + t.bearing_y + t.height
            ≤ ((MultilineText.init measured style).Align p anchor padding).top_left.y
              + ((MultilineText.init measured style).Align p anchor padding).height)
    ∧ (∀ t0, ((MultilineText.init measured style).Align p anchor padding).lines.head? = some t0 →
        t0.reference_point.y + t0.bearing_y
          = ((MultilineText.init measured style).Align p anchor padding).top_left.y)
    ∧ (∀ tn,
        ((MultilineText.init measured style).Align p anchor padding).lines.getLast? = some tn →
        tn.reference_point.y + tn.bearing_y + tn.height
          = ((MultilineText.init measured style).Align p anchor padding).top_left.y
            + ((MultilineText.init measured style).Align p anchor padding).height) := by
  obtain ⟨x, hx, hlines⟩ :=
    MultilineText_Align_lines (MultilineText.init measured style) p anchor padding
  obtain ⟨_, hW, hH, _⟩ :=
    MultilineText_Align_frame (MultilineText.init measured style) p anchor padding
  rw [hlines, hW, hH]
  generalize ((MultilineText.init measured style).Align p anchor padding).top_left = tl at hx ⊢
  rw [MultilineText_init_eq] at hx ⊢
  simp only at hx ⊢
  obtain ⟨_, hmax, _⟩ := foldl_max_width measured 0
  generalize measured.foldl (fun w x => max w x.width) 0 = W at hx hmax ⊢
  cases measured with
  | nil =>
    refine ⟨rfl, ?_, ?_, ?_⟩
    · intro t ht
      simp at ht
    · intro t0 h0
      simp at h0
    · intro tn hn
      simp at hn
  | cons l0 rest =>
    have h0 := hnn l0 (List.mem_cons_self _ _)
    have hrest : ∀ t ∈ rest, 0 ≤ t.width ∧ t.width ≤ W ∧ 0 ≤ t.height :=
      fun t ht => ⟨(hnn t (List.mem_cons_of_mem _ ht)).1, hmax t (List.mem_cons_of_mem _ ht),
        (hnn t (List.mem_cons_of_mem _ ht)).2⟩
    obtain ⟨hw, hh, hbx, hby, hx1, hx2, hy⟩ :=
      TextLine_Align_bottom tl.x W x
        (tl.y + l0.height * 1) style.alignment l0 hx ⟨h0.1, hmax l0 (List.mem_cons_self _ _)⟩
    obtain ⟨tail, hrun, hlen, hin, hlast⟩ :=
      Align_loop_spec tl.x W x
        style.line_spacing style.alignment hls hx rest (tl.y + l0.height * 1)
        ([] ++ [l0.Align { x := x, y := tl.y + l0.height * 1 }
          (TextAnchor.combine .Bottom style.alignment) { x := 0, y := 0 }]) hrest
    rw [List.foldl_cons]
    simp only [if_true] at hrun ⊢
    rw [hrun]
    simp only [List.nil_append, List.singleton_append, List.length_cons, hlen]
    have hsum : 0 ≤ (rest.map TextLine.height).sum := by
      apply List.sum_nonneg
      intro h hh2
      obtain ⟨t, ht, rfl⟩ := List.mem_map.mp hh2
      exact (hrest t ht).2.2
    have hgrow : 0 ≤ style.line_spacing * (rest.map TextLine.height).sum :=
      mul_nonneg (by linarith) hsum
    refine ⟨trivial, ?_, ?_, ?_⟩
    · intro t ht
      rcases List.mem_cons.mp ht with rfl | ht
      · rw [hw, hh, hbx, hby, hy]
        exact ⟨hx1, hx2, by linarith, by linarith⟩
      · obtain ⟨a1, a2, a3, a4⟩ := hin t ht
        exact ⟨a1, a2, by linarith [h0.2], by linarith⟩
    · intro t0 ht0
      simp only [List.head?_cons, Option.some.injEq] at ht0
      subst ht0
      rw [hby, hy]
      ring
    · intro tn hn
      cases tail with
      | nil =>
        simp only [List.getLast?_singleton, Option.some.injEq] at hn
        subst hn
        have hr : rest = [] := List.length_eq_zero.mp hlen.symm
        subst hr
        rw [hh, hby, hy]
        simp only [List.map_nil, List.sum_nil]
        ring
      | cons b tail2 =>
        rw [List.getLast?_cons_cons] at hn
        rw [hlast tn hn]
        ring

theorem MultilineText_Align_lines_inside_witness :
    (∀ l ∈ twoLines, 0 ≤ l.width ∧ 0 ≤ l.height)
    ∧ 1 ≤ centeredStyle.line_spacing
    ∧ ∀ tn, ((MultilineText.init twoLines centeredStyle).Align ⟨100, 50⟩ ⟨.Right, .Top⟩
          ⟨3, 2⟩).lines.getLast? = some tn →
        tn.reference_point.y + tn.bearing_y + tn.height
          = ((MultilineText.init twoLines centeredStyle).Align ⟨100, 50⟩ ⟨.Right, .Top⟩
              ⟨3, 2⟩).top_left.y
            + ((MultilineText.init twoLines centeredStyle).Align ⟨100, 50⟩ ⟨.Right, .Top⟩
              ⟨3, 2⟩).height :=
  have h1 : ∀ l ∈ twoLines, 0 ≤ l.width ∧ 0 ≤ l.height := by
    intro l hl
    simp only [twoLines, List.mem_cons, List.mem_singleton, List.not_mem_nil, or_false] at hl
    rcases hl with rfl | rfl <;> norm_num
  have h2 : 1 ≤ centeredStyle.line_spacing := by
    simp only [centeredStyle]
    norm_num
  ⟨h1, h2,
    (MultilineText_Align_lines_inside twoLines centeredStyle ⟨100, 50⟩ ⟨.Right, .Top⟩ ⟨3, 2⟩
      h1 h2).2.2.2⟩

/-! ### Color from a tuple, assignment of buffers, arrow styles, markers -/

/-- C32 (defect of the code): `CreateColor` of a tuple with 3 entries has all
components in `[0, 1]`, and with 4 entries red, green and blue are in `[0, 1]`,
but the 4th entry is assigned to `alpha` as it is: the tuple
`(1/2, 1/2, 1/2, 5)` gives a color with alpha 5. Tuples of other lengths
throw `std::invalid_argument`. -/
theorem CreateColor_alpha_unclamped :
    (∀ r g b : ℚ, ∃ c, vivi.CreateColor [r, g, b] = .ok c
      ∧ (0 ≤ c.red ∧ c.red ≤ 1) ∧ (0 ≤ c.green ∧ c.green ≤ 1)
      ∧ (0 ≤ c.blue ∧ c.blue ≤ 1) ∧ c.alpha = 1)
    ∧ (∀ r g b a : ℚ, ∃ c, vivi.CreateColor [r, g, b, a] = .ok c
      ∧ (0 ≤ c.red ∧ c.red ≤ 1) ∧ (0 ≤ c.green ∧ c.green ≤ 1)
      ∧ (0 ≤ c.blue ∧ c.blue ≤ 1) ∧ c.alpha = a)
    ∧ (∀ tpl : List ℚ, tpl.length < 3 ∨ tpl.length > 4 →
        vivi.CreateColor tpl = .error .invalid_argument)
    ∧ (∃ c, vivi.CreateColor [1 / 2, 1 / 2, 1 / 2, 5] = .ok c ∧ c.alpha = 5 ∧ ¬ c.alpha ≤ 1) := by
  have hclamp : ∀ x : ℚ, 0 ≤ saturation_cast x 0 1 ∧ saturation_cast x 0 1 ≤ 1 := by
    intro x
    unfold saturation_cast
    exact ⟨le_min (le_max_right x 0) (by norm_num), min_le_right _ _⟩
  refine ⟨?_, ?_, ?_, ?_⟩
  · intro r g b
    refine ⟨Color.init r g b 1, rfl, hclamp r, hclamp g, hclamp b, ?_⟩
    simp only [Color.init, saturation_cast]
    norm_num
  · intro r g b a
    exact ⟨{ Color.init r g b 1 with alpha := a }, rfl, hclamp r, hclamp g, hclamp b, rfl⟩
  · intro tpl h
    unfold vivi.CreateColor
    rw [if_pos h]
  · refine ⟨{ Color.init (1 / 2) (1 / 2) (1 / 2) 1 with alpha := 5 }, rfl, rfl, ?_⟩
    norm_num

/-- C36 (defect of the code): the move assignment gives `*this` the data
pointer, ownership, width, height, channels, item size and row stride of the
other buffer, but leaves the buffer type of `*this` as it was, and the copy
assignment, which move-assigns a copy, does the same: a default-constructed
buffer that is assigned the `double` buffer `doubleRef` has item size 8 and
the buffer type `UInt8`, whose size is 1. -/
theorem assign_keeps_buffer_type :
    (∀ self other : ImageBufferRef,
      (ImageBufferRef.moveAssign self other).1.width = other.width
      ∧ (ImageBufferRef.moveAssign self other).1.height = other.height
      ∧ (ImageBufferRef.moveAssign self other).1.channels = other.channels
      ∧ (ImageBufferRef.moveAssign self other).1.row_stride = other.row_stride
      ∧ (ImageBufferRef.moveAssign self other).1.item_size = other.item_size
      ∧ (ImageBufferRef.moveAssign self other).1.data = other.data
      ∧ (ImageBufferRef.moveAssign self other).1.owns_data = other.owns_data
      ∧ (ImageBufferRef.moveAssign self other).1.buffer_type = self.buffer_type)
    ∧ ((ImageBufferRef.moveAssign defaultRef doubleRef).1.item_size = 8
      ∧ (ImageBufferRef.moveAssign defaultRef doubleRef).1.buffer_type = .UInt8
      ∧ (ImageBufferRef.moveAssign defaultRef doubleRef).1.item_size
          ≠ ItemSizeFromImageBufferType
              (ImageBufferRef.moveAssign defaultRef doubleRef).1.buffer_type)
    ∧ (∃ h a, ImageBufferRef.copyAssign heapExample (some 2) defaultRef doubleRef = .ok (h, a)
      ∧ a.width = 1 ∧ a.height = 1 ∧ a.channels = 1 ∧ a.row_stride = 8
      ∧ a.item_size = 8 ∧ a.buffer_type = .UInt8
      ∧ a.item_size ≠ ItemSizeFromImageBufferType a.buffer_type)
    ∧ (∀ initial_type : ImageBufferType,
        (ImageBufferRef.moveConstruct initial_type doubleRef).1.buffer_type = initial_type) :=
  ⟨fun _ _ => ⟨rfl, rfl, rfl, rfl, rfl, rfl, rfl, rfl⟩,
    ⟨rfl, rfl, by decide⟩,
    ⟨_, _, rfl, rfl, rfl, rfl, rfl, rfl, rfl, by decide⟩,
    fun _ => rfl⟩

/-- A line style equals itself under a reflexive comparison of the numbers. -/
theorem LineStyle_Equals_refl (epsEq : ℚ → ℚ → Bool) (hrefl : ∀ x, epsEq x x = true)
    (a : LineStyle) : a.Equals epsEq a = true := by
  have hc : Color.ne a.color a.color = false := by
    unfold Color.ne
    rw [(Color_eq_iff _ _).mpr rfl]
    rfl
  have hall : (List.range a.dash_pattern.length).all
      (fun i => epsEq (a.dash_pattern.getD i 0) (a.dash_pattern.getD i 0)) = true := by
    rw [List.all_eq_true]
    intro i _
    exact hrefl _
  unfold LineStyle.Equals
  rw [hrefl a.width, hc, hall]
  simp only [Bool.not_true, Bool.false_eq_true, if_false, ne_eq, not_true_eq_false]

/-- C37 (defect of the code): `ArrowStyle::Equals` compares tip length and tip
angle (with `eps_equal`), `tip_closed` and the `LineStyle` base, but not
`double_headed`: the result does not depend on `double_headed` of the other
style, and the style `arrowExample` equals its copy with two heads. -/
theorem ArrowStyle_Equals_ignores_double_headed :
    (∀ (epsEq : ℚ → ℚ → Bool) (a b : ArrowStyle), a.Equals epsEq b = true →
      epsEq a.tip_length b.tip_length = true ∧ epsEq a.tip_angle b.tip_angle = true
      ∧ a.tip_closed = b.tip_closed ∧ a.toLineStyle.Equals epsEq b.toLineStyle = true)
    ∧ (∀ (epsEq : ℚ → ℚ → Bool) (a b : ArrowStyle) (two_heads : Bool),
        a.Equals epsEq { b with double_headed := two_heads } = a.Equals epsEq b)
    ∧ (arrowExample.double_headed ≠ ({ arrowExample with double_headed := true }).double_headed
      ∧ arrowExample.Equals wgu.eps_equal { arrowExample with double_headed := true }
          = true) := by
  refine ⟨?_, fun _ _ _ _ => rfl, by decide, ?_⟩
  · intro epsEq a b h
    unfold ArrowStyle.Equals at h
    by_cases h1 : epsEq a.tip_length b.tip_length = true
    · by_cases h2 : epsEq a.tip_angle b.tip_angle = true
      · by_cases h3 : a.tip_closed = b.tip_closed
        · simp only [h1, h2, h3, Bool.not_true, Bool.false_eq_true, if_false, bne_self_eq_false]
            at h
          exact ⟨h1, h2, h3, h⟩
        · have h3b : (a.tip_closed != b.tip_closed) = true := by
            rw [bne_iff_ne]
            exact h3
          simp only [h1, h2, h3b, Bool.not_true, Bool.false_eq_true, if_false, if_true] at h
      · simp only [h1, h2, Bool.not_true, Bool.false_eq_true, if_false, Bool.not_eq_true',
          Bool.not_eq_true] at h
        simp [h2] at h
    · simp [h1] at h
  · have hl := LineStyle_Equals_refl wgu.eps_equal wgu_eps_equal_refl arrowExample.toLineStyle
    unfold ArrowStyle.Equals
    simp only [wgu_eps_equal_refl, Bool.not_true, Bool.false_eq_true, if_false]
    exact hl

/-- C38: an arrow style is valid exactly when `tip_length > 0`,
`0 < tip_angle < 180` and its `LineStyle` base is valid, which is `width > 0`
and a valid color; `tip_closed` and `double_headed` do not affect validity. -/
theorem ArrowStyle_IsValid_iff (colorIsValid : Color → Bool) (a : ArrowStyle) :
    (a.IsValid colorIsValid = true ↔
      (a.tip_length > 0 ∧ 0 < a.tip_angle ∧ a.tip_angle < 180
        ∧ a.toLineStyle.IsValid colorIsValid = true))
    ∧ (a.toLineStyle.IsValid colorIsValid = true ↔
        (a.width > 0 ∧ colorIsValid a.color = true))
    ∧ (∀ fill two_heads : Bool,
        ArrowStyle.IsValid colorIsValid
            { a with tip_closed := fill, double_headed := two_heads }
          = a.IsValid colorIsValid) := by
  refine ⟨?_, ?_, fun _ _ => rfl⟩
  · unfold ArrowStyle.IsValid
    rw [Bool.and_eq_true, Bool.and_eq_true, Bool.and_eq_true, decide_eq_true_eq,
      decide_eq_true_eq, decide_eq_true_eq]
    constructor
    · rintro ⟨⟨⟨h1, h2⟩, h3⟩, h4⟩
      exact ⟨h1, h2, h3, h4⟩
    · rintro ⟨h1, h2, h3, h4⟩
      exact ⟨⟨⟨h1, h2⟩, h3⟩, h4⟩
  · unfold LineStyle.IsValid
    rw [Bool.and_eq_true, decide_eq_true_eq]

/-- Every character is the character of a marker, which `MarkerFromChar`
returns, or it is the character of no marker and `MarkerFromChar` throws
`std::invalid_argument`. -/
theorem MarkerFromChar_cases (ch : Char) :
    (∃ m, MarkerFromChar ch = .ok m ∧ MarkerToChar m = .ok ch)
    ∨ (MarkerFromChar ch = .error .invalid_argument ∧ ∀ m, MarkerToChar m ≠ .ok ch) := by
  by_cases h0 : ch = '.'
  · subst h0
    exact Or.inl ⟨_, rfl, rfl⟩
  by_cases h1 : ch = 'o'
  · subst h1
    exact Or.inl ⟨_, rfl, rfl⟩
  by_cases h2 : ch = 'd'
  · subst h2
    exact Or.inl ⟨_, rfl, rfl⟩
  by_cases h3 : ch = '+'
  · subst h3
    exact Or.inl ⟨_, rfl, rfl⟩
  by_cases h4 : ch = 'x'
  · subst h4
    exact Or.inl ⟨_, rfl, rfl⟩
  by_cases h5 : ch = 's'
  · subst h5
    exact Or.inl ⟨_, rfl, rfl⟩
  by_cases h6 : ch = 'r'
  · subst h6
    exact Or.inl ⟨_, rfl, rfl⟩
  by_cases h7 : ch = '^'
  · subst h7
    exact Or.inl ⟨_, rfl, rfl⟩
  by_cases h8 : ch = 'v'
  · subst h8
    exact Or.inl ⟨_, rfl, rfl⟩
  by_cases h9 : ch = '<'
  · subst h9
    exact Or.inl ⟨_, rfl, rfl⟩
  by_cases h10 : ch = '>'
  · subst h10
    exact Or.inl ⟨_, rfl, rfl⟩
  by_cases h11 : ch = '*'
  · subst h11
    exact Or.inl ⟨_, rfl, rfl⟩
  by_cases h12 : ch = '5'
  · subst h12
    exact Or.inl ⟨_, rfl, rfl⟩
  by_cases h13 : ch = 'p'
  · subst h13
    exact Or.inl ⟨_, rfl, rfl⟩
  by_cases h14 : ch = '6'
  · subst h14
    exact Or.inl ⟨_, rfl, rfl⟩
  by_cases h15 : ch = 'h'
  · subst h15
    exact Or.inl ⟨_, rfl, rfl⟩
  by_cases h16 : ch = '7'
  · subst h16
    exact Or.inl ⟨_, rfl, rfl⟩
  by_cases h17 : ch = 'H'
  · subst h17
    exact Or.inl ⟨_, rfl, rfl⟩
  by_cases h18 : ch = '8'
  · subst h18
    exact Or.inl ⟨_, rfl, rfl⟩
  by_cases h19 : ch = '0'
  · subst h19
    exact Or.inl ⟨_, rfl, rfl⟩
  by_cases h20 : ch = '9'
  · subst h20
    exact Or.inl ⟨_, rfl, rfl⟩
  by_cases h21 : ch = 'n'
  · subst h21
    exact Or.inl ⟨_, rfl, rfl⟩
  right
  constructor
  · simp only [MarkerFromChar, if_neg h0, if_neg h1, if_neg h2, if_neg h3, if_neg h4, if_neg h5, if_neg h6, if_neg h7, if_neg h8, if_neg h9, if_neg h10, if_neg h11, if_neg h12, if_neg h13, if_neg h14, if_neg h15, if_neg h16, if_neg h17, if_neg h18, if_neg h19, if_neg h20, if_neg h21]
  · intro m hm
    cases m <;>
      (have e := (Except.ok.inj hm).symm
       subst e
       contradiction)

/-- The character of every marker is read back as this marker. -/
theorem MarkerToChar_ok (m : Marker) :
    ∃ ch, MarkerToChar m = .ok ch ∧ MarkerFromChar ch = .ok m := by
  cases m <;> exact ⟨_, rfl, rfl⟩

/-- The marker that `MarkerFromChar` returns has the given character. -/
theorem MarkerFromChar_ok (ch : Char) (m : Marker) (h : MarkerFromChar ch = .ok m) :
    MarkerToChar m = .ok ch := by
  rcases MarkerFromChar_cases ch with ⟨m2, h1, h2⟩ | ⟨h1, _⟩
  · rw [h1] at h
    rw [← Except.ok.inj h]
    exact h2
  · rw [h1] at h
    exact Except.noConfusion h

/-- C40: marker characters round-trip. Every marker has a character, which
`MarkerFromChar` reads back as this marker, so `MarkerToChar` is injective;
`MarkerFromChar(ch)` succeeds exactly when `ch` is the character of some
marker, and then the character of the result is `ch`; every other character
throws `std::invalid_argument`. -/
theorem Marker_char_roundtrip :
    (∀ m : Marker, ∃ ch, MarkerToChar m = .ok ch ∧ MarkerFromChar ch = .ok m)
    ∧ (∀ m1 m2 : Marker, MarkerToChar m1 = MarkerToChar m2 → m1 = m2)
    ∧ (∀ ch : Char, (∃ m, MarkerFromChar ch = .ok m) ↔ ∃ m, MarkerToChar m = .ok ch)
    ∧ (∀ (ch : Char) (m : Marker), MarkerFromChar ch = .ok m → MarkerToChar m = .ok ch)
    ∧ (∀ ch : Char, (¬ ∃ m, MarkerToChar m = .ok ch) →
        MarkerFromChar ch = .error .invalid_argument) := by
  refine ⟨MarkerToChar_ok, ?_, ?_, MarkerFromChar_ok, ?_⟩
  · intro m1 m2 h
    obtain ⟨c1, h1, f1⟩ := MarkerToChar_ok m1
    obtain ⟨c2, h2, f2⟩ := MarkerToChar_ok m2
    rw [h1, h2] at h
    have hc : c1 = c2 := Except.ok.inj h
    rw [hc, f2] at f1
    exact (Except.ok.inj f1).symm
  · intro ch
    constructor
    · rintro ⟨m, hm⟩
      exact ⟨m, MarkerFromChar_ok ch m hm⟩
    · rintro ⟨m, hm⟩
      obtain ⟨c, h1, f1⟩ := MarkerToChar_ok m
      rw [hm] at h1
      have hc : ch = c := Except.ok.inj h1
      exact ⟨m, by rw [hc]; exact f1⟩
  · intro ch hno
    rcases MarkerFromChar_cases ch with ⟨m, _, h2⟩ | ⟨h1, _⟩
    · exact absurd ⟨m, h2⟩ hno
    · exact h1

theorem Marker_char_roundtrip_witness :
    MarkerToChar .Star = .ok '*' ∧ MarkerFromChar 'q' = .error .invalid_argument :=
  ⟨(Marker_char_roundtrip).2.2.2.1 '*' .Star rfl,
    (Marker_char_roundtrip).2.2.2.2 'q' (by
      rintro ⟨m, hm⟩
      cases m <;> exact absurd (Except.ok.inj hm) (by decide))⟩

/-! ### Image buffer: swapping channels twice and in either order -/

/-- A byte inside the pixel `(r, c)` after `helpers::SwapChannels`: the bytes
of the two channels of this pixel are exchanged, every other byte of the
pixel is as before. -/
theorem SwapChannels_inside (b : ImageBuffer) (ch1 ch2 : Int) (hb : b.WellFormed)
    (h1 : 0 ≤ ch1 ∧ ch1 < b.channels) (h2 : 0 ≤ ch2 ∧ ch2 < b.channels)
    (r c : Int) (hr0 : 0 ≤ r) (hr1 : r < b.height) (hc0 : 0 ≤ c) (hc1 : c < b.width)
    (m : Mem) (a : Int)
    (ha : r * b.row_stride + c * (b.channels * b.item_size) ≤ a
      ∧ a < r * b.row_stride + (c + 1) * (b.channels * b.item_size)) :
    helpers.SwapChannels b.buffer_type b m ch1 ch2 a
      = if b.ByteOffset r c ch2 ≤ a ∧ a < b.ByteOffset r c ch2 + b.item_size then
          m (b.ByteOffset r c ch1 + (a - b.ByteOffset r c ch2))
        else if b.ByteOffset r c ch1 ≤ a ∧ a < b.ByteOffset r c ch1 + b.item_size then
          m (b.ByteOffset r c ch2 + (a - b.ByteOffset r c ch1))
        else m a := by
  have hb2 := hb
  obtain ⟨hdata, hw, hh, hch, hsz, hstride⟩ := hb
  have hi : 1 ≤ b.item_size := hsz ▸ ItemSize_pos b.buffer_type
  have hframe := fun row j m a => swapPix_frame b row j ch1 ch2 m a hi h1 h2
  have hloc := fun row j m1 m2 hm12 a ha => swapPix_loc b row j ch1 ch2 m1 m2 hi h1 h2 hm12 a ha
  obtain ⟨row, col, hoff, _, hfin⟩ := convert_final
    (fun row j m => swapAt b.item_size (b.ByteOffset row 0 0) (j * b.channels) ch1 ch2 m)
    b b m hb2 rfl (fun hcont => of_decide_eq_true hcont)
    (by rw [← mul_assoc]; exact hstride) (by positivity) hframe hloc r c hr0 hr1 hc0 hc1
  have e : row * b.row_stride + col * (b.channels * b.item_size)
      = r * b.row_stride + c * (b.channels * b.item_size) := by
    have := hoff 0
    unfold ImageBuffer.ByteOffset at this
    linear_combination this
  have e2 : row * b.row_stride + (col + 1) * (b.channels * b.item_size)
      = r * b.row_stride + (c + 1) * (b.channels * b.item_size) := by
    linear_combination e
  rw [helpers_SwapChannels_eq b m ch1 ch2 hb2, hfin a (by rw [e, e2]; exact ha),
    swapPix_apply b row col ch1 ch2 m a (by omega), hoff ch1, hoff ch2]

/-- A byte outside every pixel is not changed by `helpers::SwapChannels`. -/
theorem SwapChannels_outside (b : ImageBuffer) (ch1 ch2 : Int) (hb : b.WellFormed)
    (h1 : 0 ≤ ch1 ∧ ch1 < b.channels) (h2 : 0 ≤ ch2 ∧ ch2 < b.channels)
    (m : Mem) (a : Int)
    (ha : ∀ r c, 0 ≤ r → r < b.height → 0 ≤ c → c < b.width →
      ¬ (r * b.row_stride + c * (b.channels * b.item_size) ≤ a
        ∧ a < r * b.row_stride + (c + 1) * (b.channels * b.item_size))) :
    helpers.SwapChannels b.buffer_type b m ch1 ch2 a = m a := by
  have hb2 := hb
  obtain ⟨hdata, hw, hh, hch, hsz, hstride⟩ := hb
  have hi : 1 ≤ b.item_size := hsz ▸ ItemSize_pos b.buffer_type
  have hframe := fun row j m a => swapPix_frame b row j ch1 ch2 m a hi h1 h2
  have hloc := fun row j m1 m2 hm12 a ha => swapPix_loc b row j ch1 ch2 m1 m2 hi h1 h2 hm12 a ha
  rw [helpers_SwapChannels_eq b m ch1 ch2 hb2]
  exact scan_outside
    (fun row j m => swapAt b.item_size (b.ByteOffset row 0 0) (j * b.channels) ch1 ch2 m)
    b m hb2 hframe hloc a ha

/-- Swapping two different channels twice restores the memory, and the order
of the two channels does not matter. -/
theorem helpers_SwapChannels_twice (b : ImageBuffer) (ch1 ch2 : Int) (hb : b.WellFormed)
    (h1 : 0 ≤ ch1 ∧ ch1 < b.channels) (h2 : 0 ≤ ch2 ∧ ch2 < b.channels) (hne : ch1 ≠ ch2)
    (m : Mem) :
    helpers.SwapChannels b.buffer_type b
        (helpers.SwapChannels b.buffer_type b m ch1 ch2) ch1 ch2 = m
    ∧ helpers.SwapChannels b.buffer_type b m ch1 ch2
        = helpers.SwapChannels b.buffer_type b m ch2 ch1 := by
  have hb2 := hb
  obtain ⟨hdata, hw, hh, hch, hsz, hstride⟩ := hb
  have hi : 1 ≤ b.item_size := hsz ▸ ItemSize_pos b.buffer_type
  constructor
  · funext a
    by_cases hreg : ∃ r c, 0 ≤ r ∧ r < b.height ∧ 0 ≤ c ∧ c < b.width
        ∧ (r * b.row_stride + c * (b.channels * b.item_size) ≤ a
          ∧ a < r * b.row_stride + (c + 1) * (b.channels * b.item_size))
    · obtain ⟨r, c, hr0, hr1, hc0, hc1, ha⟩ := hreg
      have hd := ByteOffset_disjoint b r c ch1 ch2 (by omega) hne
      have e1 := elem_in_pixel b r c ch1 0 h1.1 h1.2 (le_refl 0) (by omega)
      have e1b := elem_in_pixel b r c ch1 (b.item_size - 1) h1.1 h1.2 (by omega) (by omega)
      have e2 := elem_in_pixel b r c ch2 0 h2.1 h2.2 (le_refl 0) (by omega)
      have e2b := elem_in_pixel b r c ch2 (b.item_size - 1) h2.1 h2.2 (by omega) (by omega)
      rw [SwapChannels_inside b ch1 ch2 hb2 h1 h2 r c hr0 hr1 hc0 hc1 _ a ha]
      by_cases c2 : b.ByteOffset r c ch2 ≤ a ∧ a < b.ByteOffset r c ch2 + b.item_size
      · rw [if_pos c2, SwapChannels_inside b ch1 ch2 hb2 h1 h2 r c hr0 hr1 hc0 hc1 m _
          (by omega), if_neg (by omega), if_pos (by omega)]
        congr 1
        omega
      · rw [if_neg c2]
        by_cases c1 : b.ByteOffset r c ch1 ≤ a ∧ a < b.ByteOffset r c ch1 + b.item_size
        · rw [if_pos c1, SwapChannels_inside b ch1 ch2 hb2 h1 h2 r c hr0 hr1 hc0 hc1 m _
            (by omega), if_pos (by omega)]
          congr 1
          omega
        · rw [if_neg c1, SwapChannels_inside b ch1 ch2 hb2 h1 h2 r c hr0 hr1 hc0 hc1 m a ha,
            if_neg c2, if_neg c1]
    · have hout : ∀ r c, 0 ≤ r → r < b.height → 0 ≤ c → c < b.width →
          ¬ (r * b.row_stride + c * (b.channels * b.item_size) ≤ a
            ∧ a < r * b.row_stride + (c + 1) * (b.channels * b.item_size)) :=
        fun r c hr0 hr1 hc0 hc1 h => hreg ⟨r, c, hr0, hr1, hc0, hc1, h⟩
      rw [SwapChannels_outside b ch1 ch2 hb2 h1 h2 _ a hout,
        SwapChannels_outside b ch1 ch2 hb2 h1 h2 m a hout]
  · funext a
    by_cases hreg : ∃ r c, 0 ≤ r ∧ r < b.height ∧ 0 ≤ c ∧ c < b.width
        ∧ (r * b.row_stride + c * (b.channels * b.item_size) ≤ a
          ∧ a < r * b.row_stride + (c + 1) * (b.channels * b.item_size))
    · obtain ⟨r, c, hr0, hr1, hc0, hc1, ha⟩ := hreg
      have hd := ByteOffset_disjoint b r c ch1 ch2 (by omega) hne
      rw [SwapChannels_inside b ch1 ch2 hb2 h1 h2 r c hr0 hr1 hc0 hc1 m a ha,
        SwapChannels_inside b ch2 ch1 hb2 h2 h1 r c hr0 hr1 hc0 hc1 m a ha]
      by_cases c2 : b.ByteOffset r c ch2 ≤ a ∧ a < b.ByteOffset r c ch2 + b.item_size
      · rw [if_pos c2, if_neg (by omega), if_pos c2]
      · rw [if_neg c2, if_neg c2]
    · have hout : ∀ r c, 0 ≤ r → r < b.height → 0 ≤ c → c < b.width →
          ¬ (r * b.row_stride + c * (b.channels * b.item_size) ≤ a
            ∧ a < r * b.row_stride + (c + 1) * (b.channels * b.item_size)) :=
        fun r c hr0 hr1 hc0 hc1 h => hreg ⟨r, c, hr0, hr1, hc0, hc1, h⟩
      rw [SwapChannels_outside b ch1 ch2 hb2 h1 h2 m a hout,
        SwapChannels_outside b ch2 ch1 hb2 h2 h1 m a hout]

/-- C39: on a well-formed buffer, for channel indices `i` and `j` in range,
`SwapChannels(i, j)` succeeds, applying it again to the result gives back the
buffer with every byte of its memory as before, and `SwapChannels(j, i)`
gives the same buffer as `SwapChannels(i, j)`. -/
theorem SwapChannels_involution (b : ImageBuffer) (i j : Int) (hb : b.WellFormed)
    (hi : 0 ≤ i ∧ i < b.channels) (hj : 0 ≤ j ∧ j < b.channels) :
    (∃ d, b.SwapChannels i j = .ok d ∧ d.SwapChannels i j = .ok b)
    ∧ b.SwapChannels i j = b.SwapChannels j i := by
  have hb2 := hb
  obtain ⟨hdata, hw, hh, hch, hsz, hstride⟩ := hb
  obtain ⟨m0, hm⟩ := Option.isSome_iff_exists.mp hdata
  have hrange : ¬ (i < 0 ∨ i ≥ b.channels ∨ j < 0 ∨ j ≥ b.channels) := by omega
  have hrange2 : ¬ (j < 0 ∨ j ≥ b.channels ∨ i < 0 ∨ i ≥ b.channels) := by omega
  by_cases hne : i = j
  · subst hne
    have hrun : b.SwapChannels i i = .ok b := by
      simp [ImageBuffer.SwapChannels, hrange, hm]
    exact ⟨⟨b, hrun, hrun⟩, rfl⟩
  · have hne2 : ¬ j = i := fun h => hne h.symm
    obtain ⟨htwice, hsym⟩ := helpers_SwapChannels_twice b i j hb2 hi hj hne m0
    have hrun : b.SwapChannels i j
        = .ok { b with data := some (helpers.SwapChannels b.buffer_type b m0 i j) } := by
      simp [ImageBuffer.SwapChannels, hrange, hm, hne]
    have hrun2 : b.SwapChannels j i
        = .ok { b with data := some (helpers.SwapChannels b.buffer_type b m0 j i) } := by
      simp [ImageBuffer.SwapChannels, hrange2, hm, hne2]
    constructor
    · refine ⟨_, hrun, ?_⟩
      have hback : ImageBuffer.SwapChannels
          { b with data := some (helpers.SwapChannels b.buffer_type b m0 i j) } i j
          = .ok { b with data := some (helpers.SwapChannels b.buffer_type b
              (helpers.SwapChannels b.buffer_type b m0 i j) i j) } := by
        simp only [ImageBuffer.SwapChannels, hrange, if_false, hne]
        rfl
      rw [hback, htwice]
      congr 1
      cases b
      simp only at hm
      simp only [hm]
    · rw [hrun, hrun2, hsym]

theorem SwapChannels_involution_witness :
    rgb1x2padded.WellFormed
    ∧ (∃ d, rgb1x2padded.SwapChannels 0 2 = .ok d ∧ d.SwapChannels 0 2 = .ok rgb1x2padded)
    ∧ rgb1x2padded.SwapChannels 0 2 = rgb1x2padded.SwapChannels 2 0 :=
  ⟨by decide,
    SwapChannels_involution rgb1x2padded 0 2 (by decide) (by decide) (by decide)⟩

/-! ### Image buffer: contiguous and padded sources -/

/-- C33 (defect of the code): the contiguous buffer `rgb1x2contiguous` and the
buffer `rgb1x2padded` with padded rows are well-formed, have the same size,
channels and type and hold the same pixel values, but `ToChannels(4)` gives
different results: in row 1 the contiguous source gets alpha 255, the padded
source keeps the initial content 0 of the new memory. The colour channels of
the two results agree. -/
theorem ToChannels_contiguous_differs_from_padded :
    rgb1x2contiguous.WellFormed ∧ rgb1x2padded.WellFormed
    ∧ rgb1x2contiguous.IsContiguous = true ∧ rgb1x2padded.IsContiguous = false
    ∧ rgb1x2contiguous.width = rgb1x2padded.width
    ∧ rgb1x2contiguous.height = rgb1x2padded.height
    ∧ rgb1x2contiguous.channels = rgb1x2padded.channels
    ∧ rgb1x2contiguous.buffer_type = rgb1x2padded.buffer_type
    ∧ [rgb1x2contiguous.At .UInt8 0 0 0, rgb1x2contiguous.At .UInt8 0 0 1,
        rgb1x2contiguous.At .UInt8 0 0 2, rgb1x2contiguous.At .UInt8 1 0 0,
        rgb1x2contiguous.At .UInt8 1 0 1, rgb1x2contiguous.At .UInt8 1 0 2]
      = [rgb1x2padded.At .UInt8 0 0 0, rgb1x2padded.At .UInt8 0 0 1,
        rgb1x2padded.At .UInt8 0 0 2, rgb1x2padded.At .UInt8 1 0 0,
        rgb1x2padded.At .UInt8 1 0 1, rgb1x2padded.At .UInt8 1 0 2]
    ∧ ∃ d1 d2, ImageBuffer.ToChannels (some (fun _ => 0)) rgb1x2contiguous 4 = .ok d1
      ∧ ImageBuffer.ToChannels (some (fun _ => 0)) rgb1x2padded 4 = .ok d2
      ∧ [d1.At .UInt8 0 0 0, d1.At .UInt8 0 0 1, d1.At .UInt8 0 0 2, d1.At .UInt8 0 0 3]
          = [some [1], some [2], some [3], some [255]]
      ∧ [d1.At .UInt8 1 0 0, d1.At .UInt8 1 0 1, d1.At .UInt8 1 0 2, d1.At .UInt8 1 0 3]
          = [some [4], some [5], some [6], some [255]]
      ∧ [d2.At .UInt8 0 0 0, d2.At .UInt8 0 0 1, d2.At .UInt8 0 0 2, d2.At .UInt8 0 0 3]
          = [some [1], some [2], some [3], some [255]]
      ∧ [d2.At .UInt8 1 0 0, d2.At .UInt8 1 0 1, d2.At .UInt8 1 0 2, d2.At .UInt8 1 0 3]
          = [some [4], some [5], some [6], some [0]]
      ∧ d1.At .UInt8 1 0 3 ≠ d2.At .UInt8 1 0 3 :=
  ⟨by decide, by decide, by decide, by decide, rfl, rfl, rfl, rfl, rfl,
    _, _, rfl, rfl, rfl, rfl, rfl, rfl, by decide⟩

/-! ### Colors with NaN and infinite components -/

/-- On finite values the clamp of the `double` model is the clamp of the
rational numbers. -/
theorem ieee_saturation_cast_finite (val low high : ℚ) :
    ieee.saturation_cast (.finite val) (.finite low) (.finite high)
      = .finite (saturation_cast val low high) := by
  unfold ieee.saturation_cast saturation_cast std.min std.max
  by_cases h1 : val < low
  · have e1 : max val low = low := max_eq_right (le_of_lt h1)
    simp only [Double.lt, h1, decide_True, if_true, e1]
    by_cases h2 : high < low
    · simp only [h2, decide_True, if_true, min_eq_right (le_of_lt h2)]
    · simp only [h2, decide_False, Bool.false_eq_true, if_false, min_eq_left (not_lt.mp h2)]
  · have e1 : max val low = val := max_eq_left (not_lt.mp h1)
    simp only [Double.lt, h1, decide_False, Bool.false_eq_true, if_false, e1]
    by_cases h2 : high < val
    · simp only [h2, decide_True, if_true, min_eq_right (le_of_lt h2)]
    · simp only [h2, decide_False, Bool.false_eq_true, if_false, min_eq_left (not_lt.mp h2)]

/-- The clamp to `[0, 1]` of every `double`: a finite value gives
`min(max(x, 0), 1)`, the infinities give 1 and 0, NaN gives NaN. -/
theorem ieee_saturation_cast_unit (x : Double) :
    ieee.saturation_cast x (.finite 0) (.finite 1)
      = match x with
        | .nan => .nan
        | .negInf => .finite 0
        | .finite v => .finite (min (max v 0) 1)
        | .posInf => .finite 1 := by
  cases x with
  | nan => rfl
  | negInf => rfl
  | finite v => exact ieee_saturation_cast_finite v 0 1
  | posInf => rfl

/-- C13, counterexample: the red component of `Color(NaN, 0, 0, 1)` is NaN,
which is not in `[0, 1]`: neither `0 <= red` nor `red <= 1` holds. -/
theorem Color_init_nan_not_clamped :
    (ieee.Color.init .nan (.finite 0) (.finite 0) (.finite 1)).red = .nan
    ∧ Double.le (.finite 0)
        (ieee.Color.init .nan (.finite 0) (.finite 0) (.finite 1)).red = false
    ∧ Double.le (ieee.Color.init .nan (.finite 0) (.finite 0) (.finite 1)).red
        (.finite 1) = false :=
  ⟨rfl, rfl, rfl⟩

/-- C13, amended: every component of `Color(r, g, b, a)` is
`saturation_cast` of its input with the bounds 0 and 1. For an input that is
not NaN the component is a finite value in `[0, 1]`: `min(max(x, 0), 1)` for
a finite `x`, 1 for plus infinity and 0 for minus infinity. A NaN input is
stored as NaN. `Color(-1, 2, 0.5, 5)` has the components `(0, 1, 0.5, 1)`. -/
theorem Color_init_clamped_numeric (r g b a : Double) :
    (ieee.Color.init r g b a).red = ieee.saturation_cast r (.finite 0) (.finite 1)
    ∧ (ieee.Color.init r g b a).green = ieee.saturation_cast g (.finite 0) (.finite 1)
    ∧ (ieee.Color.init r g b a).blue = ieee.saturation_cast b (.finite 0) (.finite 1)
    ∧ (ieee.Color.init r g b a).alpha = ieee.saturation_cast a (.finite 0) (.finite 1)
    ∧ (∀ x : Double, x ≠ .nan →
        Double.le (.finite 0) (ieee.saturation_cast x (.finite 0) (.finite 1)) = true
        ∧ Double.le (ieee.saturation_cast x (.finite 0) (.finite 1)) (.finite 1) = true)
    ∧ (∀ v : ℚ, ieee.saturation_cast (.finite v) (.finite 0) (.finite 1)
        = .finite (min (max v 0) 1))
    ∧ ieee.saturation_cast .posInf (.finite 0) (.finite 1) = .finite 1
    ∧ ieee.saturation_cast .negInf (.finite 0) (.finite 1) = .finite 0
    ∧ ieee.saturation_cast .nan (.finite 0) (.finite 1) = .nan
    ∧ (∀ x y z w : ℚ, ieee.Color.init (.finite x) (.finite y) (.finite z) (.finite w)
        = { red := .finite (Color.init x y z w).red,
            green := .finite (Color.init x y z w).green,
            blue := .finite (Color.init x y z w).blue,
            alpha := .finite (Color.init x y z w).alpha })
    ∧ ieee.Color.init (.finite (-1)) (.finite 2) (.finite (1 / 2)) (.finite 5)
        = { red := .finite 0, green := .finite 1, blue := .finite (1 / 2),
            alpha := .finite 1 } := by
  have hfin : ∀ v : ℚ, ieee.saturation_cast (.finite v) (.finite 0) (.finite 1)
      = .finite (min (max v 0) 1) := fun v => ieee_saturation_cast_finite v 0 1
  refine ⟨rfl, rfl, rfl, rfl, ?_, hfin, rfl, rfl, rfl, ?_, ?_⟩
  · intro x hx
    rw [ieee_saturation_cast_unit]
    cases x with
    | nan => exact absurd rfl hx
    | negInf => exact ⟨by simp [Double.le], by simp [Double.le]⟩
    | finite v =>
      have h0 : (0 : ℚ) ≤ min (max v 0) 1 := le_min (le_max_right v 0) (by norm_num)
      have h1 : min (max v 0) 1 ≤ (1 : ℚ) := min_le_right _ _
      exact ⟨by simp only [Double.le, h0, decide_True], by simp only [Double.le, h1, decide_True]⟩
    | posInf => exact ⟨by simp [Double.le], by simp [Double.le]⟩
  · intro x y z w
    simp only [ieee.Color.init, ieee_saturation_cast_finite, Color.init]
  · simp only [ieee.Color.init, hfin]
    norm_num

theorem Color_init_clamped_numeric_witness :
    Double.posInf ≠ Double.nan
    ∧ Double.le (.finite 0) (ieee.saturation_cast .posInf (.finite 0) (.finite 1)) = true
    ∧ Double.le (ieee.saturation_cast .posInf (.finite 0) (.finite 1)) (.finite 1) = true :=
  ⟨by decide,
    (Color_init_clamped_numeric .posInf .posInf .posInf .posInf).2.2.2.2.1 .posInf (by decide)⟩

end viren2d
